import Mathlib

/-!
# dce-campus-ofswitch13: topology assembly, traffic scheduling, measurement

A shallow embedding of `myscripts/python/dce-campus-ofswitch13.cc` (function `main`).

* Nodes, devices and containers are named structurally: a node is the slot of the
  container it was created in, a device is one end of the k-th `csma.Install` of a
  campus iteration.
* Sizes and counters that the source keeps in `size_t` / `uint32_t` loop variables are
  natural numbers; the byte totals of the measurement part, where wrap-around matters,
  are reduced modulo `2^32` explicitly.
* Start times (`double` in the source) are exact rationals: the statements proved here
  only concern which drawn value is used, never rounding.
-/

namespace DceCampus

/-! ## Nodes and node containers -/

/-- The node containers of `main`: `of13ControllerNodes` and the ten per-campus vectors. -/
inductive Group where
  | of13ControllerNodes
  | net1Servers
  | net2Clients
  | net3Clients
  | net0Switches
  | net1Switches
  | net2Switches
  | net3Switches
  | net4Switch
  | net5Switch
  deriving DecidableEq, Repr

/-- A node handle: slot `idx` of the container `group` stored at position `slot` of its
vector (position `0` for `of13ControllerNodes`, which is a single container). -/
structure Node where
  group : Group
  slot : Nat
  idx : Nat
  deriving DecidableEq, Repr

/-- A `NodeContainer` filled by one `Create (n)` call. -/
structure NodeContainer where
  group : Group
  slot : Nat
  n : Nat
  deriving DecidableEq, Repr

/-- The call `NodeContainer::Create (n)` on a fresh container. -/
def NodeContainer.Create (g : Group) (slot n : Nat) : NodeContainer := ⟨g, slot, n⟩

/-- The call `NodeContainer::GetN`. -/
def NodeContainer.GetN (c : NodeContainer) : Nat := c.n

/-- The call `NodeContainer::Get (i)`: the handle of slot `i`. The source does not check the index;
the handle names a created node exactly when `i < c.GetN`. -/
def NodeContainer.Get (c : NodeContainer) (i : Nat) : Node := ⟨c.group, c.slot, i⟩

/-- The nodes a container holds, in creation order. -/
def NodeContainer.nodes (c : NodeContainer) : List Node := (List.range c.n).map c.Get

/-- The containers pushed by iteration `i` of the node-creation loop (lines 163-218). -/
structure CampusNodes where
  net1Servers : NodeContainer
  net2Clients : NodeContainer
  net3Clients : NodeContainer
  net0Switches : NodeContainer
  net1Switches : NodeContainer
  net2Switches : NodeContainer
  net3Switches : NodeContainer
  net4Switch : NodeContainer
  net5Switch : NodeContainer
  deriving DecidableEq, Repr

/-- Body of the node-creation loop for iteration `i`. -/
def createCampusNodes (nClientsPer i : Nat) : CampusNodes where
  net1Servers := NodeContainer.Create .net1Servers i 4
  net2Clients := NodeContainer.Create .net2Clients i (7 * nClientsPer)
  net3Clients := NodeContainer.Create .net3Clients i (5 * nClientsPer)
  net0Switches := NodeContainer.Create .net0Switches i 3
  net1Switches := NodeContainer.Create .net1Switches i 2
  net2Switches := NodeContainer.Create .net2Switches i 7
  net3Switches := NodeContainer.Create .net3Switches i 5
  net4Switch := NodeContainer.Create .net4Switch i 1
  net5Switch := NodeContainer.Create .net5Switch i 1

/-- The node-creation loop `for (i = 0; i < nCampuses; ++i)`: entry `i` holds the
containers found at index `i` of the ten vectors afterwards. -/
def createNodes (nCampuses nClientsPer : Nat) : List CampusNodes :=
  (List.range nCampuses).map (createCampusNodes nClientsPer)

/-- Every switch node created for a campus (the six switch containers). -/
def CampusNodes.switchNodes (c : CampusNodes) : List Node :=
  c.net0Switches.nodes ++ c.net1Switches.nodes ++ c.net2Switches.nodes ++
    c.net3Switches.nodes ++ c.net4Switch.nodes ++ c.net5Switch.nodes

/-- Every endpoint node created for a campus (servers, tier-2 clients, tier-3 clients). -/
def CampusNodes.endpointNodes (c : CampusNodes) : List Node :=
  c.net1Servers.nodes ++ c.net2Clients.nodes ++ c.net3Clients.nodes

/-! ## Devices, links, port containers, interfaces -/

/-- The three configured link helpers (lines 221-229); all carry 1Gbps / 1ms. -/
inductive CsmaHelper where
  | csma_1gb5ms
  | csma_2gb200ms
  | csma_100mb1ms
  deriving DecidableEq, Repr

/-- One `csma.Install (NodeContainer (a, b))` call: a channel with one device on `a`
and one on `b`. -/
structure Link where
  a : Node
  b : Node
  helper : CsmaHelper
  deriving DecidableEq, Repr

/-- A net device (port handle): end `side` of the `link`-th `Install` call made in
campus iteration `z`; `node` is the node the device was installed on. -/
structure Dev where
  z : Nat
  link : Nat
  side : Nat
  node : Node
  deriving DecidableEq, Repr

/-- A switch port container: `of13SwitchPorts<net> [i]` of campus iteration `z`
(`of13SwitchPorts4` and `of13SwitchPorts5` are `net = 4, 5` with `i = 0`). -/
structure PortSet where
  z : Nat
  net : Nat
  i : Nat
  deriving DecidableEq, Repr

/-- The twelve vectors of interface containers. -/
inductive IfVec where
  | net1Interfaces
  | net22Interfaces
  | net23Interfaces
  | net24Interfaces
  | net25Interfaces
  | net26aInterfaces
  | net26bInterfaces
  | net26cInterfaces
  | net30aInterfaces
  | net30bInterfaces
  | net32Interfaces
  | net33aInterfaces
  | net33bInterfaces
  deriving DecidableEq, Repr

/-- The interface container `vec [z]`. -/
structure IfSet where
  vec : IfVec
  z : Nat
  deriving DecidableEq, Repr

/-- An interface record: the device and the address assigned to it. -/
structure Iface where
  dev : Dev
  addr : Nat
  deriving DecidableEq, Repr

/-- Modelled from the spec: the address allocator (`Ipv4AddressHelper`, part of the
simulation library and not under src/). It "hands out next-available host addresses from
a single contiguous pool", allocation is "monotonic and non-reused", with "no explicit
release". The state is the network number, the next host number and the last host number
of the pool. -/
structure Ipv4AddressHelper where
  network : Nat
  address : Nat
  max : Nat
  deriving DecidableEq, Repr

/-- Modelled from the spec: `SetBase ("192.168.0.0", "255.255.0.0")`, the one shared /16
pool; host numbers `1 .. 65534`. -/
def Ipv4AddressHelper.SetBase : Ipv4AddressHelper :=
  ⟨192 * 2 ^ 24 + 168 * 2 ^ 16, 1, 2 ^ 16 - 2⟩

/-- Modelled from the spec: the next available address of the pool, or `none` once the
pool is exhausted (no address is ever handed out twice). -/
def Ipv4AddressHelper.NewAddress (h : Ipv4AddressHelper) : Option (Nat × Ipv4AddressHelper) :=
  if h.address ≤ h.max then some (h.network + h.address, { h with address := h.address + 1 })
  else none

/-- The enumeration `OFSwitch13Helper::ChannelType`. -/
inductive ChannelType where
  | SINGLECSMA
  | DEDICATEDCSMA
  | DEDICATEDP2P
  deriving DecidableEq, Repr

/-- An `OFSwitch13Helper` as configured at lines 244-253. -/
structure OFSwitch13Helper where
  channelType : ChannelType
  controller : Node
  deriving DecidableEq, Repr

/-- A DCE application installed by `dce.Install`. -/
structure DceApp where
  node : Node
  binary : String
  args : List String
  deriving DecidableEq, Repr

/-- The command-line configuration of `main` (lines 94-113); `nClientsPer` is a fixed
local (`8`) in the source and a parameter here. -/
structure Config where
  nCampuses : Nat
  nClientsPer : Nat
  connType : Nat
  verbose : Bool
  trace : Bool
  app : Nat
  realController : Bool
  numFlows : Nat
  run : Nat
  deriving DecidableEq, Repr

/-- The defaults of lines 94-102. -/
def Config.default : Config := ⟨1, 8, 0, false, false, 0, false, 0, 0⟩

/-- The state built by the campus loop (lines 241-715). `aborted` records that the
process was terminated by the address allocator; no later statement has any effect. -/
structure Sim where
  aborted : Bool
  ipv4switches : Ipv4AddressHelper
  links : Nat → List Link
  ports : PortSet → List Dev
  ifaces : IfSet → List Iface
  of13Helpers : List OFSwitch13Helper
  installed : Nat → List (Node × List Dev)
  apps : List DceApp
  logError : List String

/-- Point update of a finite map represented as a function. -/
def upd {α β : Type} [DecidableEq α] (f : α → β) (k : α) (v : β) : α → β :=
  fun x => if x = k then v else f x

/-- The state before the campus loop: empty containers, allocator at its base. -/
def Sim.init : Sim where
  aborted := false
  ipv4switches := Ipv4AddressHelper.SetBase
  links := fun _ => []
  ports := fun _ => []
  ifaces := fun _ => []
  of13Helpers := []
  installed := fun _ => []
  apps := []
  logError := []

/-- The call `csma.Install (NodeContainer (a, b))` in campus iteration `z`. -/
def Sim.Install (z : Nat) (h : CsmaHelper) (a b : Node) (s : Sim) : Sim :=
  if s.aborted then s
  else { s with links := upd s.links z (s.links z ++ [⟨a, b, h⟩]) }

/-- The call `ports.Add (dev)` on a switch port container. -/
def Sim.portsAdd (p : PortSet) (d : Dev) (s : Sim) : Sim :=
  if s.aborted then s
  else { s with ports := upd s.ports p (s.ports p ++ [d]) }

/-- The statement `ifaces.Add (ipv4switches.Assign (NetDeviceContainer (dev)))`: the
allocator hands out the next address, or terminates the process when the pool is used up. -/
def Sim.assignAdd (g : IfSet) (d : Dev) (s : Sim) : Sim :=
  if s.aborted then s
  else match s.ipv4switches.NewAddress with
    | none => { s with aborted := true }
    | some (a, h) =>
      { s with ipv4switches := h, ifaces := upd s.ifaces g (s.ifaces g ++ [⟨d, a⟩]) }

/-- The call `of13Helpers [z]->InstallSwitch (node, ports)`: it is recorded with the
contents the port container has at that moment. -/
def Sim.InstallSwitch (z : Nat) (node : Node) (p : PortSet) (s : Sim) : Sim :=
  if s.aborted then s
  else { s with installed := upd s.installed z (s.installed z ++ [(node, s.ports p)]) }

/-- The recurring switch-to-switch block:
`ndc = csma_1gb5ms.Install (a, b); pa.Add (ndc.Get (0)); pb.Add (ndc.Get (1));`. -/
def linkSwitches (z : Nat) (a b : Node) (pa pb : PortSet) (s : Sim) : Sim :=
  let k := (s.links z).length
  s |> Sim.Install z .csma_1gb5ms a b
    |> Sim.portsAdd pa ⟨z, k, 0, a⟩
    |> Sim.portsAdd pb ⟨z, k, 1, b⟩

/-- The recurring switch-to-host block:
`ndc = csma.Install (sw, host); p.Add (ndc.Get (0)); g.Add (ipv4switches.Assign (ndc.Get (1)));`. -/
def linkHost (z : Nat) (h : CsmaHelper) (sw host : Node) (p : PortSet) (g : IfSet)
    (s : Sim) : Sim :=
  let k := (s.links z).length
  s |> Sim.Install z h sw host
    |> Sim.portsAdd p ⟨z, k, 0, sw⟩
    |> Sim.assignAdd g ⟨z, k, 1, host⟩

/-- The channel type chosen at lines 245-252. -/
def channelTypeFor (realController : Bool) : ChannelType :=
  if realController then .DEDICATEDCSMA else .DEDICATEDP2P

/-- Lines 244-253: create helper `z`, set its channel type, install the controller. -/
def setupController (cfg : Config) (z : Nat) (s : Sim) : Sim :=
  if s.aborted then s
  else { s with of13Helpers := s.of13Helpers ++
          [⟨channelTypeFor cfg.realController,
            (NodeContainer.Create .of13ControllerNodes 0 cfg.nCampuses).Get z⟩] }

/-- Lines 264-274: the three core switches in a ring. -/
def net0Ring (z : Nat) (c : CampusNodes) (s : Sim) : Sim :=
  (List.range 3).foldl
    (fun s i => linkSwitches z (c.net0Switches.Get i) (c.net0Switches.Get ((i + 1) % 3))
      ⟨z, 0, i⟩ ⟨z, 0, (i + 1) % 3⟩ s) s

/-- Lines 284-296: the four servers, `swIndex = floor (i / 2)`. -/
def net1ServersLoop (z : Nat) (c : CampusNodes) (s : Sim) : Sim :=
  (List.range 4).foldl
    (fun s i => linkHost z .csma_1gb5ms (c.net1Switches.Get (i / 2)) (c.net1Servers.Get i)
      ⟨z, 1, i / 2⟩ ⟨.net1Interfaces, z⟩ s) s

/-- Lines 297-303, commented "Connect the 2 switches together": the node container
holds `net1Servers [z].Get (0)` and `net1Servers [z].Get (1)`. -/
def net1Cross (z : Nat) (c : CampusNodes) (s : Sim) : Sim :=
  linkSwitches z (c.net1Servers.Get 0) (c.net1Servers.Get 1) ⟨z, 1, 0⟩ ⟨z, 1, 1⟩ s

/-- Lines 305-341: core to tier 1, core to the two gateways, gateway to gateway. -/
def net0Uplinks (z : Nat) (c : CampusNodes) (s : Sim) : Sim :=
  s |> linkSwitches z (c.net0Switches.Get 2) (c.net1Switches.Get 0) ⟨z, 0, 2⟩ ⟨z, 1, 0⟩
    |> linkSwitches z (c.net0Switches.Get 1) (c.net4Switch.Get 0) ⟨z, 0, 1⟩ ⟨z, 4, 0⟩
    |> linkSwitches z (c.net0Switches.Get 1) (c.net5Switch.Get 0) ⟨z, 0, 1⟩ ⟨z, 5, 0⟩
    |> linkSwitches z (c.net4Switch.Get 0) (c.net5Switch.Get 0) ⟨z, 4, 0⟩ ⟨z, 5, 0⟩

/-- Lines 351-430: gateway 4 to tier 2, then the tier-2 mesh. -/
def net2Mesh (z : Nat) (c : CampusNodes) (s : Sim) : Sim :=
  s |> linkSwitches z (c.net4Switch.Get 0) (c.net2Switches.Get 0) ⟨z, 4, 0⟩ ⟨z, 2, 0⟩
    |> linkSwitches z (c.net4Switch.Get 0) (c.net2Switches.Get 1) ⟨z, 4, 0⟩ ⟨z, 2, 1⟩
    |> linkSwitches z (c.net2Switches.Get 0) (c.net2Switches.Get 1) ⟨z, 2, 0⟩ ⟨z, 2, 1⟩
    |> linkSwitches z (c.net2Switches.Get 0) (c.net2Switches.Get 2) ⟨z, 2, 0⟩ ⟨z, 2, 2⟩
    |> linkSwitches z (c.net2Switches.Get 1) (c.net2Switches.Get 3) ⟨z, 2, 1⟩ ⟨z, 2, 3⟩
    |> linkSwitches z (c.net2Switches.Get 2) (c.net2Switches.Get 3) ⟨z, 2, 2⟩ ⟨z, 2, 3⟩
    |> linkSwitches z (c.net2Switches.Get 2) (c.net2Switches.Get 4) ⟨z, 2, 2⟩ ⟨z, 2, 4⟩
    |> linkSwitches z (c.net2Switches.Get 3) (c.net2Switches.Get 5) ⟨z, 2, 3⟩ ⟨z, 2, 5⟩
    |> linkSwitches z (c.net2Switches.Get 5) (c.net2Switches.Get 6) ⟨z, 2, 5⟩ ⟨z, 2, 6⟩

/-- Lines 438-492: one iteration of the tier-2 client loop. -/
def net2ClientsBody (n z : Nat) (c : CampusNodes) (s : Sim) (i : Nat) : Sim :=
  s |> linkHost z .csma_100mb1ms (c.net2Switches.Get 2) (c.net2Clients.Get i)
        ⟨z, 2, 2⟩ ⟨.net22Interfaces, z⟩
    |> linkHost z .csma_100mb1ms (c.net2Switches.Get 3) (c.net2Clients.Get (i + n))
        ⟨z, 2, 3⟩ ⟨.net23Interfaces, z⟩
    |> linkHost z .csma_100mb1ms (c.net2Switches.Get 4) (c.net2Clients.Get (i + n + n))
        ⟨z, 2, 4⟩ ⟨.net24Interfaces, z⟩
    |> linkHost z .csma_100mb1ms (c.net2Switches.Get 5) (c.net2Clients.Get (i + n + n + n))
        ⟨z, 2, 5⟩ ⟨.net25Interfaces, z⟩
    |> linkHost z .csma_100mb1ms (c.net2Switches.Get 6)
        (c.net2Clients.Get (i + n + n + n + n)) ⟨z, 2, 6⟩ ⟨.net26aInterfaces, z⟩
    |> linkHost z .csma_100mb1ms (c.net2Switches.Get 6)
        (c.net2Clients.Get (i + n + n + n + n + n)) ⟨z, 2, 6⟩ ⟨.net26bInterfaces, z⟩
    |> linkHost z .csma_100mb1ms (c.net2Switches.Get 6)
        (c.net2Clients.Get (i + n + n + n + n + n + n)) ⟨z, 2, 6⟩ ⟨.net26cInterfaces, z⟩

/-- Lines 436-493: `for (i = 0; i < nClientsPer; ++i)`. -/
def net2ClientsLoop (n z : Nat) (c : CampusNodes) (s : Sim) : Sim :=
  (List.range n).foldl (net2ClientsBody n z c) s

/-- Lines 503-555: gateway 5 to tier 3, then the tier-3 mesh. -/
def net3Mesh (z : Nat) (c : CampusNodes) (s : Sim) : Sim :=
  s |> linkSwitches z (c.net5Switch.Get 0) (c.net3Switches.Get 0) ⟨z, 5, 0⟩ ⟨z, 3, 0⟩
    |> linkSwitches z (c.net5Switch.Get 0) (c.net3Switches.Get 1) ⟨z, 5, 0⟩ ⟨z, 3, 1⟩
    |> linkSwitches z (c.net3Switches.Get 0) (c.net3Switches.Get 1) ⟨z, 3, 0⟩ ⟨z, 3, 1⟩
    |> linkSwitches z (c.net3Switches.Get 1) (c.net3Switches.Get 2) ⟨z, 3, 1⟩ ⟨z, 3, 2⟩
    |> linkSwitches z (c.net3Switches.Get 1) (c.net3Switches.Get 3) ⟨z, 3, 1⟩ ⟨z, 3, 3⟩
    |> linkSwitches z (c.net3Switches.Get 2) (c.net3Switches.Get 3) ⟨z, 3, 2⟩ ⟨z, 3, 3⟩

/-- Lines 564-602: one iteration of the tier-3 client loop. -/
def net3ClientsBody (n z : Nat) (c : CampusNodes) (s : Sim) (i : Nat) : Sim :=
  s |> linkHost z .csma_100mb1ms (c.net3Switches.Get 0) (c.net3Clients.Get i)
        ⟨z, 3, 0⟩ ⟨.net30aInterfaces, z⟩
    |> linkHost z .csma_100mb1ms (c.net3Switches.Get 0) (c.net3Clients.Get (i + n))
        ⟨z, 3, 0⟩ ⟨.net30bInterfaces, z⟩
    |> linkHost z .csma_100mb1ms (c.net3Switches.Get 2) (c.net3Clients.Get (i + n + n))
        ⟨z, 3, 2⟩ ⟨.net32Interfaces, z⟩
    |> linkHost z .csma_100mb1ms (c.net3Switches.Get 3) (c.net3Clients.Get (i + n + n + n))
        ⟨z, 3, 3⟩ ⟨.net33aInterfaces, z⟩
    |> linkHost z .csma_100mb1ms (c.net3Switches.Get 3)
        (c.net3Clients.Get (i + n + n + n + n)) ⟨z, 3, 3⟩ ⟨.net33bInterfaces, z⟩

/-- Lines 562-603: `for (i = 0; i < nClientsPer; ++i)`. -/
def net3ClientsLoop (n z : Nat) (c : CampusNodes) (s : Sim) : Sim :=
  (List.range n).foldl (net3ClientsBody n z c) s

/-- The loop `for (i = 0; i < k; ++i) InstallSwitch (sw.Get (i), of13SwitchPorts<net> [i]);`. -/
def installLoop (z net k : Nat) (sw : NodeContainer) (s : Sim) : Sim :=
  (List.range k).foldl (fun s i => Sim.InstallSwitch z (sw.Get i) ⟨z, net, i⟩ s) s

/-- Lines 606-630: control-plane attachment of the campus. -/
def installSwitches (z : Nat) (c : CampusNodes) (s : Sim) : Sim :=
  s |> installLoop z 0 3 c.net0Switches
    |> installLoop z 1 2 c.net1Switches
    |> installLoop z 2 7 c.net2Switches
    |> installLoop z 3 4 c.net3Switches
    |> Sim.InstallSwitch z (c.net4Switch.Get 0) ⟨z, 4, 0⟩
    |> Sim.InstallSwitch z (c.net5Switch.Get 0) ⟨z, 5, 0⟩

/-- The names printed by `apps [app]` at line 115. -/
def appNames : List String :=
  ["ss", "fwm", "nm-bfs", "nm-ucs", "fwcm", "fws", "ns-bfs", "ns-ucs", "fwcs"]

/-- The `switch (app)` of lines 680-711 over `enum APP_TYPE`
(`SS = 0, FWM, NMBFS, NMUCS, FWCM, FWS, NSBFS, NSUCS, FWCS = 8`): the module argument
added, or `none` in the `default` branch. -/
def appModule (app : Nat) : Option String :=
  match app with
  | 0 => some "ryu/app/simple_switch_13.py"
  | 1 => some "ryu/app/fw_mpls.py"
  | 2 => some "ryu/app/nix_mpls_bfs.py"
  | 3 => some "ryu/app/nix_mpls_ucs.py"
  | 4 => some "ryu/app/fw_cuda_mpls.py"
  | 5 => some "ryu/app/fw_simple.py"
  | 6 => some "ryu/app/nix_simple_bfs.py"
  | 7 => some "ryu/app/nix_simple_ucs.py"
  | 8 => some "ryu/app/fw_cuda_simple.py"
  | _ => none

/-- Lines 645-714: the controller application of campus `z`. With a real controller the
helper's control devices are bridged to the host and `apps` is left alone. Otherwise the
argument list is assembled, the `default` branch of the switch only calls `NS_LOG_ERROR`,
and `apps.Add (dce.Install (...))` follows in every case. -/
def controllerApp (cfg : Config) (z : Nat) (s : Sim) : Sim :=
  if s.aborted then s
  else if cfg.realController then s
  else
    let node := (NodeContainer.Create .of13ControllerNodes 0 cfg.nCampuses).Get z
    let args := (if cfg.verbose then ["-v"] else []) ++ ["ryu-manager"] ++
      (if cfg.verbose then ["--verbose"] else [])
    match appModule cfg.app with
    | some m => { s with apps := s.apps ++ [⟨node, "python2-dce", args ++ [m]⟩] }
    | none =>
      { s with logError := s.logError ++ ["Invalid controller application"],
               apps := s.apps ++ [⟨node, "python2-dce", args⟩] }

/-- Lines 256-714 of iteration `z`: wiring, attachment, controller application. -/
def wireCampus (cfg : Config) (c : CampusNodes) (z : Nat) (s : Sim) : Sim :=
  s |> net0Ring z c
    |> net1ServersLoop z c
    |> net1Cross z c
    |> net0Uplinks z c
    |> net2Mesh z c
    |> net2ClientsLoop cfg.nClientsPer z c
    |> net3Mesh z c
    |> net3ClientsLoop cfg.nClientsPer z c
    |> installSwitches z c
    |> controllerApp cfg z

/-- One iteration `z` of the campus loop (lines 241-715). -/
def campus (cfg : Config) (c : CampusNodes) (z : Nat) (s : Sim) : Sim :=
  s |> setupController cfg z |> wireCampus cfg c z

/-- Lines 163-715: node creation, then the campus loop `for (z = 0; z < nCampuses; ++z)`;
iteration `z` works on the containers at index `z` of the vectors. -/
def buildTopology (cfg : Config) : Sim :=
  (List.range cfg.nCampuses).foldl
    (fun s z => match (createNodes cfg.nCampuses cfg.nClientsPer)[z]? with
      | some c => campus cfg c z s
      | none => s) Sim.init

/-! ## Traffic scheduler (lines 729-945) -/

/-- The random variable `nrng`: the value returned by the `k`-th call
`nrng->GetValue (mean, stddev)` of the run. -/
abbrev NormalRandomVariable := Nat → ℚ → ℚ → ℚ

/-- An `OnOffApplication` installed on `node`, sending to `remote : port` from `start`. -/
structure OnOffApp where
  node : Node
  remote : Option Nat
  port : Nat
  start : ℚ
  deriving DecidableEq, Repr

/-- A `PacketSink` installed on `node`, listening on `port`. -/
structure PacketSink where
  node : Node
  port : Nat
  deriving DecidableEq, Repr

/-- A `V4Ping` application. -/
structure V4Ping where
  node : Node
  remote : Option Nat
  stopper : Bool
  start : ℚ
  deriving DecidableEq, Repr

/-- What the scheduler reads through `.at (0)`: the campus-0 entries of `net1Interfaces`,
`net1Servers`, `net2Clients` and `net3Clients`. -/
structure Campus0 where
  net1Interfaces : List Iface
  net1Servers : NodeContainer
  net2Clients : NodeContainer
  net3Clients : NodeContainer
  deriving DecidableEq, Repr

/-- The call `GetAddress (i, 0)` on an interface container. -/
def GetAddress (ifs : List Iface) (i : Nat) : Option Nat := (ifs.get? i).map Iface.addr

/-- The three start-time variables of lines 732-734. -/
inductive StartVar where
  | startTime1
  | startTime2
  | startTime3
  deriving DecidableEq, Repr

/-- The state of the scheduler: application containers, the three start-time variables,
the number of `GetValue` calls made, the start times written to `std::cout`, the probes
and the argument of `Simulator::Stop`. -/
structure Traffic where
  clientApps : List OnOffApp
  sinkApps : List PacketSink
  startTime1 : ℚ
  startTime2 : ℚ
  startTime3 : ℚ
  draws : Nat
  cout : List ℚ
  pings : List V4Ping
  stop : Option ℚ
  deriving DecidableEq, Repr

/-- Lines 729-734. -/
def Traffic.init : Traffic := ⟨[], [], 0, 0, 0, 0, [], [], none⟩

/-- Assignment to one of the start-time variables. -/
def Traffic.setStart (v : StartVar) (x : ℚ) (t : Traffic) : Traffic :=
  match v with
  | .startTime1 => { t with startTime1 := x }
  | .startTime2 => { t with startTime2 := x }
  | .startTime3 => { t with startTime3 := x }

/-- One flow block (for instance lines 739-751): the client application towards server `d`
on `port`, its start time drawn and stored in `v`, printed, and the sink on server `d`. -/
def flow (nrng : NormalRandomVariable) (c0 : Campus0) (v : StartVar) (d port : Nat)
    (client : Node) (mean stddev : ℚ) (t : Traffic) : Traffic :=
  let x := nrng t.draws mean stddev
  { Traffic.setStart v x t with
    draws := t.draws + 1
    cout := t.cout ++ [x]
    clientApps := t.clientApps ++ [⟨client, GetAddress c0.net1Interfaces d, port, x⟩]
    sinkApps := t.sinkApps ++ [⟨c0.net1Servers.Get d, port⟩] }

/-- Lines 739-795: iteration `i` of the first wave. -/
def wave1Body (nrng : NormalRandomVariable) (n : Nat) (c0 : Campus0) (t : Traffic)
    (i : Nat) : Traffic :=
  t |> flow nrng c0 .startTime1 0 (45000 + i) (c0.net2Clients.Get i) 40.2022 12.7569
    |> flow nrng c0 .startTime1 1 (45000 + i) (c0.net2Clients.Get (i + n)) 45.1488 15.8784
    |> flow nrng c0 .startTime1 2 (45000 + i) (c0.net3Clients.Get i) 50.3700 12.4275
    |> flow nrng c0 .startTime1 3 (45000 + i) (c0.net3Clients.Get (i + n)) 52.0771 12.1562

/-- Lines 803-859: iteration `i` of the second wave. -/
def wave2Body (nrng : NormalRandomVariable) (n : Nat) (c0 : Campus0) (t : Traffic)
    (i : Nat) : Traffic :=
  t |> flow nrng c0 .startTime2 0 (45000 + 100 + i) (c0.net2Clients.Get (i + 2 * n))
        60.9917 8.8969
    |> flow nrng c0 .startTime2 1 (45000 + 100 + i) (c0.net2Clients.Get (i + 3 * n))
        62.2988 8.7971
    |> flow nrng c0 .startTime2 2 (45000 + 100 + i) (c0.net3Clients.Get (i + 2 * n))
        63.6185 8.9161
    |> flow nrng c0 .startTime2 3 (45000 + 100 + i) (c0.net3Clients.Get (i + 3 * n))
        66.8806 10.3544

/-- Lines 867-923: iteration `i` of the third wave. -/
def wave3Body (nrng : NormalRandomVariable) (n : Nat) (c0 : Campus0) (t : Traffic)
    (i : Nat) : Traffic :=
  t |> flow nrng c0 .startTime3 0 (45000 + 200 + i) (c0.net2Clients.Get (i + 4 * n))
        76.4604 8.3340
    |> flow nrng c0 .startTime3 1 (45000 + 200 + i) (c0.net2Clients.Get (i + 5 * n))
        77.6292 8.3340
    |> flow nrng c0 .startTime3 2 (45000 + 200 + i) (c0.net3Clients.Get (i + 4 * n))
        78.4683 8.4330
    |> flow nrng c0 .startTime3 3 (45000 + 200 + i) (c0.net2Clients.Get (i + 6 * n))
        80.1033 8.4256

/-- Lines 735-798: `if (numFlows > 0)`, four iterations, then `startTime3 = startTime1`. -/
def wave1 (nrng : NormalRandomVariable) (n numFlows : Nat) (c0 : Campus0) (t : Traffic) :
    Traffic :=
  if numFlows > 0 then
    let t1 := (List.range 4).foldl (wave1Body nrng n c0) t
    { t1 with startTime3 := t1.startTime1 }
  else t

/-- Lines 799-862: `if (numFlows > 1)`, four iterations, then `startTime3 = startTime2`. -/
def wave2 (nrng : NormalRandomVariable) (n numFlows : Nat) (c0 : Campus0) (t : Traffic) :
    Traffic :=
  if numFlows > 1 then
    let t1 := (List.range 4).foldl (wave2Body nrng n c0) t
    { t1 with startTime3 := t1.startTime2 }
  else t

/-- Lines 863-926: `if (numFlows > 2)`, four iterations, then line 925,
`startTime3 = startTime2`. -/
def wave3 (nrng : NormalRandomVariable) (n numFlows : Nat) (c0 : Campus0) (t : Traffic) :
    Traffic :=
  if numFlows > 2 then
    let t1 := (List.range 4).foldl (wave3Body nrng n c0) t
    { t1 with startTime3 := t1.startTime2 }
  else t

/-- Lines 932-945: the three probes towards server 3 and `Simulator::Stop`. -/
def probes (n : Nat) (c0 : Campus0) (t : Traffic) : Traffic :=
  let remote := GetAddress c0.net1Interfaces 3
  { t with
    pings :=
      [⟨c0.net1Servers.Get 0, remote, false, t.startTime3 + 20⟩,
       ⟨c0.net2Clients.Get (0 + n + n + n + n + n + n), remote, false, t.startTime3 + 22⟩,
       ⟨c0.net3Clients.Get (0 + n + n + n + n), remote, true, t.startTime3 + 30⟩]
    stop := some (t.startTime3 + 60) }

/-- Lines 729-945: the three gated waves, the probes and the stop time. -/
def createTrafficFlows (nrng : NormalRandomVariable) (n numFlows : Nat) (c0 : Campus0) :
    Traffic :=
  Traffic.init |> wave1 nrng n numFlows c0 |> wave2 nrng n numFlows c0
    |> wave3 nrng n numFlows c0 |> probes n c0

/-! ## The whole of `main` -/

/-- What a run of `main` leaves behind: the name printed at line 115 (absent when `app`
indexes past the table), the state of the campus loop, the scheduler state when the
scheduler was reached, whether `Simulator::Run` was called, and the controller
applications that received `StopExternally`. -/
structure Final where
  banner : Option String
  sim : Sim
  traffic : Option Traffic
  simulatorRun : Bool
  stopped : List DceApp

/-- The function `main`. The name lookup of line 115 is unchecked; the campus loop runs;
if the allocator has terminated the process, or `.at (0)` finds no campus, nothing
further happens; otherwise the flows are scheduled, the simulator runs and, without a
real controller, application 0 of controller node 0 is stopped (lines 947-951). -/
def main (cfg : Config) (nrng : NormalRandomVariable) : Final :=
  let banner := appNames[cfg.app]?
  let sim := buildTopology cfg
  if sim.aborted then ⟨banner, sim, none, false, []⟩
  else match (createNodes cfg.nCampuses cfg.nClientsPer)[0]? with
    | none => ⟨banner, sim, none, false, []⟩
    | some c =>
      let c0 : Campus0 :=
        ⟨sim.ifaces ⟨.net1Interfaces, 0⟩, c.net1Servers, c.net2Clients, c.net3Clients⟩
      let t := createTrafficFlows nrng cfg.nClientsPer cfg.numFlows c0
      let ctrl0 := (NodeContainer.Create .of13ControllerNodes 0 cfg.nCampuses).Get 0
      ⟨banner, sim, some t, true,
        if cfg.realController then []
        else ((sim.apps.filter (fun a => a.node = ctrl0)).head?).toList⟩

/-! ## Measurement aggregator (lines 953-970) -/

/-- Reduction to `uint32_t`. -/
def u32 (x : Nat) : Nat := x % 2 ^ 32

/-- The loop `total += counter` over an application container, in `uint32_t`. -/
def sumBytes (counters : List Nat) : Nat :=
  counters.foldl (fun acc b => u32 (acc + b)) 0

/-- The printed loss expression
`(sentBytes == 0 ? 0 : 100 * (sentBytes - recvBytes) / sentBytes)` on `uint32_t`
operands: the difference and the product wrap modulo `2^32`. -/
def lossPercent (sentBytes recvBytes : Nat) : Nat :=
  if sentBytes = 0 then 0
  else u32 (100 * u32 (sentBytes + 2 ^ 32 - recvBytes)) / sentBytes

/-- The quotient `100 * (sent - received) / sent` over the integers, without wrap-around. -/
def exactLossPercent (sent received : Nat) : Nat :=
  100 * (sent - received) / sent

/-! ## Predicates used in the statements -/

/-- A state predicate is stable when every primitive statement of the wiring part of the
campus loop preserves it. -/
structure Stable (cfg : Config) (P : Sim → Prop) : Prop where
  install : ∀ z h a b s, P s → P (Sim.Install z h a b s)
  portsAdd : ∀ p d s, P s → P (Sim.portsAdd p d s)
  assignAdd : ∀ g d s, P s → P (Sim.assignAdd g d s)
  installSwitch : ∀ z n p s, P s → P (Sim.InstallSwitch z n p s)
  controllerApp : ∀ z s, P s → P (controllerApp cfg z s)

/-- Allocation invariant: every address stored in an interface container lies below the
allocator's next address, no container holds an address twice, and two different
containers share no address. -/
def AddrInv (s : Sim) : Prop :=
  (∀ g x, x ∈ s.ifaces g → x.addr < s.ipv4switches.network + s.ipv4switches.address) ∧
  (∀ g, ((s.ifaces g).map Iface.addr).Nodup) ∧
  (∀ g1 g2, g1 ≠ g2 → ∀ x ∈ s.ifaces g1, ∀ y ∈ s.ifaces g2, x.addr ≠ y.addr)

/-- An indexed state predicate counts address assignments when `assignAdd` moves it from
index `N` to `N + 1` and every other primitive statement of the wiring keeps the index. -/
structure Counts (cfg : Config) (P : Nat → Sim → Prop) : Prop where
  install : ∀ N z h a b s, P N s → P N (Sim.Install z h a b s)
  portsAdd : ∀ N p d s, P N s → P N (Sim.portsAdd p d s)
  assignAdd : ∀ N g d s, P N s → P (N + 1) (Sim.assignAdd g d s)
  installSwitch : ∀ N z n p s, P N s → P N (Sim.InstallSwitch z n p s)
  controllerApp : ∀ N z s, P N s → P N (controllerApp cfg z s)

/-- The allocator after `N` assignment requests: while the pool of 65534 host numbers
suffices the run is alive and the next host number is `N + 1`; beyond that the process
has been terminated. -/
def PoolAfter (N : Nat) (s : Sim) : Prop :=
  s.ipv4switches.max = 65534 ∧
  (N ≤ 65534 → s.aborted = false ∧ s.ipv4switches.address = N + 1) ∧
  (65534 < N → s.aborted = true)

/-- The largest element of a non-empty list of start times. -/
def maxStart : List ℚ → Option ℚ
  | [] => none
  | x :: xs => some (xs.foldl max x)

/-! ## Concrete inputs used in the evaluations -/

/-- The default configuration with a real controller. -/
def cfgReal : Config := { Config.default with realController := true }

/-- The default configuration with an application selector outside `0 .. 8`. -/
def cfgBadApp : Config := { Config.default with app := 9 }

/-- A random variable whose first draw is 100 and every later draw 0. -/
def wave1Skewed : NormalRandomVariable := fun k _ _ => if k = 0 then 100 else 0

/-- A random variable whose `k`-th draw is `k`. -/
def nrngCount : NormalRandomVariable := fun k _ _ => k

/-- The campus-0 containers of the default configuration. -/
def campus0Default : Campus0 :=
  ⟨(buildTopology Config.default).ifaces ⟨.net1Interfaces, 0⟩,
   (createCampusNodes 8 0).net1Servers, (createCampusNodes 8 0).net2Clients,
   (createCampusNodes 8 0).net3Clients⟩

/-- The default configuration with all three waves enabled. -/
def cfgThreeWaves : Config := { Config.default with numFlows := 3 }

/-- The default configuration with two campuses. -/
def cfgTwoCampuses : Config := { Config.default with nCampuses := 2 }

/-! ## Connectivity of the link graph -/

/-- Two nodes are adjacent when some link of the list is installed on exactly these two. -/
def Adjacent (links : List Link) (x y : Node) : Prop :=
  ∃ l ∈ links, (l.a = x ∧ l.b = y) ∨ (l.a = y ∧ l.b = x)

/-- Reachability by following links between the nodes they are installed on. -/
def Reachable (links : List Link) : Node → Node → Prop :=
  Relation.ReflTransGen (Adjacent links)

/-- Tier-1 switch 1 together with servers 2 and 3 of campus 0. -/
def net1Island : List Node :=
  [⟨.net1Switches, 0, 1⟩, ⟨.net1Servers, 0, 2⟩, ⟨.net1Servers, 0, 3⟩]

/-! ## Closed forms used in the statements about the scheduler -/

/-- The campus-0 containers that `main` hands to the scheduler. -/
def campus0 (cfg : Config) : Campus0 :=
  ⟨(buildTopology cfg).ifaces ⟨.net1Interfaces, 0⟩,
   (createCampusNodes cfg.nClientsPer 0).net1Servers,
   (createCampusNodes cfg.nClientsPer 0).net2Clients,
   (createCampusNodes cfg.nClientsPer 0).net3Clients⟩

/-- Closed form of the first wave: client handle, destination server index and port of
its sixteen flow blocks, in program order. -/
def wave1Flows (n : Nat) (c0 : Campus0) : List (Node × Nat × Nat) :=
  (List.range 4).flatMap fun i =>
    [(c0.net2Clients.Get i, 0, 45000 + i), (c0.net2Clients.Get (i + n), 1, 45000 + i),
     (c0.net3Clients.Get i, 2, 45000 + i), (c0.net3Clients.Get (i + n), 3, 45000 + i)]

/-- Closed form of the second wave. -/
def wave2Flows (n : Nat) (c0 : Campus0) : List (Node × Nat × Nat) :=
  (List.range 4).flatMap fun i =>
    [(c0.net2Clients.Get (i + 2 * n), 0, 45000 + 100 + i),
     (c0.net2Clients.Get (i + 3 * n), 1, 45000 + 100 + i),
     (c0.net3Clients.Get (i + 2 * n), 2, 45000 + 100 + i),
     (c0.net3Clients.Get (i + 3 * n), 3, 45000 + 100 + i)]

/-- Closed form of the third wave. -/
def wave3Flows (n : Nat) (c0 : Campus0) : List (Node × Nat × Nat) :=
  (List.range 4).flatMap fun i =>
    [(c0.net2Clients.Get (i + 4 * n), 0, 45000 + 200 + i),
     (c0.net2Clients.Get (i + 5 * n), 1, 45000 + 200 + i),
     (c0.net3Clients.Get (i + 4 * n), 2, 45000 + 200 + i),
     (c0.net2Clients.Get (i + 6 * n), 3, 45000 + 200 + i)]

/-- Closed form of all scheduled flows: the waves enabled by `numFlows`, in order. -/
def scheduledFlows (n numFlows : Nat) (c0 : Campus0) : List (Node × Nat × Nat) :=
  (if 0 < numFlows then wave1Flows n c0 else []) ++
  (if 1 < numFlows then wave2Flows n c0 else []) ++
  (if 2 < numFlows then wave3Flows n c0 else [])

/-- A node handle names a node that was created: its index lies inside the container. -/
def NodeContainer.Has (c : NodeContainer) (x : Node) : Prop :=
  x.group = c.group ∧ x.slot = c.slot ∧ x.idx < c.GetN

/-! ## The wiring without the allocator

The three recurring blocks of the campus loop seen as events, and their effect on links,
port containers, interface containers and attachments when the address pool suffices. -/

/-- One block of the campus loop: a switch-to-switch block, a switch-to-host block or an
`InstallSwitch` call, with the campus iteration `z` it runs in. -/
inductive Event where
  | link (z : Nat) (a b : Node) (pa pb : PortSet)
  | host (z : Nat) (h : CsmaHelper) (sw host : Node) (p : PortSet) (g : IfSet)
  | inst (z : Nat) (node : Node) (p : PortSet)
  deriving DecidableEq, Repr

/-- The wiring part of the state: links, port containers, the devices of the interface
containers and the attachment calls. -/
structure Wiring where
  links : Nat → List Link
  ports : PortSet → List Dev
  ifs : IfSet → List Dev
  installed : Nat → List (Node × List Dev)

/-- The empty wiring. -/
def Wiring.init : Wiring := ⟨fun _ => [], fun _ => [], fun _ => [], fun _ => []⟩

/-- The effect of one block on the wiring (`linkSwitches`, `linkHost`, `InstallSwitch`
with the allocator left aside). -/
def Wiring.step (w : Wiring) : Event → Wiring
  | .link z a b pa pb =>
    let k := (w.links z).length
    let ports1 := upd w.ports pa (w.ports pa ++ [⟨z, k, 0, a⟩])
    { w with links := upd w.links z (w.links z ++ [⟨a, b, .csma_1gb5ms⟩])
             ports := upd ports1 pb (ports1 pb ++ [⟨z, k, 1, b⟩]) }
  | .host z h sw host p g =>
    let k := (w.links z).length
    { w with links := upd w.links z (w.links z ++ [⟨sw, host, h⟩])
             ports := upd w.ports p (w.ports p ++ [⟨z, k, 0, sw⟩])
             ifs := upd w.ifs g (w.ifs g ++ [⟨z, k, 1, host⟩]) }
  | .inst z node p =>
    { w with installed := upd w.installed z (w.installed z ++ [(node, w.ports p)]) }

/-- The wiring after a sequence of blocks. -/
def Wiring.run (T : List Event) : Wiring := T.foldl Wiring.step Wiring.init

/-- The state of the campus loop agrees with a wiring: either the allocator has terminated
the process, or links, port containers and attachments coincide and every interface
container holds exactly the devices of the wiring. -/
def Agrees (w : Wiring) (s : Sim) : Prop :=
  s.aborted = true ∨
    (s.links = w.links ∧ s.ports = w.ports ∧ s.installed = w.installed ∧
      ∀ g, (s.ifaces g).map Iface.dev = w.ifs g)

/-- The blocks of the tier-2 client loop, iteration `i` (lines 438-492). -/
def net2ClientsEvents (n z : Nat) (c : CampusNodes) (i : Nat) : List Event :=
  [.host z .csma_100mb1ms (c.net2Switches.Get 2) (c.net2Clients.Get i)
      ⟨z, 2, 2⟩ ⟨.net22Interfaces, z⟩,
   .host z .csma_100mb1ms (c.net2Switches.Get 3) (c.net2Clients.Get (i + n))
      ⟨z, 2, 3⟩ ⟨.net23Interfaces, z⟩,
   .host z .csma_100mb1ms (c.net2Switches.Get 4) (c.net2Clients.Get (i + n + n))
      ⟨z, 2, 4⟩ ⟨.net24Interfaces, z⟩,
   .host z .csma_100mb1ms (c.net2Switches.Get 5) (c.net2Clients.Get (i + n + n + n))
      ⟨z, 2, 5⟩ ⟨.net25Interfaces, z⟩,
   .host z .csma_100mb1ms (c.net2Switches.Get 6) (c.net2Clients.Get (i + n + n + n + n))
      ⟨z, 2, 6⟩ ⟨.net26aInterfaces, z⟩,
   .host z .csma_100mb1ms (c.net2Switches.Get 6) (c.net2Clients.Get (i + n + n + n + n + n))
      ⟨z, 2, 6⟩ ⟨.net26bInterfaces, z⟩,
   .host z .csma_100mb1ms (c.net2Switches.Get 6)
      (c.net2Clients.Get (i + n + n + n + n + n + n)) ⟨z, 2, 6⟩ ⟨.net26cInterfaces, z⟩]

/-- The blocks of the tier-3 client loop, iteration `i` (lines 564-602). -/
def net3ClientsEvents (n z : Nat) (c : CampusNodes) (i : Nat) : List Event :=
  [.host z .csma_100mb1ms (c.net3Switches.Get 0) (c.net3Clients.Get i)
      ⟨z, 3, 0⟩ ⟨.net30aInterfaces, z⟩,
   .host z .csma_100mb1ms (c.net3Switches.Get 0) (c.net3Clients.Get (i + n))
      ⟨z, 3, 0⟩ ⟨.net30bInterfaces, z⟩,
   .host z .csma_100mb1ms (c.net3Switches.Get 2) (c.net3Clients.Get (i + n + n))
      ⟨z, 3, 2⟩ ⟨.net32Interfaces, z⟩,
   .host z .csma_100mb1ms (c.net3Switches.Get 3) (c.net3Clients.Get (i + n + n + n))
      ⟨z, 3, 3⟩ ⟨.net33aInterfaces, z⟩,
   .host z .csma_100mb1ms (c.net3Switches.Get 3) (c.net3Clients.Get (i + n + n + n + n))
      ⟨z, 3, 3⟩ ⟨.net33bInterfaces, z⟩]

/-- The blocks before the tier-2 client loop (lines 264-430): core ring, servers, the
link of lines 297-303, uplinks, tier-2 mesh. -/
def headEvents (z : Nat) (c : CampusNodes) : List Event :=
  (List.range 3).map (fun i => Event.link z (c.net0Switches.Get i)
      (c.net0Switches.Get ((i + 1) % 3)) ⟨z, 0, i⟩ ⟨z, 0, (i + 1) % 3⟩) ++
  (List.range 4).map (fun i => Event.host z .csma_1gb5ms (c.net1Switches.Get (i / 2))
      (c.net1Servers.Get i) ⟨z, 1, i / 2⟩ ⟨.net1Interfaces, z⟩) ++
  [.link z (c.net1Servers.Get 0) (c.net1Servers.Get 1) ⟨z, 1, 0⟩ ⟨z, 1, 1⟩,
   .link z (c.net0Switches.Get 2) (c.net1Switches.Get 0) ⟨z, 0, 2⟩ ⟨z, 1, 0⟩,
   .link z (c.net0Switches.Get 1) (c.net4Switch.Get 0) ⟨z, 0, 1⟩ ⟨z, 4, 0⟩,
   .link z (c.net0Switches.Get 1) (c.net5Switch.Get 0) ⟨z, 0, 1⟩ ⟨z, 5, 0⟩,
   .link z (c.net4Switch.Get 0) (c.net5Switch.Get 0) ⟨z, 4, 0⟩ ⟨z, 5, 0⟩,
   .link z (c.net4Switch.Get 0) (c.net2Switches.Get 0) ⟨z, 4, 0⟩ ⟨z, 2, 0⟩,
   .link z (c.net4Switch.Get 0) (c.net2Switches.Get 1) ⟨z, 4, 0⟩ ⟨z, 2, 1⟩,
   .link z (c.net2Switches.Get 0) (c.net2Switches.Get 1) ⟨z, 2, 0⟩ ⟨z, 2, 1⟩,
   .link z (c.net2Switches.Get 0) (c.net2Switches.Get 2) ⟨z, 2, 0⟩ ⟨z, 2, 2⟩,
   .link z (c.net2Switches.Get 1) (c.net2Switches.Get 3) ⟨z, 2, 1⟩ ⟨z, 2, 3⟩,
   .link z (c.net2Switches.Get 2) (c.net2Switches.Get 3) ⟨z, 2, 2⟩ ⟨z, 2, 3⟩,
   .link z (c.net2Switches.Get 2) (c.net2Switches.Get 4) ⟨z, 2, 2⟩ ⟨z, 2, 4⟩,
   .link z (c.net2Switches.Get 3) (c.net2Switches.Get 5) ⟨z, 2, 3⟩ ⟨z, 2, 5⟩,
   .link z (c.net2Switches.Get 5) (c.net2Switches.Get 6) ⟨z, 2, 5⟩ ⟨z, 2, 6⟩]

/-- The blocks between the two client loops (lines 503-555): gateway 5 to tier 3 and the
tier-3 mesh. -/
def net3MeshEvents (z : Nat) (c : CampusNodes) : List Event :=
  [.link z (c.net5Switch.Get 0) (c.net3Switches.Get 0) ⟨z, 5, 0⟩ ⟨z, 3, 0⟩,
   .link z (c.net5Switch.Get 0) (c.net3Switches.Get 1) ⟨z, 5, 0⟩ ⟨z, 3, 1⟩,
   .link z (c.net3Switches.Get 0) (c.net3Switches.Get 1) ⟨z, 3, 0⟩ ⟨z, 3, 1⟩,
   .link z (c.net3Switches.Get 1) (c.net3Switches.Get 2) ⟨z, 3, 1⟩ ⟨z, 3, 2⟩,
   .link z (c.net3Switches.Get 1) (c.net3Switches.Get 3) ⟨z, 3, 1⟩ ⟨z, 3, 3⟩,
   .link z (c.net3Switches.Get 2) (c.net3Switches.Get 3) ⟨z, 3, 2⟩ ⟨z, 3, 3⟩]

/-- The attachment calls of lines 606-630, in order. -/
def installEvents (z : Nat) (c : CampusNodes) : List Event :=
  (List.range 3).map (fun i => Event.inst z (c.net0Switches.Get i) ⟨z, 0, i⟩) ++
  (List.range 2).map (fun i => Event.inst z (c.net1Switches.Get i) ⟨z, 1, i⟩) ++
  (List.range 7).map (fun i => Event.inst z (c.net2Switches.Get i) ⟨z, 2, i⟩) ++
  (List.range 4).map (fun i => Event.inst z (c.net3Switches.Get i) ⟨z, 3, i⟩) ++
  [.inst z (c.net4Switch.Get 0) ⟨z, 4, 0⟩, .inst z (c.net5Switch.Get 0) ⟨z, 5, 0⟩]

/-- The blocks that create links in campus iteration `z`, in program order. -/
def wiringEvents (n z : Nat) (c : CampusNodes) : List Event :=
  headEvents z c ++ (List.range n).flatMap (net2ClientsEvents n z c) ++
    net3MeshEvents z c ++ (List.range n).flatMap (net3ClientsEvents n z c)

/-- All blocks of campus iteration `z`, in program order. -/
def campusEvents (n z : Nat) (c : CampusNodes) : List Event :=
  wiringEvents n z c ++ installEvents z c

/-- All blocks of the campus loop. -/
def programEvents (cfg : Config) : List Event :=
  (List.range cfg.nCampuses).flatMap
    (fun z => campusEvents cfg.nClientsPer z (createCampusNodes cfg.nClientsPer z))


/-- The campus iteration a block runs in. -/
def Event.z : Event → Nat
  | .link z _ _ _ _ => z
  | .host z _ _ _ _ _ => z
  | .inst z _ _ => z

/-- A block is well formed when the containers it names belong to its own campus
iteration and a switch-to-switch block names two different port containers. -/
def Event.wf : Event → Prop
  | .link z _ _ pa pb => pa.z = z ∧ pb.z = z ∧ pa ≠ pb
  | .host z _ _ _ p g => p.z = z ∧ g.z = z
  | .inst z _ p => p.z = z

/-- The link a block creates in campus iteration `z`, if any. -/
def Event.linkAt (z : Nat) : Event → Option Link
  | .link z1 a b _ _ => if z1 = z then some ⟨a, b, .csma_1gb5ms⟩ else none
  | .host z1 h sw x _ _ => if z1 = z then some ⟨sw, x, h⟩ else none
  | .inst _ _ _ => none

/-- The block appends a device to the port container `p`. -/
def Event.touches (p : PortSet) : Event → Prop
  | .link _ _ _ pa pb => pa = p ∨ pb = p
  | .host _ _ _ _ p1 _ => p1 = p
  | .inst _ _ _ => False

/-- Two wirings coincide on everything that belongs to campus iteration `z`. -/
def SameAt (z : Nat) (w v : Wiring) : Prop :=
  w.links z = v.links z ∧ (∀ p : PortSet, p.z = z → w.ports p = v.ports p) ∧
    (∀ g : IfSet, g.z = z → w.ifs g = v.ifs g) ∧ w.installed z = v.installed z

/-- The wiring of one campus iteration on its own. -/
def campusWiring (n z : Nat) : Wiring :=
  Wiring.run (campusEvents n z (createCampusNodes n z))

/-- The links a sequence of blocks creates in campus iteration `z`, in order. -/
def eventLinks (z : Nat) (T : List Event) : List Link := T.filterMap (Event.linkAt z)

/-- The tier-2 switch the claim gives to the client of pool index `j`: indices `[0, n)`
go to switch 2, `[n, 2n)` to switch 3, `[2n, 3n)` to switch 4, `[3n, 4n)` to switch 5 and
`[4n, 7n)` to switch 6. -/
def tier2SwitchOf (n j : Nat) : Nat :=
  if j < n then 2 else if j < 2 * n then 3 else if j < 3 * n then 4
  else if j < 4 * n then 5 else 6

/-- The tier-3 switch the claim gives to the client of pool index `j`: indices `[0, 2n)`
go to switch 0, `[2n, 3n)` to switch 2 and `[3n, 5n)` to switch 3. -/
def tier3SwitchOf (n j : Nat) : Nat :=
  if j < 2 * n then 0 else if j < 3 * n then 2 else 3

/-- The tier-2 switch serving the `g`-th client group of an iteration (`g < 7`). -/
def tier2GroupSwitch (g : Nat) : Nat := if g < 4 then g + 2 else 6

/-- The tier-3 switch serving the `g`-th client group of an iteration (`g < 5`). -/
def tier3GroupSwitch (g : Nat) : Nat := if g < 2 then 0 else if g < 3 then 2 else 3

/-- The block records an address for a device in the interface container `g`. -/
def Event.assigns (g : IfSet) : Event → Prop
  | .host _ _ _ _ _ g1 => g1 = g
  | _ => False

/-- The block is an `InstallSwitch` call. -/
def Event.isInst : Event → Prop
  | .inst _ _ _ => True
  | _ => False

/-- The switch nodes handed to `InstallSwitch` in campus iteration `z` with their port
containers, in the order of lines 606-630. -/
def attached (z : Nat) (c : CampusNodes) : List (Node × PortSet) :=
  (List.range 3).map (fun i => (c.net0Switches.Get i, (⟨z, 0, i⟩ : PortSet))) ++
  (List.range 2).map (fun i => (c.net1Switches.Get i, (⟨z, 1, i⟩ : PortSet))) ++
  (List.range 7).map (fun i => (c.net2Switches.Get i, (⟨z, 2, i⟩ : PortSet))) ++
  (List.range 4).map (fun i => (c.net3Switches.Get i, (⟨z, 3, i⟩ : PortSet))) ++
  [(c.net4Switch.Get 0, ⟨z, 4, 0⟩), (c.net5Switch.Get 0, ⟨z, 5, 0⟩)]

/-- The device `d` is end `d.side` of the `d.link`-th link of `links`. -/
def DevOnLink (links : List Link) (d : Dev) : Prop :=
  ∃ l, links.get? d.link = some l ∧ ((d.side = 0 ∧ l.a = d.node) ∨ (d.side = 1 ∧ l.b = d.node))

/-- The port containers are consistent with the links: every port is an end of a link of
its campus iteration, a container lists its ports by strictly increasing link creation
index, and no port lies in two containers. -/
def PortsOK (links : Nat → List Link) (ports : PortSet → List Dev) : Prop :=
  (∀ p d, d ∈ ports p → d.z = p.z ∧ DevOnLink (links p.z) d) ∧
  (∀ p, (ports p).Pairwise (fun d e => d.link < e.link)) ∧
  (∀ p q d, d ∈ ports p → d ∈ ports q → p = q)

/-- The port containers of a wiring are consistent with its links. -/
def PortsInv (w : Wiring) : Prop := PortsOK w.links w.ports

/-- Destination server index and port of the flow blocks of three waves, in program
order: wave `w`, repetition `i`, destination `d` is entry `16 * w + 4 * i + d`. -/
def flowTargets : List (Nat × Nat) :=
  (List.range 3).flatMap fun w => (List.range 4).flatMap fun i =>
    (List.range 4).map fun d => (d, 45000 + 100 * w + i)

set_option maxRecDepth 100000

/-! ## Generic preservation lemmas -/

theorem range4 : List.range 4 = [0, 1, 2, 3] := by decide

theorem foldl_preserves {σ ι : Type} (P : σ → Prop) (f : σ → ι → σ)
    (hf : ∀ s i, P s → P (f s i)) (l : List ι) (s : σ) (hs : P s) : P (l.foldl f s) := by
  induction l generalizing s with
  | nil => exact hs
  | cons i l ih => exact ih (f s i) (hf s i hs)

theorem linkSwitches_preserves {cfg : Config} {P : Sim → Prop} (hP : Stable cfg P)
    (z : Nat) (a b : Node) (pa pb : PortSet) (s : Sim) (hs : P s) :
    P (linkSwitches z a b pa pb s) := by
  unfold linkSwitches
  exact hP.portsAdd _ _ _ (hP.portsAdd _ _ _ (hP.install _ _ _ _ _ hs))

theorem linkHost_preserves {cfg : Config} {P : Sim → Prop} (hP : Stable cfg P)
    (z : Nat) (h : CsmaHelper) (sw host : Node) (p : PortSet) (g : IfSet) (s : Sim)
    (hs : P s) : P (linkHost z h sw host p g s) := by
  unfold linkHost
  exact hP.assignAdd _ _ _ (hP.portsAdd _ _ _ (hP.install _ _ _ _ _ hs))

theorem installLoop_preserves {cfg : Config} {P : Sim → Prop} (hP : Stable cfg P)
    (z net k : Nat) (sw : NodeContainer) (s : Sim) (hs : P s) :
    P (installLoop z net k sw s) := by
  unfold installLoop
  exact foldl_preserves P _ (fun s i h => hP.installSwitch _ _ _ s h) _ s hs

theorem wireCampus_preserves {cfg : Config} {P : Sim → Prop} (hP : Stable cfg P)
    (c : CampusNodes) (z : Nat) (s : Sim) (hs : P s) : P (wireCampus cfg c z s) := by
  have hSw := linkSwitches_preserves hP
  have hHo := linkHost_preserves hP
  have hIn := installLoop_preserves hP
  unfold wireCampus installSwitches
  apply hP.controllerApp
  apply hP.installSwitch
  apply hP.installSwitch
  iterate 4 apply hIn
  unfold net3ClientsLoop
  apply foldl_preserves P
  · intro s i h
    unfold net3ClientsBody
    iterate 5 apply hHo
    exact h
  unfold net3Mesh
  iterate 6 apply hSw
  unfold net2ClientsLoop
  apply foldl_preserves P
  · intro s i h
    unfold net2ClientsBody
    iterate 7 apply hHo
    exact h
  unfold net2Mesh
  iterate 9 apply hSw
  unfold net0Uplinks
  iterate 4 apply hSw
  unfold net1Cross
  apply hSw
  unfold net1ServersLoop
  apply foldl_preserves P
  · intro s i h
    exact hHo _ _ _ _ _ _ _ h
  unfold net0Ring
  apply foldl_preserves P
  · intro s i h
    exact hSw _ _ _ _ _ _ h
  exact hs

theorem buildTopology_preserves {cfg : Config} {P : Sim → Prop} (hP : Stable cfg P)
    (hC : ∀ z s, P s → P (setupController cfg z s)) (h0 : P Sim.init) :
    P (buildTopology cfg) := by
  unfold buildTopology
  apply foldl_preserves P _ _ _ _ h0
  intro s z hs
  cases (createNodes cfg.nCampuses cfg.nClientsPer)[z]? with
  | none => exact hs
  | some c => exact wireCampus_preserves hP c z _ (hC z s hs)

/-! ### Address allocation -/

theorem assignAdd_addrInv (g : IfSet) (d : Dev) (s : Sim) (hs : AddrInv s) :
    AddrInv (Sim.assignAdd g d s) := by
  unfold Sim.assignAdd
  by_cases hab : s.aborted = true
  · simp only [hab, if_true]; exact hs
  by_cases hle : s.ipv4switches.address ≤ s.ipv4switches.max
  · simp only [hab, Ipv4AddressHelper.NewAddress, hle, if_true, Bool.false_eq_true, if_false]
    obtain ⟨h1, h2, h3⟩ := hs
    refine ⟨?_, ?_, ?_⟩
    · intro g1 x hx
      simp only [upd] at hx
      show x.addr < s.ipv4switches.network + (s.ipv4switches.address + 1)
      split at hx
      · rcases List.mem_append.1 hx with h | h
        · have := h1 g x h; omega
        · simp only [List.mem_singleton] at h
          subst h; simp
      · have := h1 g1 x hx; omega
    · intro g1
      simp only [upd]
      split
      · rw [List.map_append, List.nodup_append]
        refine ⟨h2 g, by simp, ?_⟩
        intro a ha hb
        simp only [List.map_cons, List.map_nil, List.mem_singleton] at hb
        obtain ⟨x, hx, rfl⟩ := List.mem_map.1 ha
        have := h1 g x hx
        omega
      · exact h2 g1
    · intro g1 g2 hne x hx y hy
      simp only [upd] at hx hy
      split at hx
      · rename_i e1
        have e2 : ¬ g2 = g := fun e => hne (e1.trans e.symm)
        rw [if_neg e2] at hy
        rcases List.mem_append.1 hx with h | h
        · exact h3 g g2 (fun e => e2 e.symm) x h y hy
        · simp only [List.mem_singleton] at h
          subst h
          have := h1 g2 y hy
          simp only
          omega
      · rename_i e1
        split at hy
        · rcases List.mem_append.1 hy with h | h
          · exact h3 g1 g e1 x hx y h
          · simp only [List.mem_singleton] at h
            subst h
            have := h1 g1 x hx
            simp only
            omega
        · exact h3 g1 g2 hne x hx y hy
  · simp only [hab, Ipv4AddressHelper.NewAddress, hle, if_false, Bool.false_eq_true]
    exact hs

theorem stable_addrInv (cfg : Config) : Stable cfg AddrInv where
  install := by
    intro z h a b s hs
    unfold Sim.Install
    split
    · exact hs
    · exact hs
  portsAdd := by
    intro p d s hs
    unfold Sim.portsAdd
    split
    · exact hs
    · exact hs
  assignAdd := assignAdd_addrInv
  installSwitch := by
    intro z n p s hs
    unfold Sim.InstallSwitch
    split
    · exact hs
    · exact hs
  controllerApp := by
    intro z s hs
    unfold controllerApp
    by_cases h1 : s.aborted = true
    · simp only [h1, if_true]; exact hs
    by_cases h2 : cfg.realController = true
    · simp only [h1, h2, if_true, if_false]; exact hs
    simp only [h1, h2, if_false]
    cases appModule cfg.app <;> exact hs

theorem setupController_addrInv (cfg : Config) (z : Nat) (s : Sim) (hs : AddrInv s) :
    AddrInv (setupController cfg z s) := by
  unfold setupController
  split
  · exact hs
  · exact hs

theorem addrInv_init : AddrInv Sim.init := by
  refine ⟨?_, ?_, ?_⟩
  · intro g x hx; simp [Sim.init] at hx
  · intro g; simp [Sim.init]
  · intro g1 g2 _ x hx; simp [Sim.init] at hx

theorem buildTopology_addrInv (cfg : Config) : AddrInv (buildTopology cfg) :=
  buildTopology_preserves (stable_addrInv cfg) (setupController_addrInv cfg) addrInv_init

theorem foldl_range_indexed {σ : Type} (P : Nat → σ → Prop) (f : σ → Nat → σ) (n : Nat)
    (hf : ∀ k, k < n → ∀ s, P k s → P (k + 1) (f s k)) (s0 : σ) (h0 : P 0 s0) :
    P n ((List.range n).foldl f s0) := by
  induction n with
  | zero => exact h0
  | succ m ih =>
    rw [List.range_succ, List.foldl_append]
    exact hf m (Nat.lt_succ_self m) _ (ih (fun k hk s hs => hf k (Nat.lt_succ_of_lt hk) s hs))

theorem createNodes_getElem (nCampuses n z : Nat) (hz : z < nCampuses) :
    (createNodes nCampuses n)[z]? = some (createCampusNodes n z) := by
  simp [createNodes, hz]

/-! ### Controller helpers -/

theorem controllerApp_of13Helpers (cfg : Config) (z : Nat) (s : Sim) :
    (controllerApp cfg z s).of13Helpers = s.of13Helpers := by
  unfold controllerApp
  split
  · rfl
  · split
    · rfl
    · cases appModule cfg.app <;> rfl

theorem controllerApp_aborted (cfg : Config) (z : Nat) (s : Sim) :
    (controllerApp cfg z s).aborted = s.aborted := by
  unfold controllerApp
  split
  · rfl
  · split
    · rfl
    · cases appModule cfg.app <;> rfl

theorem stable_channelType (cfg : Config) :
    Stable cfg (fun s => ∀ h ∈ s.of13Helpers,
      h.channelType = channelTypeFor cfg.realController) where
  install := by
    intro z h a b s hs
    unfold Sim.Install
    split <;> exact hs
  portsAdd := by
    intro p d s hs
    unfold Sim.portsAdd
    split <;> exact hs
  assignAdd := by
    intro g d s hs
    unfold Sim.assignAdd
    split
    · exact hs
    · split <;> exact hs
  installSwitch := by
    intro z n p s hs
    unfold Sim.InstallSwitch
    split <;> exact hs
  controllerApp := by
    intro z s hs
    show ∀ h ∈ (controllerApp cfg z s).of13Helpers, _
    rw [controllerApp_of13Helpers]
    exact hs

theorem buildTopology_channelType (cfg : Config) :
    ∀ h ∈ (buildTopology cfg).of13Helpers,
      h.channelType = channelTypeFor cfg.realController := by
  apply buildTopology_preserves (stable_channelType cfg)
  · intro z s hs
    unfold setupController
    split
    · exact hs
    · intro h hh
      rcases List.mem_append.1 hh with h1 | h1
      · exact hs h h1
      · simp only [List.mem_singleton] at h1
        subst h1; rfl
  · intro h hh
    simp [Sim.init] at hh

theorem stable_helperCount (cfg : Config) (k : Nat) :
    Stable cfg (fun s => s.aborted = true ∨ s.of13Helpers.length = k) where
  install := by
    intro z h a b s hs
    unfold Sim.Install
    split <;> exact hs
  portsAdd := by
    intro p d s hs
    unfold Sim.portsAdd
    split <;> exact hs
  assignAdd := by
    intro g d s hs
    unfold Sim.assignAdd
    split
    · exact hs
    · split
      · exact Or.inl rfl
      · exact hs
  installSwitch := by
    intro z n p s hs
    unfold Sim.InstallSwitch
    split <;> exact hs
  controllerApp := by
    intro z s hs
    show (controllerApp cfg z s).aborted = true ∨ (controllerApp cfg z s).of13Helpers.length = k
    rw [controllerApp_of13Helpers, controllerApp_aborted]
    exact hs

theorem buildTopology_helperCount (cfg : Config) :
    (buildTopology cfg).aborted = true ∨
      (buildTopology cfg).of13Helpers.length = cfg.nCampuses := by
  unfold buildTopology
  refine foldl_range_indexed (fun k s => s.aborted = true ∨ s.of13Helpers.length = k)
    _ cfg.nCampuses ?_ Sim.init ?_
  · intro k hk s hs
    simp only [createNodes_getElem _ _ _ hk]
    unfold campus
    apply wireCampus_preserves (stable_helperCount cfg (k + 1))
    unfold setupController
    by_cases hab : s.aborted = true
    · rw [if_pos hab]; exact Or.inl hab
    · rw [if_neg hab]
      rcases hs with h | h
      · exact absurd h hab
      · right
        simp [h]
  · right; rfl

/-! ### Counting address assignments -/

theorem linkSwitches_counts {cfg : Config} {P : Nat → Sim → Prop} (hP : Counts cfg P)
    (N z : Nat) (a b : Node) (pa pb : PortSet) (s : Sim) (hs : P N s) :
    P N (linkSwitches z a b pa pb s) := by
  unfold linkSwitches
  exact hP.portsAdd _ _ _ _ (hP.portsAdd _ _ _ _ (hP.install _ _ _ _ _ _ hs))

theorem linkHost_counts {cfg : Config} {P : Nat → Sim → Prop} (hP : Counts cfg P)
    (N z : Nat) (h : CsmaHelper) (sw host : Node) (p : PortSet) (g : IfSet) (s : Sim)
    (hs : P N s) : P (N + 1) (linkHost z h sw host p g s) := by
  unfold linkHost
  exact hP.assignAdd _ _ _ _ (hP.portsAdd _ _ _ _ (hP.install _ _ _ _ _ _ hs))

theorem foldl_range_counts {σ : Type} (P : Nat → σ → Prop) (f : σ → Nat → σ) (step n : Nat)
    (hf : ∀ N s i, P N s → P (N + step) (f s i)) (N : Nat) (s : σ) (hs : P N s) :
    P (N + step * n) ((List.range n).foldl f s) := by
  refine foldl_range_indexed (fun k t => P (N + step * k) t) f n ?_ s ?_
  · intro k _ t ht
    have := hf _ t k ht
    rw [Nat.mul_succ, ← Nat.add_assoc]
    exact this
  · simpa using hs

theorem wireCampus_counts {cfg : Config} {P : Nat → Sim → Prop} (hP : Counts cfg P)
    (c : CampusNodes) (z N : Nat) (s : Sim) (hs : P N s) :
    P (N + (4 + 12 * cfg.nClientsPer)) (wireCampus cfg c z s) := by
  have hSw := linkSwitches_counts hP
  have hHo := linkHost_counts hP
  have h1 : P N (net0Ring z c s) := by
    have := foldl_range_counts P (fun s i => linkSwitches z (c.net0Switches.Get i)
      (c.net0Switches.Get ((i + 1) % 3)) ⟨z, 0, i⟩ ⟨z, 0, (i + 1) % 3⟩ s) 0 3
      (fun N s i h => hSw N _ _ _ _ _ s h) N s hs
    simpa [net0Ring] using this
  have h2 : P (N + 4) (net1ServersLoop z c (net0Ring z c s)) := by
    have := foldl_range_counts P (fun s i => linkHost z .csma_1gb5ms
      (c.net1Switches.Get (i / 2)) (c.net1Servers.Get i) ⟨z, 1, i / 2⟩ ⟨.net1Interfaces, z⟩ s)
      1 4 (fun N s i h => hHo N _ _ _ _ _ _ s h) N _ h1
    simpa [net1ServersLoop] using this
  have h3 : P (N + 4) (net1Cross z c (net1ServersLoop z c (net0Ring z c s))) :=
    hSw _ _ _ _ _ _ _ h2
  have h4 : P (N + 4) (net0Uplinks z c
      (net1Cross z c (net1ServersLoop z c (net0Ring z c s)))) := by
    unfold net0Uplinks
    iterate 4 apply hSw
    exact h3
  have h5 : P (N + 4) (net2Mesh z c (net0Uplinks z c
      (net1Cross z c (net1ServersLoop z c (net0Ring z c s))))) := by
    unfold net2Mesh
    iterate 9 apply hSw
    exact h4
  have h6 := foldl_range_counts P (net2ClientsBody cfg.nClientsPer z c) 7 cfg.nClientsPer
      (fun N s i h => by
        unfold net2ClientsBody
        iterate 7 apply hHo
        exact h) (N + 4) _ h5
  have h7 : P (N + 4 + 7 * cfg.nClientsPer) (net3Mesh z c
      (net2ClientsLoop cfg.nClientsPer z c (net2Mesh z c (net0Uplinks z c
        (net1Cross z c (net1ServersLoop z c (net0Ring z c s))))))) := by
    unfold net3Mesh
    iterate 6 apply hSw
    exact h6
  have h8 := foldl_range_counts P (net3ClientsBody cfg.nClientsPer z c) 5 cfg.nClientsPer
      (fun N s i h => by
        unfold net3ClientsBody
        iterate 5 apply hHo
        exact h) (N + 4 + 7 * cfg.nClientsPer) _ h7
  have e : N + 4 + 7 * cfg.nClientsPer + 5 * cfg.nClientsPer =
      N + (4 + 12 * cfg.nClientsPer) := by omega
  rw [e] at h8
  unfold wireCampus installSwitches installLoop
  apply hP.controllerApp
  apply hP.installSwitch
  apply hP.installSwitch
  iterate 4 apply foldl_preserves (P _) _ (fun s i h => hP.installSwitch _ _ _ _ s h)
  exact h8

theorem counts_poolAfter (cfg : Config) : Counts cfg PoolAfter where
  install := by
    intro N z h a b s hs
    unfold Sim.Install
    split <;> exact hs
  portsAdd := by
    intro N p d s hs
    unfold Sim.portsAdd
    split <;> exact hs
  assignAdd := by
    intro N g d s hs
    obtain ⟨hmax, hlow, hhigh⟩ := hs
    unfold Sim.assignAdd
    by_cases hab : s.aborted = true
    · rw [if_pos hab]
      have hN : 65534 < N := by
        by_contra hc
        have := (hlow (by omega)).1
        rw [hab] at this; cases this
      exact ⟨hmax, fun h => by omega, fun _ => hab⟩
    · rw [if_neg hab]
      have hN : N ≤ 65534 := by
        by_contra hc
        exact hab (hhigh (by omega))
      obtain ⟨hf, haddr⟩ := hlow hN
      unfold Ipv4AddressHelper.NewAddress
      by_cases hle : s.ipv4switches.address ≤ s.ipv4switches.max
      · rw [if_pos hle]
        refine ⟨hmax, fun _ => ⟨hf, ?_⟩, fun h => ?_⟩
        · show s.ipv4switches.address + 1 = N + 1 + 1
          omega
        · omega
      · rw [if_neg hle]
        refine ⟨hmax, fun h => ?_, fun _ => rfl⟩
        omega
  installSwitch := by
    intro N z n p s hs
    unfold Sim.InstallSwitch
    split <;> exact hs
  controllerApp := by
    intro N z s hs
    unfold controllerApp
    split
    · exact hs
    · split
      · exact hs
      · cases appModule cfg.app <;> exact hs

theorem buildTopology_poolAfter (cfg : Config) :
    PoolAfter (cfg.nCampuses * (4 + 12 * cfg.nClientsPer)) (buildTopology cfg) := by
  unfold buildTopology
  refine foldl_range_indexed (fun k s => PoolAfter (k * (4 + 12 * cfg.nClientsPer)) s)
    _ cfg.nCampuses ?_ Sim.init ?_
  · intro k hk s hs
    simp only [createNodes_getElem _ _ _ hk]
    unfold campus
    rw [Nat.succ_mul]
    apply wireCampus_counts (counts_poolAfter cfg)
    unfold setupController
    split <;> exact hs
  · refine ⟨rfl, fun _ => ⟨rfl, ?_⟩, fun h => ?_⟩
    · simp [Sim.init, Ipv4AddressHelper.SetBase]
    · simp at h

theorem buildTopology_aborted_iff (cfg : Config) :
    (buildTopology cfg).aborted = false ↔
      cfg.nCampuses * (4 + 12 * cfg.nClientsPer) ≤ 65534 := by
  obtain ⟨-, hlow, hhigh⟩ := buildTopology_poolAfter cfg
  constructor
  · intro h
    by_contra hc
    have := hhigh (by omega)
    rw [h] at this; cases this
  · intro h
    exact (hlow h).1

/-! ### What the scheduler and the aggregator compute in general -/

theorem stop_of_numFlows_zero (nrng : NormalRandomVariable) (n : Nat) (c0 : Campus0) :
    (createTrafficFlows nrng n 0 c0).cout = [] ∧
    (createTrafficFlows nrng n 0 c0).pings.map V4Ping.start = [0 + 20, 0 + 22, 0 + 30] ∧
    (createTrafficFlows nrng n 0 c0).stop = some (0 + 60) := by
  simp [createTrafficFlows, wave1, wave2, wave3, probes, Traffic.init]

theorem stop_of_numFlows_two (nrng : NormalRandomVariable) (n : Nat) (c0 : Campus0) :
    (createTrafficFlows nrng n 2 c0).cout.getLast? = some (nrng 31 66.8806 10.3544) ∧
    (createTrafficFlows nrng n 2 c0).stop = some (nrng 31 66.8806 10.3544 + 60) := by
  simp [createTrafficFlows, wave1, wave2, wave3, probes, wave1Body, wave2Body, flow,
    Traffic.setStart, Traffic.init, range4]

theorem stop_of_numFlows_ge_three (nrng : NormalRandomVariable) (n numFlows : Nat)
    (c0 : Campus0) (h : 3 ≤ numFlows) :
    (createTrafficFlows nrng n numFlows c0).cout.getLast? = some (nrng 47 80.1033 8.4256) ∧
    (createTrafficFlows nrng n numFlows c0).stop = some (nrng 31 66.8806 10.3544 + 60) := by
  have h0 : numFlows > 0 := by omega
  have h1 : numFlows > 1 := by omega
  have h2 : numFlows > 2 := by omega
  simp [createTrafficFlows, wave1, wave2, wave3, probes, wave1Body, wave2Body, wave3Body, flow,
    Traffic.setStart, Traffic.init, range4, h0, h1, h2]

theorem lossPercent_exact_of_small (sent received : Nat) (hs : sent < 2 ^ 32)
    (h : received ≤ sent) (hp : 0 < sent) (hsmall : 100 * (sent - received) < 2 ^ 32) :
    lossPercent sent received = exactLossPercent sent received := by
  unfold lossPercent exactLossPercent
  have h1 : u32 (sent + 2 ^ 32 - received) = sent - received := by
    unfold u32
    norm_num at hs ⊢
    omega
  rw [if_neg (by omega), h1]
  unfold u32
  rw [Nat.mod_eq_of_lt hsmall]

/-! ### Connectivity -/

theorem reachable_closed (links : List Link) (S : Node → Bool)
    (hS : ∀ l ∈ links, S l.a = S l.b) (x y : Node) (h : Reachable links x y) :
    S x = S y := by
  induction h with
  | refl => rfl
  | tail _ hbc ih =>
    obtain ⟨l, hl, hab | hab⟩ := hbc
    · rw [ih, ← hab.1, ← hab.2]; exact hS l hl
    · rw [ih, ← hab.1, ← hab.2]; exact (hS l hl).symm

theorem island_closed :
    ∀ l ∈ (buildTopology Config.default).links 0,
      decide (l.a ∈ net1Island) = decide (l.b ∈ net1Island) := by
  decide

/-! ### Closed form of the scheduler -/

theorem main_traffic (cfg : Config) (nrng : NormalRandomVariable)
    (h1 : 1 ≤ cfg.nCampuses) (hrun : (buildTopology cfg).aborted = false) :
    (main cfg nrng).traffic =
      some (createTrafficFlows nrng cfg.nClientsPer cfg.numFlows (campus0 cfg)) := by
  have h0 : 0 < cfg.nCampuses := h1
  simp [main, hrun, createNodes_getElem _ _ 0 h0, campus0]

theorem clientApps_shape (nrng : NormalRandomVariable) (n numFlows : Nat) (c0 : Campus0) :
    (createTrafficFlows nrng n numFlows c0).clientApps.map
        (fun a => (a.node, a.remote, a.port)) =
      (scheduledFlows n numFlows c0).map
        (fun f => (f.1, GetAddress c0.net1Interfaces f.2.1, f.2.2)) := by
  by_cases h0 : 0 < numFlows <;> by_cases h1 : 1 < numFlows <;> by_cases h2 : 2 < numFlows <;>
    simp [createTrafficFlows, wave1, wave2, wave3, probes, wave1Body, wave2Body, wave3Body,
      flow, Traffic.setStart, Traffic.init, range4, h0, h1, h2, scheduledFlows, wave1Flows,
      wave2Flows, wave3Flows]

theorem sinkApps_shape (nrng : NormalRandomVariable) (n numFlows : Nat) (c0 : Campus0) :
    (createTrafficFlows nrng n numFlows c0).sinkApps =
      (scheduledFlows n numFlows c0).map
        (fun f => (⟨c0.net1Servers.Get f.2.1, f.2.2⟩ : PacketSink)) := by
  by_cases h0 : 0 < numFlows <;> by_cases h1 : 1 < numFlows <;> by_cases h2 : 2 < numFlows <;>
    simp [createTrafficFlows, wave1, wave2, wave3, probes, wave1Body, wave2Body, wave3Body,
      flow, Traffic.setStart, Traffic.init, range4, h0, h1, h2, scheduledFlows, wave1Flows,
      wave2Flows, wave3Flows]

theorem pings_shape (nrng : NormalRandomVariable) (n numFlows : Nat) (c0 : Campus0) :
    (createTrafficFlows nrng n numFlows c0).pings.map (fun p => (p.node, p.remote, p.stopper)) =
      [(c0.net1Servers.Get 0, GetAddress c0.net1Interfaces 3, false),
       (c0.net2Clients.Get (6 * n), GetAddress c0.net1Interfaces 3, false),
       (c0.net3Clients.Get (4 * n), GetAddress c0.net1Interfaces 3, true)] := by
  have e6 : 0 + n + n + n + n + n + n = 6 * n := by omega
  have e4 : 0 + n + n + n + n = 4 * n := by omega
  simp only [createTrafficFlows, probes, List.map_cons, List.map_nil]
  rw [e6, e4]

theorem scheduledFlows_length (n numFlows : Nat) (c0 : Campus0) :
    (scheduledFlows n numFlows c0).length = 16 * min numFlows 3 := by
  by_cases h0 : 0 < numFlows <;> by_cases h1 : 1 < numFlows <;> by_cases h2 : 2 < numFlows <;>
    simp [scheduledFlows, wave1Flows, wave2Flows, wave3Flows, range4, h0, h1, h2] <;> omega

theorem mem_wave1Flows (n : Nat) (c0 : Campus0) (f : Node × Nat × Nat) :
    f ∈ wave1Flows n c0 ↔ ∃ i, i < 4 ∧
      (f = (c0.net2Clients.Get i, 0, 45000 + i) ∨ f = (c0.net2Clients.Get (i + n), 1, 45000 + i) ∨
       f = (c0.net3Clients.Get i, 2, 45000 + i) ∨ f = (c0.net3Clients.Get (i + n), 3, 45000 + i)) := by
  unfold wave1Flows
  rw [List.mem_flatMap]
  constructor
  · rintro ⟨i, hi, h⟩
    refine ⟨i, List.mem_range.1 hi, ?_⟩
    simpa using h
  · rintro ⟨i, hi, h⟩
    refine ⟨i, List.mem_range.2 hi, ?_⟩
    simpa using h

theorem mem_wave2Flows (n : Nat) (c0 : Campus0) (f : Node × Nat × Nat) :
    f ∈ wave2Flows n c0 ↔ ∃ i, i < 4 ∧
      (f = (c0.net2Clients.Get (i + 2 * n), 0, 45000 + 100 + i) ∨
       f = (c0.net2Clients.Get (i + 3 * n), 1, 45000 + 100 + i) ∨
       f = (c0.net3Clients.Get (i + 2 * n), 2, 45000 + 100 + i) ∨
       f = (c0.net3Clients.Get (i + 3 * n), 3, 45000 + 100 + i)) := by
  unfold wave2Flows
  rw [List.mem_flatMap]
  constructor
  · rintro ⟨i, hi, h⟩
    refine ⟨i, List.mem_range.1 hi, ?_⟩
    simpa using h
  · rintro ⟨i, hi, h⟩
    refine ⟨i, List.mem_range.2 hi, ?_⟩
    simpa using h

theorem mem_wave3Flows (n : Nat) (c0 : Campus0) (f : Node × Nat × Nat) :
    f ∈ wave3Flows n c0 ↔ ∃ i, i < 4 ∧
      (f = (c0.net2Clients.Get (i + 4 * n), 0, 45000 + 200 + i) ∨
       f = (c0.net2Clients.Get (i + 5 * n), 1, 45000 + 200 + i) ∨
       f = (c0.net3Clients.Get (i + 4 * n), 2, 45000 + 200 + i) ∨
       f = (c0.net2Clients.Get (i + 6 * n), 3, 45000 + 200 + i)) := by
  unfold wave3Flows
  rw [List.mem_flatMap]
  constructor
  · rintro ⟨i, hi, h⟩
    refine ⟨i, List.mem_range.1 hi, ?_⟩
    simpa using h
  · rintro ⟨i, hi, h⟩
    refine ⟨i, List.mem_range.2 hi, ?_⟩
    simpa using h

theorem mem_scheduledFlows (n numFlows : Nat) (c0 : Campus0) (f : Node × Nat × Nat) :
    f ∈ scheduledFlows n numFlows c0 ↔
      (0 < numFlows ∧ f ∈ wave1Flows n c0) ∨ (1 < numFlows ∧ f ∈ wave2Flows n c0) ∨
      (2 < numFlows ∧ f ∈ wave3Flows n c0) := by
  unfold scheduledFlows
  by_cases h0 : 0 < numFlows <;> by_cases h1 : 1 < numFlows <;> by_cases h2 : 2 < numFlows <;>
    simp [h0, h1, h2, or_assoc]

theorem scheduledFlows_has (n : Nat) (c0 : Campus0) (hn : 4 ≤ n)
    (h2 : c0.net2Clients.GetN = 7 * n) (h3 : c0.net3Clients.GetN = 5 * n)
    (numFlows : Nat) (f : Node × Nat × Nat) (hf : f ∈ scheduledFlows n numFlows c0) :
    c0.net2Clients.Has f.1 ∨ c0.net3Clients.Has f.1 := by
  rw [mem_scheduledFlows, mem_wave1Flows, mem_wave2Flows, mem_wave3Flows] at hf
  rcases hf with ⟨-, i, hi, h | h | h | h⟩ | ⟨-, i, hi, h | h | h | h⟩ |
      ⟨-, i, hi, h | h | h | h⟩ <;> subst h <;>
    first
    | exact Or.inl ⟨rfl, rfl, by simp only [NodeContainer.Get, h2]; omega⟩
    | exact Or.inr ⟨rfl, rfl, by simp only [NodeContainer.Get, h3]; omega⟩

theorem NodeContainer.mem_nodes_iff (c : NodeContainer) (x : Node) :
    x ∈ c.nodes ↔ c.Has x := by
  unfold NodeContainer.nodes NodeContainer.Has NodeContainer.Get NodeContainer.GetN
  rw [List.mem_map]
  constructor
  · rintro ⟨i, hi, rfl⟩
    exact ⟨rfl, rfl, List.mem_range.1 hi⟩
  · rintro ⟨h1, h2, h3⟩
    refine ⟨x.idx, List.mem_range.2 h3, ?_⟩
    cases x
    simp_all

theorem clientApps_nodes (nrng : NormalRandomVariable) (n numFlows : Nat) (c0 : Campus0) :
    (createTrafficFlows nrng n numFlows c0).clientApps.map OnOffApp.node =
      (scheduledFlows n numFlows c0).map Prod.fst := by
  have h := congrArg (List.map Prod.fst) (clientApps_shape nrng n numFlows c0)
  simpa [List.map_map, Function.comp] using h

theorem sources_nodup (cfg : Config) (hn : 4 ≤ cfg.nClientsPer) :
    ((scheduledFlows cfg.nClientsPer 3 (campus0 cfg)).map Prod.fst).Nodup := by
  simp [scheduledFlows, wave1Flows, wave2Flows, wave3Flows, range4, campus0,
    createCampusNodes, NodeContainer.Create, NodeContainer.Get]
  omega

theorem main_simulatorRun (cfg : Config) (nrng : NormalRandomVariable)
    (h1 : 1 ≤ cfg.nCampuses) (hrun : (buildTopology cfg).aborted = false) :
    (main cfg nrng).simulatorRun = true := by
  have h0 : 0 < cfg.nCampuses := h1
  simp [main, hrun, createNodes_getElem _ _ 0 h0]

theorem pings_nodes (nrng : NormalRandomVariable) (n numFlows : Nat) (c0 : Campus0) :
    (createTrafficFlows nrng n numFlows c0).pings.map V4Ping.node =
      [c0.net1Servers.Get 0, c0.net2Clients.Get (6 * n), c0.net3Clients.Get (4 * n)] := by
  have h := congrArg (List.map Prod.fst) (pings_shape nrng n numFlows c0)
  simpa [List.map_map, Function.comp] using h

/-! ### The campus loop agrees with the wiring of its blocks -/

theorem agrees_linkSwitches (z : Nat) (a b : Node) (pa pb : PortSet) (w : Wiring) (s : Sim)
    (h : Agrees w s) :
    Agrees (w.step (.link z a b pa pb)) (linkSwitches z a b pa pb s) := by
  by_cases hab : s.aborted = true
  · left
    simp [linkSwitches, Sim.Install, Sim.portsAdd, hab]
  · rcases h with h | ⟨h1, h2, h3, h4⟩
    · exact absurd h hab
    · right
      simp [linkSwitches, Sim.Install, Sim.portsAdd, hab, Wiring.step, h1, h2, h3, h4]

theorem agrees_linkHost (z : Nat) (hh : CsmaHelper) (sw host : Node) (p : PortSet) (g : IfSet)
    (w : Wiring) (s : Sim) (h : Agrees w s) :
    Agrees (w.step (.host z hh sw host p g)) (linkHost z hh sw host p g s) := by
  by_cases hab : s.aborted = true
  · left
    simp [linkHost, Sim.Install, Sim.portsAdd, Sim.assignAdd, hab]
  · rcases h with h | ⟨h1, h2, h3, h4⟩
    · exact absurd h hab
    · cases hn : s.ipv4switches.NewAddress with
      | none =>
        left
        simp [linkHost, Sim.Install, Sim.portsAdd, Sim.assignAdd, hab, hn]
      | some r =>
        right
        simp only [linkHost, Sim.Install, Sim.portsAdd, Sim.assignAdd, hab, hn, Wiring.step,
          h1, h2, h3, if_false, Bool.false_eq_true, true_and]
        intro g1
        simp only [upd]
        split
        · simp [h4]
        · exact h4 g1

theorem agrees_installSwitch (z : Nat) (node : Node) (p : PortSet) (w : Wiring) (s : Sim)
    (h : Agrees w s) :
    Agrees (w.step (.inst z node p)) (Sim.InstallSwitch z node p s) := by
  by_cases hab : s.aborted = true
  · left
    simp [Sim.InstallSwitch, hab]
  · rcases h with h | ⟨h1, h2, h3, h4⟩
    · exact absurd h hab
    · right
      simp [Sim.InstallSwitch, hab, Wiring.step, h1, h2, h3, h4]

theorem agrees_controllerApp (cfg : Config) (z : Nat) (w : Wiring) (s : Sim)
    (h : Agrees w s) : Agrees w (controllerApp cfg z s) := by
  unfold controllerApp
  split
  · exact h
  · split
    · exact h
    · cases appModule cfg.app <;> exact h

theorem agrees_setupController (cfg : Config) (z : Nat) (w : Wiring) (s : Sim)
    (h : Agrees w s) : Agrees w (setupController cfg z s) := by
  unfold setupController
  split <;> exact h

theorem agrees_foldl {ι : Type} (body : Sim → ι → Sim) (ev : ι → List Event) (l : List ι)
    (hb : ∀ w s i, i ∈ l → Agrees w s → Agrees ((ev i).foldl Wiring.step w) (body s i))
    (w : Wiring) (s : Sim) (h : Agrees w s) :
    Agrees ((l.flatMap ev).foldl Wiring.step w) (l.foldl body s) := by
  induction l generalizing w s with
  | nil => exact h
  | cons i l ih =>
    rw [List.flatMap_cons, List.foldl_append, List.foldl_cons]
    exact ih (fun w s j hj => hb w s j (List.mem_cons_of_mem _ hj)) _ _
      (hb w s i (List.mem_cons_self _ _) h)

theorem agrees_foldl_map {ι : Type} (body : Sim → ι → Sim) (ev : ι → Event) (l : List ι)
    (hb : ∀ w s i, Agrees w s → Agrees (w.step (ev i)) (body s i))
    (w : Wiring) (s : Sim) (h : Agrees w s) :
    Agrees ((l.map ev).foldl Wiring.step w) (l.foldl body s) := by
  induction l generalizing w s with
  | nil => exact h
  | cons i l ih =>
    rw [List.map_cons, List.foldl_cons, List.foldl_cons]
    exact ih _ _ (hb w s i h)

theorem agrees_wireCampus (cfg : Config) (c : CampusNodes) (z : Nat) (w : Wiring) (s : Sim)
    (h : Agrees w s) :
    Agrees ((campusEvents cfg.nClientsPer z c).foldl Wiring.step w) (wireCampus cfg c z s) := by
  have hSw := agrees_linkSwitches
  have hHo := agrees_linkHost
  unfold campusEvents wiringEvents headEvents installEvents
  simp only [List.foldl_append]
  unfold wireCampus installSwitches installLoop
  apply agrees_controllerApp
  simp only [List.foldl_cons, List.foldl_nil]
  apply agrees_installSwitch
  apply agrees_installSwitch
  iterate 4 apply agrees_foldl_map _ _ _ (fun w s i h => agrees_installSwitch _ _ _ w s h)
  unfold net3ClientsLoop
  apply agrees_foldl
  · intro w s i _ h
    unfold net3ClientsBody net3ClientsEvents
    simp only [List.foldl_cons, List.foldl_nil]
    iterate 5 apply hHo
    exact h
  unfold net3Mesh net3MeshEvents
  simp only [List.foldl_cons, List.foldl_nil]
  iterate 6 apply hSw
  unfold net2ClientsLoop
  apply agrees_foldl
  · intro w s i _ h
    unfold net2ClientsBody net2ClientsEvents
    simp only [List.foldl_cons, List.foldl_nil]
    iterate 7 apply hHo
    exact h
  unfold net2Mesh net0Uplinks net1Cross
  iterate 14 apply hSw
  unfold net1ServersLoop
  apply agrees_foldl_map _ _ _ (fun w s i h => hHo _ _ _ _ _ _ w s h)
  unfold net0Ring
  apply agrees_foldl_map _ _ _ (fun w s i h => hSw _ _ _ _ _ w s h)
  exact h

theorem agrees_init : Agrees Wiring.init Sim.init := by
  right
  simp [Wiring.init, Sim.init]

theorem agrees_buildTopology (cfg : Config) :
    Agrees (Wiring.run (programEvents cfg)) (buildTopology cfg) := by
  unfold Wiring.run programEvents buildTopology
  apply agrees_foldl
  · intro w s z hz h
    rw [createNodes_getElem _ _ _ (List.mem_range.1 hz)]
    exact agrees_wireCampus cfg _ z w _ (agrees_setupController cfg z w s h)
  · exact agrees_init

/-! ### Every campus is wired independently of the others -/

theorem upd_same {α β : Type} [DecidableEq α] (f : α → β) (k : α) (v : β) :
    upd f k v k = v := by
  simp [upd]

theorem upd_other {α β : Type} [DecidableEq α] (f : α → β) (k x : α) (v : β) (h : x ≠ k) :
    upd f k v x = f x := by
  simp [upd, h]

theorem step_sameAt_of_ne (z : Nat) (ev : Event) (hw : ev.wf) (hz : ev.z ≠ z) (w v : Wiring)
    (h : SameAt z w v) : SameAt z (w.step ev) v := by
  obtain ⟨h1, h2, h3, h4⟩ := h
  cases ev with
  | link z1 a b pa pb =>
    simp only [Event.z] at hz
    obtain ⟨ha, hb, -⟩ := hw
    refine ⟨?_, ?_, ?_, ?_⟩
    · simp only [Wiring.step]
      rw [upd_other _ _ _ _ (Ne.symm hz)]
      exact h1
    · intro p hp
      have e1 : p ≠ pa := fun e => hz (by rw [← ha, ← e, hp])
      have e2 : p ≠ pb := fun e => hz (by rw [← hb, ← e, hp])
      simp only [Wiring.step]
      rw [upd_other _ _ _ _ e2, upd_other _ _ _ _ e1]
      exact h2 p hp
    · exact h3
    · exact h4
  | host z1 hh sw host p1 g1 =>
    simp only [Event.z] at hz
    obtain ⟨ha, hb⟩ := hw
    refine ⟨?_, ?_, ?_, ?_⟩
    · simp only [Wiring.step]
      rw [upd_other _ _ _ _ (Ne.symm hz)]
      exact h1
    · intro p hp
      have e1 : p ≠ p1 := fun e => hz (by rw [← ha, ← e, hp])
      simp only [Wiring.step]
      rw [upd_other _ _ _ _ e1]
      exact h2 p hp
    · intro g hg
      have e1 : g ≠ g1 := fun e => hz (by rw [← hb, ← e, hg])
      simp only [Wiring.step]
      rw [upd_other _ _ _ _ e1]
      exact h3 g hg
    · exact h4
  | inst z1 node p1 =>
    simp only [Event.z] at hz
    refine ⟨h1, h2, h3, ?_⟩
    simp only [Wiring.step]
    rw [upd_other _ _ _ _ (Ne.symm hz)]
    exact h4

theorem step_sameAt_of_eq (z : Nat) (ev : Event) (hw : ev.wf) (hz : ev.z = z) (w v : Wiring)
    (h : SameAt z w v) : SameAt z (w.step ev) (v.step ev) := by
  obtain ⟨h1, h2, h3, h4⟩ := h
  cases ev with
  | link z1 a b pa pb =>
    simp only [Event.z] at hz
    subst hz
    obtain ⟨ha, hb, -⟩ := hw
    refine ⟨?_, ?_, h3, h4⟩
    · simp only [Wiring.step, upd_same, h1]
    · intro p hp
      simp only [Wiring.step, upd, h1, h2 pa ha, h2 pb hb, h2 p hp]
  | host z1 hh sw host p1 g1 =>
    simp only [Event.z] at hz
    subst hz
    obtain ⟨ha, hb⟩ := hw
    refine ⟨?_, ?_, ?_, h4⟩
    · simp only [Wiring.step, upd_same, h1]
    · intro p hp
      simp only [Wiring.step, upd, h1, h2 p1 ha, h2 p hp]
    · intro g hg
      simp only [Wiring.step, upd, h1, h3 g1 hb, h3 g hg]
  | inst z1 node p1 =>
    simp only [Event.z] at hz
    subst hz
    refine ⟨h1, h2, h3, ?_⟩
    simp only [Wiring.step, upd_same, h4, h2 p1 hw]

theorem foldl_sameAt (z : Nat) (T : List Event) (hT : ∀ ev ∈ T, ev.wf) (w v : Wiring)
    (h : SameAt z w v) :
    SameAt z (T.foldl Wiring.step w)
      ((T.filter (fun ev => decide (ev.z = z))).foldl Wiring.step v) := by
  induction T generalizing w v with
  | nil => exact h
  | cons ev T ih =>
    have hw := hT ev (List.mem_cons_self _ _)
    have hT1 : ∀ e ∈ T, e.wf := fun e he => hT e (List.mem_cons_of_mem _ he)
    by_cases hz : ev.z = z
    · rw [List.filter_cons_of_pos (by simpa using hz), List.foldl_cons, List.foldl_cons]
      exact ih hT1 _ _ (step_sameAt_of_eq z ev hw hz w v h)
    · rw [List.filter_cons_of_neg (by simpa using hz), List.foldl_cons]
      exact ih hT1 _ _ (step_sameAt_of_ne z ev hw hz w v h)

theorem forall_mem_append_of {α : Type} {P : α → Prop} {l1 l2 : List α}
    (h1 : ∀ x ∈ l1, P x) (h2 : ∀ x ∈ l2, P x) : ∀ x ∈ l1 ++ l2, P x := by
  intro x hx
  rcases List.mem_append.1 hx with h | h
  · exact h1 x h
  · exact h2 x h

theorem forall_mem_flatMap_range {α : Type} {P : α → Prop} (n : Nat) (f : Nat → List α)
    (h : ∀ i, i < n → ∀ x ∈ f i, P x) : ∀ x ∈ (List.range n).flatMap f, P x := by
  intro x hx
  obtain ⟨i, hi, hx⟩ := List.mem_flatMap.1 hx
  exact h i (List.mem_range.1 hi) x hx

theorem forall_mem_map_range {α : Type} {P : α → Prop} (n : Nat) (f : Nat → α)
    (h : ∀ i, i < n → P (f i)) : ∀ x ∈ (List.range n).map f, P x := by
  intro x hx
  obtain ⟨i, hi, rfl⟩ := List.mem_map.1 hx
  exact h i (List.mem_range.1 hi)

theorem wiringEvents_wf (n z : Nat) (c : CampusNodes) :
    ∀ ev ∈ wiringEvents n z c, ev.wf ∧ ev.z = z := by
  unfold wiringEvents headEvents
  repeat apply forall_mem_append_of
  · apply forall_mem_map_range
    intro i hi
    refine ⟨⟨rfl, rfl, ?_⟩, rfl⟩
    intro e
    have := congrArg PortSet.i e
    simp only at this
    omega
  · apply forall_mem_map_range
    intro i _
    exact ⟨⟨rfl, rfl⟩, rfl⟩
  · intro ev h
    simp only [List.mem_cons, List.mem_singleton, List.not_mem_nil, or_false] at h
    rcases h with h | h | h | h | h | h | h | h | h | h | h | h | h | h <;> subst h <;>
      exact ⟨⟨rfl, rfl, by simp⟩, rfl⟩
  · apply forall_mem_flatMap_range
    intro i _ ev h
    simp only [net2ClientsEvents, List.mem_cons, List.mem_singleton, List.not_mem_nil,
      or_false] at h
    rcases h with h | h | h | h | h | h | h <;> subst h <;> exact ⟨⟨rfl, rfl⟩, rfl⟩
  · intro ev h
    simp only [net3MeshEvents, List.mem_cons, List.mem_singleton, List.not_mem_nil,
      or_false] at h
    rcases h with h | h | h | h | h | h <;> subst h <;> exact ⟨⟨rfl, rfl, by simp⟩, rfl⟩
  · apply forall_mem_flatMap_range
    intro i _ ev h
    simp only [net3ClientsEvents, List.mem_cons, List.mem_singleton, List.not_mem_nil,
      or_false] at h
    rcases h with h | h | h | h | h <;> subst h <;> exact ⟨⟨rfl, rfl⟩, rfl⟩

theorem installEvents_wf (z : Nat) (c : CampusNodes) :
    ∀ ev ∈ installEvents z c, ev.wf ∧ ev.z = z := by
  unfold installEvents
  repeat apply forall_mem_append_of
  · apply forall_mem_map_range
    intro i _
    exact ⟨rfl, rfl⟩
  · apply forall_mem_map_range
    intro i _
    exact ⟨rfl, rfl⟩
  · apply forall_mem_map_range
    intro i _
    exact ⟨rfl, rfl⟩
  · apply forall_mem_map_range
    intro i _
    exact ⟨rfl, rfl⟩
  · intro ev h
    simp only [List.mem_cons, List.mem_singleton, List.not_mem_nil, or_false] at h
    rcases h with h | h <;> subst h <;> exact ⟨rfl, rfl⟩

theorem campusEvents_wf (n z : Nat) (c : CampusNodes) :
    ∀ ev ∈ campusEvents n z c, ev.wf ∧ ev.z = z :=
  forall_mem_append_of (wiringEvents_wf n z c) (installEvents_wf z c)

theorem programEvents_wf (cfg : Config) : ∀ ev ∈ programEvents cfg, ev.wf := by
  unfold programEvents
  apply forall_mem_flatMap_range
  intro z _ ev h
  exact (campusEvents_wf _ z _ ev h).1

theorem flatMap_range_filter_single {α : Type} (p : α → Bool) (f : Nat → List α) (n z : Nat)
    (hz : z < n) (hself : ∀ x ∈ f z, p x = true)
    (hother : ∀ i, i ≠ z → ∀ x ∈ f i, p x = false) :
    ((List.range n).flatMap f).filter p = f z := by
  induction n with
  | zero => omega
  | succ m ih =>
    rw [List.range_succ, List.flatMap_append, List.filter_append]
    simp only [List.flatMap_cons, List.flatMap_nil, List.append_nil]
    by_cases hm : z = m
    · subst hm
      have e1 : ((List.range z).flatMap f).filter p = [] := by
        rw [List.filter_eq_nil_iff]
        intro x hx
        obtain ⟨i, hi, hx⟩ := List.mem_flatMap.1 hx
        have hi := List.mem_range.1 hi
        rw [hother i (by omega) x hx]
        simp
      rw [e1, List.nil_append, List.filter_eq_self]
      exact hself
    · have e2 : (f m).filter p = [] := by
        rw [List.filter_eq_nil_iff]
        intro x hx
        rw [hother m (Ne.symm hm) x hx]
        simp
      rw [e2, List.append_nil]
      exact ih (by omega)

theorem programEvents_filter (cfg : Config) (z : Nat) (hz : z < cfg.nCampuses) :
    (programEvents cfg).filter (fun ev => decide (ev.z = z)) =
      campusEvents cfg.nClientsPer z (createCampusNodes cfg.nClientsPer z) := by
  unfold programEvents
  apply flatMap_range_filter_single _ _ _ _ hz
  · intro ev hev
    simpa using (campusEvents_wf _ z _ ev hev).2
  · intro i hi ev hev
    have := (campusEvents_wf _ i _ ev hev).2
    simp only [decide_eq_false_iff_not]
    rw [this]
    exact hi

theorem sameAt_refl (z : Nat) (w : Wiring) : SameAt z w w :=
  ⟨rfl, fun _ _ => rfl, fun _ _ => rfl, rfl⟩

theorem campus_view (cfg : Config) (z : Nat) (hz : z < cfg.nCampuses)
    (hrun : (buildTopology cfg).aborted = false) :
    (buildTopology cfg).links z = (campusWiring cfg.nClientsPer z).links z ∧
    (∀ p : PortSet, p.z = z →
      (buildTopology cfg).ports p = (campusWiring cfg.nClientsPer z).ports p) ∧
    (∀ g : IfSet, g.z = z →
      ((buildTopology cfg).ifaces g).map Iface.dev = (campusWiring cfg.nClientsPer z).ifs g) ∧
    (buildTopology cfg).installed z = (campusWiring cfg.nClientsPer z).installed z := by
  have hA := agrees_buildTopology cfg
  rcases hA with h | ⟨h1, h2, h3, h4⟩
  · rw [hrun] at h; cases h
  · have hS := foldl_sameAt z (programEvents cfg) (programEvents_wf cfg) Wiring.init Wiring.init
      (sameAt_refl z _)
    rw [programEvents_filter cfg z hz] at hS
    obtain ⟨s1, s2, s3, s4⟩ := hS
    refine ⟨?_, ?_, ?_, ?_⟩
    · rw [h1]; exact s1
    · intro p hp; rw [h2]; exact s2 p hp
    · intro g hg; rw [h4 g]; exact s3 g hg
    · rw [h3]; exact s4

/-! ### The links of one campus in closed form -/

theorem foldl_step_links (z : Nat) (T : List Event) (w : Wiring) :
    (T.foldl Wiring.step w).links z = w.links z ++ eventLinks z T := by
  induction T generalizing w with
  | nil => simp [eventLinks]
  | cons ev T ih =>
    rw [List.foldl_cons, ih]
    cases ev with
    | link z1 a b pa pb =>
      by_cases h : z1 = z
      · subst h
        simp [Wiring.step, eventLinks, Event.linkAt, upd]
      · have h2 : ¬ z = z1 := fun e => h e.symm
        simp [Wiring.step, eventLinks, Event.linkAt, upd, h, h2]
    | host z1 hh sw x p g =>
      by_cases h : z1 = z
      · subst h
        simp [Wiring.step, eventLinks, Event.linkAt, upd]
      · have h2 : ¬ z = z1 := fun e => h e.symm
        simp [Wiring.step, eventLinks, Event.linkAt, upd, h, h2]
    | inst z1 node p =>
      simp [Wiring.step, eventLinks, Event.linkAt]

theorem eventLinks_append (z : Nat) (T1 T2 : List Event) :
    eventLinks z (T1 ++ T2) = eventLinks z T1 ++ eventLinks z T2 := by
  simp [eventLinks]

theorem eventLinks_flatMap (z n : Nat) (f : Nat → List Event) :
    eventLinks z ((List.range n).flatMap f) = (List.range n).flatMap (fun i => eventLinks z (f i)) := by
  simp [eventLinks, List.filterMap_flatMap]

theorem eventLinks_installEvents (z : Nat) (c : CampusNodes) :
    eventLinks z (installEvents z c) = [] := by
  simp [eventLinks, installEvents, Event.linkAt, List.filterMap_map, Function.comp]

theorem eventLinks_net2Clients (n z : Nat) (c : CampusNodes) (i : Nat) :
    eventLinks z (net2ClientsEvents n z c i) =
      [⟨c.net2Switches.Get 2, c.net2Clients.Get i, .csma_100mb1ms⟩,
       ⟨c.net2Switches.Get 3, c.net2Clients.Get (i + n), .csma_100mb1ms⟩,
       ⟨c.net2Switches.Get 4, c.net2Clients.Get (i + n + n), .csma_100mb1ms⟩,
       ⟨c.net2Switches.Get 5, c.net2Clients.Get (i + n + n + n), .csma_100mb1ms⟩,
       ⟨c.net2Switches.Get 6, c.net2Clients.Get (i + n + n + n + n), .csma_100mb1ms⟩,
       ⟨c.net2Switches.Get 6, c.net2Clients.Get (i + n + n + n + n + n), .csma_100mb1ms⟩,
       ⟨c.net2Switches.Get 6, c.net2Clients.Get (i + n + n + n + n + n + n),
         .csma_100mb1ms⟩] := by
  simp [eventLinks, net2ClientsEvents, Event.linkAt]

theorem eventLinks_net3Clients (n z : Nat) (c : CampusNodes) (i : Nat) :
    eventLinks z (net3ClientsEvents n z c i) =
      [⟨c.net3Switches.Get 0, c.net3Clients.Get i, .csma_100mb1ms⟩,
       ⟨c.net3Switches.Get 0, c.net3Clients.Get (i + n), .csma_100mb1ms⟩,
       ⟨c.net3Switches.Get 2, c.net3Clients.Get (i + n + n), .csma_100mb1ms⟩,
       ⟨c.net3Switches.Get 3, c.net3Clients.Get (i + n + n + n), .csma_100mb1ms⟩,
       ⟨c.net3Switches.Get 3, c.net3Clients.Get (i + n + n + n + n), .csma_100mb1ms⟩] := by
  simp [eventLinks, net3ClientsEvents, Event.linkAt]

theorem eventLinks_head (z : Nat) (c : CampusNodes) :
    eventLinks z (headEvents z c) =
      [⟨c.net0Switches.Get 0, c.net0Switches.Get 1, .csma_1gb5ms⟩,
       ⟨c.net0Switches.Get 1, c.net0Switches.Get 2, .csma_1gb5ms⟩,
       ⟨c.net0Switches.Get 2, c.net0Switches.Get 0, .csma_1gb5ms⟩,
       ⟨c.net1Switches.Get 0, c.net1Servers.Get 0, .csma_1gb5ms⟩,
       ⟨c.net1Switches.Get 0, c.net1Servers.Get 1, .csma_1gb5ms⟩,
       ⟨c.net1Switches.Get 1, c.net1Servers.Get 2, .csma_1gb5ms⟩,
       ⟨c.net1Switches.Get 1, c.net1Servers.Get 3, .csma_1gb5ms⟩,
       ⟨c.net1Servers.Get 0, c.net1Servers.Get 1, .csma_1gb5ms⟩,
       ⟨c.net0Switches.Get 2, c.net1Switches.Get 0, .csma_1gb5ms⟩,
       ⟨c.net0Switches.Get 1, c.net4Switch.Get 0, .csma_1gb5ms⟩,
       ⟨c.net0Switches.Get 1, c.net5Switch.Get 0, .csma_1gb5ms⟩,
       ⟨c.net4Switch.Get 0, c.net5Switch.Get 0, .csma_1gb5ms⟩,
       ⟨c.net4Switch.Get 0, c.net2Switches.Get 0, .csma_1gb5ms⟩,
       ⟨c.net4Switch.Get 0, c.net2Switches.Get 1, .csma_1gb5ms⟩,
       ⟨c.net2Switches.Get 0, c.net2Switches.Get 1, .csma_1gb5ms⟩,
       ⟨c.net2Switches.Get 0, c.net2Switches.Get 2, .csma_1gb5ms⟩,
       ⟨c.net2Switches.Get 1, c.net2Switches.Get 3, .csma_1gb5ms⟩,
       ⟨c.net2Switches.Get 2, c.net2Switches.Get 3, .csma_1gb5ms⟩,
       ⟨c.net2Switches.Get 2, c.net2Switches.Get 4, .csma_1gb5ms⟩,
       ⟨c.net2Switches.Get 3, c.net2Switches.Get 5, .csma_1gb5ms⟩,
       ⟨c.net2Switches.Get 5, c.net2Switches.Get 6, .csma_1gb5ms⟩] := by
  have r3 : List.range 3 = [0, 1, 2] := by decide
  simp [eventLinks, headEvents, Event.linkAt, r3, range4]

theorem eventLinks_net3Mesh (z : Nat) (c : CampusNodes) :
    eventLinks z (net3MeshEvents z c) =
      [⟨c.net5Switch.Get 0, c.net3Switches.Get 0, .csma_1gb5ms⟩,
       ⟨c.net5Switch.Get 0, c.net3Switches.Get 1, .csma_1gb5ms⟩,
       ⟨c.net3Switches.Get 0, c.net3Switches.Get 1, .csma_1gb5ms⟩,
       ⟨c.net3Switches.Get 1, c.net3Switches.Get 2, .csma_1gb5ms⟩,
       ⟨c.net3Switches.Get 1, c.net3Switches.Get 3, .csma_1gb5ms⟩,
       ⟨c.net3Switches.Get 2, c.net3Switches.Get 3, .csma_1gb5ms⟩] := by
  simp [eventLinks, net3MeshEvents, Event.linkAt]

theorem campusWiring_links (n z : Nat) :
    (campusWiring n z).links z =
      eventLinks z (headEvents z (createCampusNodes n z)) ++
      (List.range n).flatMap
        (fun i => eventLinks z (net2ClientsEvents n z (createCampusNodes n z) i)) ++
      eventLinks z (net3MeshEvents z (createCampusNodes n z)) ++
      (List.range n).flatMap
        (fun i => eventLinks z (net3ClientsEvents n z (createCampusNodes n z) i)) := by
  unfold campusWiring Wiring.run
  rw [foldl_step_links]
  simp only [Wiring.init, List.nil_append, campusEvents, wiringEvents, eventLinks_append,
    eventLinks_flatMap, eventLinks_installEvents, List.append_nil]

theorem buildTopology_links (cfg : Config) (z : Nat) (hz : z < cfg.nCampuses)
    (hrun : (buildTopology cfg).aborted = false) :
    (buildTopology cfg).links z =
      eventLinks z (headEvents z (createCampusNodes cfg.nClientsPer z)) ++
      (List.range cfg.nClientsPer).flatMap (fun i => eventLinks z
        (net2ClientsEvents cfg.nClientsPer z (createCampusNodes cfg.nClientsPer z) i)) ++
      eventLinks z (net3MeshEvents z (createCampusNodes cfg.nClientsPer z)) ++
      (List.range cfg.nClientsPer).flatMap (fun i => eventLinks z
        (net3ClientsEvents cfg.nClientsPer z (createCampusNodes cfg.nClientsPer z) i)) := by
  rw [(campus_view cfg z hz hrun).1, campusWiring_links]

theorem filter_flatMap_range_nil {α : Type} (p : α → Bool) (f : Nat → List α) (n : Nat)
    (h : ∀ i, i < n → ∀ x ∈ f i, p x = false) :
    ((List.range n).flatMap f).filter p = [] := by
  rw [List.filter_eq_nil_iff]
  intro x hx
  obtain ⟨i, hi, hx⟩ := List.mem_flatMap.1 hx
  rw [h i (List.mem_range.1 hi) x hx]
  simp

theorem filter_flatMap_range_single {α : Type} (p : α → Bool) (f : Nat → List α) (n k : Nat)
    (r : List α) (hk : k < n) (hself : (f k).filter p = r)
    (hother : ∀ i, i < n → i ≠ k → ∀ x ∈ f i, p x = false) :
    ((List.range n).flatMap f).filter p = r := by
  induction n with
  | zero => omega
  | succ m ih =>
    rw [List.range_succ, List.flatMap_append, List.filter_append]
    simp only [List.flatMap_cons, List.flatMap_nil, List.append_nil]
    by_cases hm : k = m
    · subst hm
      rw [filter_flatMap_range_nil p f k (fun i hi => hother i (by omega) (by omega)), hself,
        List.nil_append]
    · have e2 : (f m).filter p = [] := by
        rw [List.filter_eq_nil_iff]
        intro x hx
        rw [hother m (by omega) (Ne.symm hm) x hx]
        simp
      rw [e2, List.append_nil]
      exact ih (by omega) (fun i hi => hother i (by omega))

theorem tier2_internal_links (cfg : Config) (z : Nat) (hz : z < cfg.nCampuses)
    (hrun : (buildTopology cfg).aborted = false) :
    ((buildTopology cfg).links z).filter (fun l =>
        decide (l.a ∈ (createCampusNodes cfg.nClientsPer z).net2Switches.nodes) &&
        decide (l.b ∈ (createCampusNodes cfg.nClientsPer z).net2Switches.nodes)) =
      [⟨⟨.net2Switches, z, 0⟩, ⟨.net2Switches, z, 1⟩, .csma_1gb5ms⟩,
       ⟨⟨.net2Switches, z, 0⟩, ⟨.net2Switches, z, 2⟩, .csma_1gb5ms⟩,
       ⟨⟨.net2Switches, z, 1⟩, ⟨.net2Switches, z, 3⟩, .csma_1gb5ms⟩,
       ⟨⟨.net2Switches, z, 2⟩, ⟨.net2Switches, z, 3⟩, .csma_1gb5ms⟩,
       ⟨⟨.net2Switches, z, 2⟩, ⟨.net2Switches, z, 4⟩, .csma_1gb5ms⟩,
       ⟨⟨.net2Switches, z, 3⟩, ⟨.net2Switches, z, 5⟩, .csma_1gb5ms⟩,
       ⟨⟨.net2Switches, z, 5⟩, ⟨.net2Switches, z, 6⟩, .csma_1gb5ms⟩] := by
  rw [buildTopology_links cfg z hz hrun]
  simp only [List.filter_append]
  rw [filter_flatMap_range_nil, filter_flatMap_range_nil]
  · simp [eventLinks_head, eventLinks_net3Mesh, NodeContainer.mem_nodes_iff, NodeContainer.Has,
      createCampusNodes, NodeContainer.Create, NodeContainer.Get, NodeContainer.GetN,
      List.filter_cons]
  · intro i _ x hx
    rw [eventLinks_net3Clients] at hx
    simp only [List.mem_cons, List.mem_singleton, List.not_mem_nil, or_false] at hx
    rcases hx with h | h | h | h | h <;> subst h <;>
      simp [NodeContainer.mem_nodes_iff, NodeContainer.Has, createCampusNodes,
        NodeContainer.Create, NodeContainer.Get]
  · intro i _ x hx
    rw [eventLinks_net2Clients] at hx
    simp only [List.mem_cons, List.mem_singleton, List.not_mem_nil, or_false] at hx
    rcases hx with h | h | h | h | h | h | h <;> subst h <;>
      simp [NodeContainer.mem_nodes_iff, NodeContainer.Has, createCampusNodes,
        NodeContainer.Create, NodeContainer.Get]

theorem filter_map_range_cases {α : Type} (p : α → Bool) (f : Nat → α) (k : Nat) :
    ∀ m, (∀ g, g < m → (p (f g) = true ↔ g = k)) →
      ((List.range m).map f).filter p = if k < m then [f k] else [] := by
  intro m
  induction m with
  | zero => intro _; rfl
  | succ m ih =>
    intro h
    rw [List.range_succ, List.map_append, List.filter_append, ih (fun g hg => h g (by omega))]
    by_cases hkm : k < m
    · have hne : p (f m) = false := by
        have := h m (by omega)
        cases hp : p (f m) with
        | false => rfl
        | true => exact absurd (this.1 hp) (by omega)
      simp [hkm, hne, show k < m + 1 by omega]
    · by_cases hk : k = m
      · subst hk
        have hp : p (f k) = true := (h k (by omega)).2 rfl
        simp [hp]
      · have hne : p (f m) = false := by
          have := h m (by omega)
          cases hp : p (f m) with
          | false => rfl
          | true => exact absurd (this.1 hp) (by omega)
        simp [hkm, hne, show ¬ k < m + 1 by omega]

theorem filter_map_range_single {α : Type} (p : α → Bool) (f : Nat → α) (m k : Nat)
    (hk : k < m) (h : ∀ g, g < m → (p (f g) = true ↔ g = k)) :
    ((List.range m).map f).filter p = [f k] := by
  rw [filter_map_range_cases p f k m h, if_pos hk]

/-- Filtering a grid of links, one per iteration `i < n` and group `g < m`, by a predicate
that holds exactly at the cell with `i + g * n = j` leaves that one cell. -/
theorem filter_client_grid {α : Type} (m n : Nat) (mk : Nat → Nat → α) (p : α → Bool) (j : Nat)
    (hj : j < m * n)
    (hp : ∀ i g, i < n → g < m → (p (mk i g) = true ↔ i + g * n = j)) :
    ((List.range n).flatMap (fun i => (List.range m).map (mk i))).filter p =
      [mk (j % n) (j / n)] := by
  have hn : 0 < n := by
    rcases Nat.eq_zero_or_pos n with h | h
    · subst h; simp at hj
    · exact h
  have hkn : j % n < n := Nat.mod_lt _ hn
  have hgm : j / n < m := (Nat.div_lt_iff_lt_mul hn).2 hj
  have key : ∀ i g, i < n → (i + g * n = j ↔ g = j / n ∧ i = j % n) := by
    intro i g hi
    have := @Nat.div_mod_unique j n i g hn
    constructor
    · intro h
      have h2 := this.2 ⟨by rw [Nat.mul_comm]; exact h, hi⟩
      exact ⟨h2.1.symm, h2.2.symm⟩
    · rintro ⟨h1, h2⟩
      have h3 := (this.1 ⟨h1.symm, h2.symm⟩).1
      rw [Nat.mul_comm] at h3; exact h3
  refine filter_flatMap_range_single p _ n (j % n) _ hkn ?_ ?_
  · refine filter_map_range_single p (mk (j % n)) m (j / n) hgm ?_
    intro g hg
    rw [hp _ _ hkn hg, key _ _ hkn]
    exact ⟨fun h => h.1, fun h => ⟨h, rfl⟩⟩
  · intro i hi hne x hx
    obtain ⟨g, hg, rfl⟩ := List.mem_map.1 hx
    have hg2 : g < m := List.mem_range.1 hg
    cases hpx : p (mk i g) with
    | false => rfl
    | true => exact absurd ((key i g hi).1 ((hp i g hi hg2).1 hpx)).2 hne

theorem eventLinks_net2Clients_grid (n z i : Nat) :
    eventLinks z (net2ClientsEvents n z (createCampusNodes n z) i) =
      (List.range 7).map (fun g => (⟨⟨.net2Switches, z, tier2GroupSwitch g⟩,
        ⟨.net2Clients, z, i + g * n⟩, .csma_100mb1ms⟩ : Link)) := by
  have e2 : i + n + n = i + 2 * n := by omega
  have e3 : i + 2 * n + n = i + 3 * n := by omega
  have e4 : i + 3 * n + n = i + 4 * n := by omega
  have e5 : i + 4 * n + n = i + 5 * n := by omega
  have e6 : i + 5 * n + n = i + 6 * n := by omega
  have r7 : List.range 7 = [0, 1, 2, 3, 4, 5, 6] := by decide
  rw [eventLinks_net2Clients, r7]
  simp only [e2, e3, e4, e5, e6]
  simp [createCampusNodes, NodeContainer.Create, NodeContainer.Get, tier2GroupSwitch]

theorem eventLinks_net3Clients_grid (n z i : Nat) :
    eventLinks z (net3ClientsEvents n z (createCampusNodes n z) i) =
      (List.range 5).map (fun g => (⟨⟨.net3Switches, z, tier3GroupSwitch g⟩,
        ⟨.net3Clients, z, i + g * n⟩, .csma_100mb1ms⟩ : Link)) := by
  have e2 : i + n + n = i + 2 * n := by omega
  have e3 : i + 2 * n + n = i + 3 * n := by omega
  have e4 : i + 3 * n + n = i + 4 * n := by omega
  have r5 : List.range 5 = [0, 1, 2, 3, 4] := by decide
  rw [eventLinks_net3Clients, r5]
  simp only [e2, e3, e4]
  simp [createCampusNodes, NodeContainer.Create, NodeContainer.Get, tier3GroupSwitch]

theorem tier2GroupSwitch_div (n j : Nat) (hj : j < 7 * n) :
    tier2GroupSwitch (j / n) = tier2SwitchOf n j := by
  have hn : 0 < n := by omega
  have h1 := @Nat.div_lt_iff_lt_mul n j 1 hn
  have h2 := @Nat.div_lt_iff_lt_mul n j 2 hn
  have h3 := @Nat.div_lt_iff_lt_mul n j 3 hn
  have h4 := @Nat.div_lt_iff_lt_mul n j 4 hn
  unfold tier2GroupSwitch tier2SwitchOf
  generalize j / n = q at *
  split_ifs <;> omega

theorem tier3GroupSwitch_div (n j : Nat) (hj : j < 5 * n) :
    tier3GroupSwitch (j / n) = tier3SwitchOf n j := by
  have hn : 0 < n := by omega
  have h2 := @Nat.div_lt_iff_lt_mul n j 2 hn
  have h3 := @Nat.div_lt_iff_lt_mul n j 3 hn
  unfold tier3GroupSwitch tier3SwitchOf
  generalize j / n = q at *
  split_ifs <;> omega

theorem tier2_client_link (cfg : Config) (z : Nat) (hz : z < cfg.nCampuses)
    (hrun : (buildTopology cfg).aborted = false) (j : Nat) (hj : j < 7 * cfg.nClientsPer) :
    ((buildTopology cfg).links z).filter (fun l =>
        decide (l.a = (createCampusNodes cfg.nClientsPer z).net2Clients.Get j ∨
          l.b = (createCampusNodes cfg.nClientsPer z).net2Clients.Get j)) =
      [⟨⟨.net2Switches, z, tier2SwitchOf cfg.nClientsPer j⟩, ⟨.net2Clients, z, j⟩,
        .csma_100mb1ms⟩] := by
  rw [buildTopology_links cfg z hz hrun]
  simp only [List.filter_append]
  have hhead : (eventLinks z (headEvents z (createCampusNodes cfg.nClientsPer z))).filter
      (fun l => decide (l.a = (createCampusNodes cfg.nClientsPer z).net2Clients.Get j ∨
          l.b = (createCampusNodes cfg.nClientsPer z).net2Clients.Get j)) = [] := by
    simp [eventLinks_head, createCampusNodes, NodeContainer.Create, NodeContainer.Get,
      List.filter_cons]
  have hmesh : (eventLinks z (net3MeshEvents z (createCampusNodes cfg.nClientsPer z))).filter
      (fun l => decide (l.a = (createCampusNodes cfg.nClientsPer z).net2Clients.Get j ∨
          l.b = (createCampusNodes cfg.nClientsPer z).net2Clients.Get j)) = [] := by
    simp [eventLinks_net3Mesh, createCampusNodes, NodeContainer.Create, NodeContainer.Get,
      List.filter_cons]
  have h3 := filter_flatMap_range_nil
    (fun l : Link => decide (l.a = (createCampusNodes cfg.nClientsPer z).net2Clients.Get j ∨
          l.b = (createCampusNodes cfg.nClientsPer z).net2Clients.Get j))
    (fun i => eventLinks z
        (net3ClientsEvents cfg.nClientsPer z (createCampusNodes cfg.nClientsPer z) i))
    cfg.nClientsPer (by
      intro i _ x hx
      dsimp only at hx ⊢
      rw [eventLinks_net3Clients] at hx
      simp only [List.mem_cons, List.mem_singleton, List.not_mem_nil, or_false] at hx
      rcases hx with h | h | h | h | h <;> subst h <;>
        simp [createCampusNodes, NodeContainer.Create, NodeContainer.Get])
  rw [hhead, hmesh, h3]
  simp only [List.nil_append, List.append_nil]
  simp only [eventLinks_net2Clients_grid]
  rw [filter_client_grid 7 cfg.nClientsPer _ _ j (by omega)]
  · rw [tier2GroupSwitch_div _ _ hj, Nat.mul_comm, Nat.mod_add_div]
  · intro i g _ _
    simp [createCampusNodes, NodeContainer.Create, NodeContainer.Get]

theorem tier2_client_links_only (cfg : Config) (z : Nat) (hz : z < cfg.nCampuses)
    (hrun : (buildTopology cfg).aborted = false) (l : Link)
    (hl : l ∈ (buildTopology cfg).links z)
    (hg : l.a.group = .net2Clients ∨ l.b.group = .net2Clients) :
    ∃ j, j < 7 * cfg.nClientsPer ∧
      l = ⟨⟨.net2Switches, z, tier2SwitchOf cfg.nClientsPer j⟩, ⟨.net2Clients, z, j⟩,
        .csma_100mb1ms⟩ := by
  rw [buildTopology_links cfg z hz hrun] at hl
  simp only [List.mem_append, List.mem_flatMap, List.mem_range] at hl
  rcases hl with ((hl | ⟨i, hi, hl⟩) | hl) | ⟨i, hi, hl⟩
  · exfalso
    rw [eventLinks_head] at hl
    simp only [List.mem_cons, List.mem_singleton, List.not_mem_nil, or_false] at hl
    rcases hl with h | h | h | h | h | h | h | h | h | h | h | h | h | h | h | h | h | h | h | h | h <;>
      subst h <;> simp [createCampusNodes, NodeContainer.Create, NodeContainer.Get] at hg
  · rw [eventLinks_net2Clients_grid] at hl
    obtain ⟨g, hg7, rfl⟩ := List.mem_map.1 hl
    have hg7 : g < 7 := List.mem_range.1 hg7
    have hlt : i + g * cfg.nClientsPer < 7 * cfg.nClientsPer := by
      have : (g + 1) * cfg.nClientsPer ≤ 7 * cfg.nClientsPer :=
        Nat.mul_le_mul_right _ (by omega)
      rw [Nat.add_mul] at this
      omega
    refine ⟨i + g * cfg.nClientsPer, hlt, ?_⟩
    rw [← tier2GroupSwitch_div _ _ hlt]
    have : (i + g * cfg.nClientsPer) / cfg.nClientsPer = g := by
      rw [Nat.add_mul_div_right _ _ (by omega), Nat.div_eq_of_lt hi, Nat.zero_add]
    rw [this]
  · exfalso
    rw [eventLinks_net3Mesh] at hl
    simp only [List.mem_cons, List.mem_singleton, List.not_mem_nil, or_false] at hl
    rcases hl with h | h | h | h | h | h <;>
      subst h <;> simp [createCampusNodes, NodeContainer.Create, NodeContainer.Get] at hg
  · exfalso
    rw [eventLinks_net3Clients] at hl
    simp only [List.mem_cons, List.mem_singleton, List.not_mem_nil, or_false] at hl
    rcases hl with h | h | h | h | h <;>
      subst h <;> simp [createCampusNodes, NodeContainer.Create, NodeContainer.Get] at hg

theorem tier3_internal_links (cfg : Config) (z : Nat) (hz : z < cfg.nCampuses)
    (hrun : (buildTopology cfg).aborted = false) :
    ((buildTopology cfg).links z).filter (fun l =>
        decide (l.a ∈ (createCampusNodes cfg.nClientsPer z).net3Switches.nodes) &&
        decide (l.b ∈ (createCampusNodes cfg.nClientsPer z).net3Switches.nodes)) =
      [⟨⟨.net3Switches, z, 0⟩, ⟨.net3Switches, z, 1⟩, .csma_1gb5ms⟩,
       ⟨⟨.net3Switches, z, 1⟩, ⟨.net3Switches, z, 2⟩, .csma_1gb5ms⟩,
       ⟨⟨.net3Switches, z, 1⟩, ⟨.net3Switches, z, 3⟩, .csma_1gb5ms⟩,
       ⟨⟨.net3Switches, z, 2⟩, ⟨.net3Switches, z, 3⟩, .csma_1gb5ms⟩] := by
  rw [buildTopology_links cfg z hz hrun]
  simp only [List.filter_append]
  rw [filter_flatMap_range_nil, filter_flatMap_range_nil]
  · simp [eventLinks_head, eventLinks_net3Mesh, NodeContainer.mem_nodes_iff, NodeContainer.Has,
      createCampusNodes, NodeContainer.Create, NodeContainer.Get, NodeContainer.GetN,
      List.filter_cons]
  · intro i _ x hx
    rw [eventLinks_net3Clients] at hx
    simp only [List.mem_cons, List.mem_singleton, List.not_mem_nil, or_false] at hx
    rcases hx with h | h | h | h | h <;> subst h <;>
      simp [NodeContainer.mem_nodes_iff, NodeContainer.Has, createCampusNodes,
        NodeContainer.Create, NodeContainer.Get]
  · intro i _ x hx
    rw [eventLinks_net2Clients] at hx
    simp only [List.mem_cons, List.mem_singleton, List.not_mem_nil, or_false] at hx
    rcases hx with h | h | h | h | h | h | h <;> subst h <;>
      simp [NodeContainer.mem_nodes_iff, NodeContainer.Has, createCampusNodes,
        NodeContainer.Create, NodeContainer.Get]

theorem tier3_client_link (cfg : Config) (z : Nat) (hz : z < cfg.nCampuses)
    (hrun : (buildTopology cfg).aborted = false) (j : Nat) (hj : j < 5 * cfg.nClientsPer) :
    ((buildTopology cfg).links z).filter (fun l =>
        decide (l.a = (createCampusNodes cfg.nClientsPer z).net3Clients.Get j ∨
          l.b = (createCampusNodes cfg.nClientsPer z).net3Clients.Get j)) =
      [⟨⟨.net3Switches, z, tier3SwitchOf cfg.nClientsPer j⟩, ⟨.net3Clients, z, j⟩,
        .csma_100mb1ms⟩] := by
  rw [buildTopology_links cfg z hz hrun]
  simp only [List.filter_append]
  have hhead : (eventLinks z (headEvents z (createCampusNodes cfg.nClientsPer z))).filter
      (fun l => decide (l.a = (createCampusNodes cfg.nClientsPer z).net3Clients.Get j ∨
          l.b = (createCampusNodes cfg.nClientsPer z).net3Clients.Get j)) = [] := by
    simp [eventLinks_head, createCampusNodes, NodeContainer.Create, NodeContainer.Get,
      List.filter_cons]
  have hmesh : (eventLinks z (net3MeshEvents z (createCampusNodes cfg.nClientsPer z))).filter
      (fun l => decide (l.a = (createCampusNodes cfg.nClientsPer z).net3Clients.Get j ∨
          l.b = (createCampusNodes cfg.nClientsPer z).net3Clients.Get j)) = [] := by
    simp [eventLinks_net3Mesh, createCampusNodes, NodeContainer.Create, NodeContainer.Get,
      List.filter_cons]
  have h2 := filter_flatMap_range_nil
    (fun l : Link => decide (l.a = (createCampusNodes cfg.nClientsPer z).net3Clients.Get j ∨
          l.b = (createCampusNodes cfg.nClientsPer z).net3Clients.Get j))
    (fun i => eventLinks z
        (net2ClientsEvents cfg.nClientsPer z (createCampusNodes cfg.nClientsPer z) i))
    cfg.nClientsPer (by
      intro i _ x hx
      dsimp only at hx ⊢
      rw [eventLinks_net2Clients] at hx
      simp only [List.mem_cons, List.mem_singleton, List.not_mem_nil, or_false] at hx
      rcases hx with h | h | h | h | h | h | h <;> subst h <;>
        simp [createCampusNodes, NodeContainer.Create, NodeContainer.Get])
  rw [hhead, hmesh, h2]
  simp only [List.nil_append, List.append_nil]
  simp only [eventLinks_net3Clients_grid]
  rw [filter_client_grid 5 cfg.nClientsPer _ _ j (by omega)]
  · rw [tier3GroupSwitch_div _ _ hj, Nat.mul_comm, Nat.mod_add_div]
  · intro i g _ _
    simp [createCampusNodes, NodeContainer.Create, NodeContainer.Get]

theorem tier3_client_links_only (cfg : Config) (z : Nat) (hz : z < cfg.nCampuses)
    (hrun : (buildTopology cfg).aborted = false) (l : Link)
    (hl : l ∈ (buildTopology cfg).links z)
    (hg : l.a.group = .net3Clients ∨ l.b.group = .net3Clients) :
    ∃ j, j < 5 * cfg.nClientsPer ∧
      l = ⟨⟨.net3Switches, z, tier3SwitchOf cfg.nClientsPer j⟩, ⟨.net3Clients, z, j⟩,
        .csma_100mb1ms⟩ := by
  rw [buildTopology_links cfg z hz hrun] at hl
  simp only [List.mem_append, List.mem_flatMap, List.mem_range] at hl
  rcases hl with ((hl | ⟨i, hi, hl⟩) | hl) | ⟨i, hi, hl⟩
  · exfalso
    rw [eventLinks_head] at hl
    simp only [List.mem_cons, List.mem_singleton, List.not_mem_nil, or_false] at hl
    rcases hl with h | h | h | h | h | h | h | h | h | h | h | h | h | h | h | h | h | h | h | h | h <;>
      subst h <;> simp [createCampusNodes, NodeContainer.Create, NodeContainer.Get] at hg
  · exfalso
    rw [eventLinks_net2Clients] at hl
    simp only [List.mem_cons, List.mem_singleton, List.not_mem_nil, or_false] at hl
    rcases hl with h | h | h | h | h | h | h <;>
      subst h <;> simp [createCampusNodes, NodeContainer.Create, NodeContainer.Get] at hg
  · exfalso
    rw [eventLinks_net3Mesh] at hl
    simp only [List.mem_cons, List.mem_singleton, List.not_mem_nil, or_false] at hl
    rcases hl with h | h | h | h | h | h <;>
      subst h <;> simp [createCampusNodes, NodeContainer.Create, NodeContainer.Get] at hg
  · rw [eventLinks_net3Clients_grid] at hl
    obtain ⟨g, hg5, rfl⟩ := List.mem_map.1 hl
    have hg5 : g < 5 := List.mem_range.1 hg5
    have hlt : i + g * cfg.nClientsPer < 5 * cfg.nClientsPer := by
      have : (g + 1) * cfg.nClientsPer ≤ 5 * cfg.nClientsPer :=
        Nat.mul_le_mul_right _ (by omega)
      rw [Nat.add_mul] at this
      omega
    refine ⟨i + g * cfg.nClientsPer, hlt, ?_⟩
    rw [← tier3GroupSwitch_div _ _ hlt]
    have : (i + g * cfg.nClientsPer) / cfg.nClientsPer = g := by
      rw [Nat.add_mul_div_right _ _ (by omega), Nat.div_eq_of_lt hi, Nat.zero_add]
    rw [this]

theorem step_ports_of_not_touches (p : PortSet) (ev : Event) (h : ¬ ev.touches p)
    (w : Wiring) : (w.step ev).ports p = w.ports p := by
  cases ev with
  | link z a b pa pb =>
    have h1 : p ≠ pa := fun e => h (Or.inl e.symm)
    have h2 : p ≠ pb := fun e => h (Or.inr e.symm)
    simp [Wiring.step, upd, h1, h2]
  | host z hh sw x p1 g =>
    have h1 : p ≠ p1 := fun e => h e.symm
    simp [Wiring.step, upd, h1]
  | inst z node p1 => rfl

theorem foldl_ports_of_not_touches (p : PortSet) (T : List Event)
    (h : ∀ ev ∈ T, ¬ ev.touches p) (w : Wiring) :
    (T.foldl Wiring.step w).ports p = w.ports p := by
  induction T generalizing w with
  | nil => rfl
  | cons ev T ih =>
    rw [List.foldl_cons, ih (fun e he => h e (List.mem_cons_of_mem _ he)),
      step_ports_of_not_touches p ev (h ev (List.mem_cons_self _ _))]

theorem step_ifs_of_not_assigns (g : IfSet) (ev : Event) (h : ¬ ev.assigns g)
    (w : Wiring) : (w.step ev).ifs g = w.ifs g := by
  cases ev with
  | link z a b pa pb => rfl
  | host z hh sw x p1 g1 =>
    have h1 : g ≠ g1 := fun e => h e.symm
    simp [Wiring.step, upd, h1]
  | inst z node p1 => rfl

theorem foldl_ifs_of_not_assigns (g : IfSet) (T : List Event)
    (h : ∀ ev ∈ T, ¬ ev.assigns g) (w : Wiring) :
    (T.foldl Wiring.step w).ifs g = w.ifs g := by
  induction T generalizing w with
  | nil => rfl
  | cons ev T ih =>
    rw [List.foldl_cons, ih (fun e he => h e (List.mem_cons_of_mem _ he)),
      step_ifs_of_not_assigns g ev (h ev (List.mem_cons_self _ _))]

theorem foldl_installed_of_not_inst (T : List Event) (h : ∀ ev ∈ T, ¬ ev.isInst)
    (w : Wiring) : (T.foldl Wiring.step w).installed = w.installed := by
  induction T generalizing w with
  | nil => rfl
  | cons ev T ih =>
    rw [List.foldl_cons, ih (fun e he => h e (List.mem_cons_of_mem _ he))]
    have h1 := h ev (List.mem_cons_self _ _)
    cases ev with
    | link z a b pa pb => rfl
    | host z hh sw x p1 g1 => rfl
    | inst z node p1 => exact absurd trivial h1

theorem foldl_inst (z : Nat) (L : List (Node × PortSet)) (w : Wiring) :
    ((L.map (fun x => Event.inst z x.1 x.2)).foldl Wiring.step w).ports = w.ports ∧
    ((L.map (fun x => Event.inst z x.1 x.2)).foldl Wiring.step w).links = w.links ∧
    ((L.map (fun x => Event.inst z x.1 x.2)).foldl Wiring.step w).ifs = w.ifs ∧
    ((L.map (fun x => Event.inst z x.1 x.2)).foldl Wiring.step w).installed z =
      w.installed z ++ L.map (fun x => (x.1, w.ports x.2)) := by
  induction L generalizing w with
  | nil => simp
  | cons x L ih =>
    rw [List.map_cons, List.foldl_cons]
    obtain ⟨h1, h2, h3, h4⟩ := ih (w.step (Event.inst z x.1 x.2))
    refine ⟨by rw [h1]; rfl, by rw [h2]; rfl, by rw [h3]; rfl, ?_⟩
    rw [h4]
    simp [Wiring.step, upd]

theorem installEvents_eq_attached (z : Nat) (c : CampusNodes) :
    installEvents z c = (attached z c).map (fun x => Event.inst z x.1 x.2) := by
  simp only [installEvents, attached, List.map_append, List.map_map, List.map_cons,
    List.map_nil]
  rfl

theorem wiringEvents_not_inst (n z : Nat) (c : CampusNodes) :
    ∀ ev ∈ wiringEvents n z c, ¬ ev.isInst := by
  unfold wiringEvents headEvents
  repeat apply forall_mem_append_of
  · apply forall_mem_map_range
    intro i _ h
    exact h
  · apply forall_mem_map_range
    intro i _ h
    exact h
  · intro ev h
    simp only [List.mem_cons, List.mem_singleton, List.not_mem_nil, or_false] at h
    rcases h with h | h | h | h | h | h | h | h | h | h | h | h | h | h <;> subst h <;>
      exact fun h => h
  · apply forall_mem_flatMap_range
    intro i _ ev h
    simp only [net2ClientsEvents, List.mem_cons, List.mem_singleton, List.not_mem_nil,
      or_false] at h
    rcases h with h | h | h | h | h | h | h <;> subst h <;> exact fun h => h
  · intro ev h
    simp only [net3MeshEvents, List.mem_cons, List.mem_singleton, List.not_mem_nil,
      or_false] at h
    rcases h with h | h | h | h | h | h <;> subst h <;> exact fun h => h
  · apply forall_mem_flatMap_range
    intro i _ ev h
    simp only [net3ClientsEvents, List.mem_cons, List.mem_singleton, List.not_mem_nil,
      or_false] at h
    rcases h with h | h | h | h | h <;> subst h <;> exact fun h => h

/-- The attachments of a campus iteration hand over the port containers as they are once
all its links have been created. -/
theorem campusWiring_installed (n z : Nat) :
    (campusWiring n z).installed z =
      (attached z (createCampusNodes n z)).map
        (fun x => (x.1, (campusWiring n z).ports x.2)) ∧
    (campusWiring n z).ports =
      (Wiring.run (wiringEvents n z (createCampusNodes n z))).ports ∧
    (campusWiring n z).links =
      (Wiring.run (wiringEvents n z (createCampusNodes n z))).links ∧
    (campusWiring n z).ifs =
      (Wiring.run (wiringEvents n z (createCampusNodes n z))).ifs := by
  have e : campusWiring n z = ((attached z (createCampusNodes n z)).map
      (fun x => Event.inst z x.1 x.2)).foldl Wiring.step
        (Wiring.run (wiringEvents n z (createCampusNodes n z))) := by
    unfold campusWiring Wiring.run campusEvents
    rw [List.foldl_append, installEvents_eq_attached]
  obtain ⟨h1, h2, h3, h4⟩ := foldl_inst z (attached z (createCampusNodes n z))
    (Wiring.run (wiringEvents n z (createCampusNodes n z)))
  have h5 : (Wiring.run (wiringEvents n z (createCampusNodes n z))).installed z = [] := by
    unfold Wiring.run
    rw [foldl_installed_of_not_inst _ (wiringEvents_not_inst n z _)]
    rfl
  rw [e]
  refine ⟨?_, h1, h2, h3⟩
  rw [h4, h5, h1, List.nil_append]

theorem devOnLink_lt {links : List Link} {d : Dev} (h : DevOnLink links d) :
    d.link < links.length := by
  obtain ⟨l, hl, -⟩ := h
  rcases Nat.lt_or_ge d.link links.length with h1 | h1
  · exact h1
  · rw [List.get?_eq_none.2 h1] at hl
    cases hl

theorem devOnLink_append {links : List Link} {d : Dev} (l : Link) (h : DevOnLink links d) :
    DevOnLink (links ++ [l]) d := by
  have hlt := devOnLink_lt h
  obtain ⟨l1, hl, hs⟩ := h
  refine ⟨l1, ?_, hs⟩
  rw [List.get?_eq_getElem?] at hl ⊢
  rw [List.getElem?_append_left hlt]
  exact hl

theorem portsOK_pushLink (links : Nat → List Link) (ports : PortSet → List Dev)
    (z : Nat) (l : Link) (h : PortsOK links ports) :
    PortsOK (upd links z (links z ++ [l])) ports := by
  obtain ⟨h1, h2, h3⟩ := h
  refine ⟨?_, h2, h3⟩
  intro p d hd
  refine ⟨(h1 p d hd).1, ?_⟩
  by_cases hz : p.z = z
  · rw [hz, upd_same]
    have := (h1 p d hd).2
    rw [hz] at this
    exact devOnLink_append l this
  · rw [upd_other _ _ _ _ hz]
    exact (h1 p d hd).2

theorem portsOK_pushPort (links : Nat → List Link) (ports : PortSet → List Dev)
    (p : PortSet) (d : Dev) (h : PortsOK links ports) (hz : d.z = p.z)
    (hd : DevOnLink (links p.z) d) (hlast : ∀ e ∈ ports p, e.link < d.link)
    (hfresh : ∀ q, d ∉ ports q) :
    PortsOK links (upd ports p (ports p ++ [d])) := by
  obtain ⟨h1, h2, h3⟩ := h
  have hmem : ∀ q e, e ∈ upd ports p (ports p ++ [d]) q → e ∈ ports q ∨ (q = p ∧ e = d) := by
    intro q e he
    by_cases hq : q = p
    · subst hq
      rw [upd_same] at he
      rcases List.mem_append.1 he with h | h
      · exact Or.inl h
      · exact Or.inr ⟨rfl, List.mem_singleton.1 h⟩
    · rw [upd_other _ _ _ _ hq] at he
      exact Or.inl he
  refine ⟨?_, ?_, ?_⟩
  · intro q e he
    rcases hmem q e he with h | ⟨hq, he1⟩
    · exact h1 q e h
    · rw [hq, he1]
      exact ⟨hz, hd⟩
  · intro q
    by_cases hq : q = p
    · subst hq
      rw [upd_same, List.pairwise_append]
      refine ⟨h2 q, List.pairwise_singleton _ _, ?_⟩
      intro a ha b hb
      rw [List.mem_singleton.1 hb]
      exact hlast a ha
    · rw [upd_other _ _ _ _ hq]
      exact h2 q
  · intro q r e hq hr
    rcases hmem q e hq with h | ⟨hq1, he1⟩ <;> rcases hmem r e hr with h' | ⟨hr1, he2⟩
    · exact h3 q r e h h'
    · rw [he2] at h
      exact absurd h (hfresh q)
    · rw [he1] at h'
      exact absurd h' (hfresh r)
    · rw [hq1, hr1]

theorem step_portsInv (ev : Event) (hw : ev.wf) (w : Wiring) (h : PortsInv w) :
    PortsInv (w.step ev) := by
  have hlt : ∀ q e, e ∈ w.ports q → e.link < (w.links q.z).length :=
    fun q e he => devOnLink_lt (h.1 q e he).2
  cases ev with
  | link z a b pa pb =>
    obtain ⟨hpa, hpb, hne⟩ := hw
    have hL := portsOK_pushLink w.links w.ports z ⟨a, b, .csma_1gb5ms⟩ h
    have hk : (upd w.links z (w.links z ++ [⟨a, b, .csma_1gb5ms⟩]) z).get?
        (w.links z).length = some ⟨a, b, .csma_1gb5ms⟩ := by
      rw [upd_same, List.get?_eq_getElem?]
      simp
    have hfresh : ∀ side node q, (⟨z, (w.links z).length, side, node⟩ : Dev) ∉ w.ports q := by
      intro side node q hq
      have e1 := (h.1 q _ hq).1
      have e2 := hlt q _ hq
      simp only at e1 e2
      rw [← e1] at e2
      exact Nat.lt_irrefl _ e2
    have h1 := portsOK_pushPort _ w.ports pa ⟨z, (w.links z).length, 0, a⟩ hL hpa.symm
      (by rw [hpa]; exact ⟨_, hk, Or.inl ⟨rfl, rfl⟩⟩)
      (by intro e he; have := hlt pa e he; rw [hpa] at this; exact this)
      (hfresh 0 a)
    have h2 := portsOK_pushPort _ _ pb ⟨z, (w.links z).length, 1, b⟩ h1 hpb.symm
      (by rw [hpb]; exact ⟨_, hk, Or.inr ⟨rfl, rfl⟩⟩)
      (by
        intro e he
        rw [upd_other _ _ _ _ (fun e => hne e.symm)] at he
        have := hlt pb e he; rw [hpb] at this; exact this)
      (by
        intro q hq
        by_cases hqa : q = pa
        · subst hqa
          rw [upd_same] at hq
          rcases List.mem_append.1 hq with h | h
          · exact hfresh 1 b q h
          · have := congrArg Dev.side (List.mem_singleton.1 h)
            simp at this
        · rw [upd_other _ _ _ _ hqa] at hq
          exact hfresh 1 b q hq)
    exact h2
  | host z hh sw x p g =>
    obtain ⟨hp, -⟩ := hw
    have hL := portsOK_pushLink w.links w.ports z ⟨sw, x, hh⟩ h
    have hk : (upd w.links z (w.links z ++ [⟨sw, x, hh⟩]) z).get?
        (w.links z).length = some ⟨sw, x, hh⟩ := by
      rw [upd_same, List.get?_eq_getElem?]
      simp
    have hfresh : ∀ q, (⟨z, (w.links z).length, 0, sw⟩ : Dev) ∉ w.ports q := by
      intro q hq
      have e1 := (h.1 q _ hq).1
      have e2 := hlt q _ hq
      simp only at e1 e2
      rw [← e1] at e2
      exact Nat.lt_irrefl _ e2
    exact portsOK_pushPort _ w.ports p ⟨z, (w.links z).length, 0, sw⟩ hL hp.symm
      (by rw [hp]; exact ⟨_, hk, Or.inl ⟨rfl, rfl⟩⟩)
      (by intro e he; have := hlt p e he; rw [hp] at this; exact this)
      hfresh
  | inst z node p => exact h

theorem run_portsInv (T : List Event) (hT : ∀ ev ∈ T, ev.wf) : PortsInv (Wiring.run T) := by
  unfold Wiring.run
  have : ∀ (T : List Event) (w : Wiring), (∀ ev ∈ T, ev.wf) → PortsInv w →
      PortsInv (T.foldl Wiring.step w) := by
    intro T
    induction T with
    | nil => intro w _ h; exact h
    | cons ev T ih =>
      intro w hT h
      exact ih _ (fun e he => hT e (List.mem_cons_of_mem _ he))
        (step_portsInv ev (hT ev (List.mem_cons_self _ _)) w h)
  refine this T _ hT ⟨?_, ?_, ?_⟩
  · intro p d hd; cases hd
  · intro p; exact List.Pairwise.nil
  · intro p q d hd; cases hd

theorem campusWiring_portsInv (n z : Nat) : PortsInv (campusWiring n z) :=
  run_portsInv _ (fun ev h => (campusEvents_wf n z _ ev h).1)

theorem head_ports_core1 (z : Nat) (c : CampusNodes) :
    ((headEvents z c).foldl Wiring.step Wiring.init).ports ⟨z, 0, 1⟩ =
      [⟨z, 0, 1, c.net0Switches.Get 1⟩, ⟨z, 1, 0, c.net0Switches.Get 1⟩,
       ⟨z, 9, 0, c.net0Switches.Get 1⟩, ⟨z, 10, 0, c.net0Switches.Get 1⟩] := by
  have r3 : List.range 3 = [0, 1, 2] := by decide
  simp [headEvents, r3, range4, Wiring.step, Wiring.init, upd]

theorem head_ifs_servers (z : Nat) (c : CampusNodes) :
    ((headEvents z c).foldl Wiring.step Wiring.init).ifs ⟨.net1Interfaces, z⟩ =
      [⟨z, 3, 1, c.net1Servers.Get 0⟩, ⟨z, 4, 1, c.net1Servers.Get 1⟩,
       ⟨z, 5, 1, c.net1Servers.Get 2⟩, ⟨z, 6, 1, c.net1Servers.Get 3⟩] := by
  have r3 : List.range 3 = [0, 1, 2] := by decide
  simp [headEvents, r3, range4, Wiring.step, Wiring.init, upd]

theorem tail_events_apart (n z : Nat) (c : CampusNodes) :
    ∀ ev ∈ (List.range n).flatMap (net2ClientsEvents n z c) ++ net3MeshEvents z c ++
        (List.range n).flatMap (net3ClientsEvents n z c),
      ¬ ev.touches ⟨z, 0, 1⟩ ∧ ¬ ev.assigns ⟨.net1Interfaces, z⟩ := by
  repeat apply forall_mem_append_of
  · apply forall_mem_flatMap_range
    intro i _ ev h
    simp only [net2ClientsEvents, List.mem_cons, List.mem_singleton, List.not_mem_nil,
      or_false] at h
    rcases h with h | h | h | h | h | h | h <;> subst h <;>
      simp [Event.touches, Event.assigns]
  · intro ev h
    simp only [net3MeshEvents, List.mem_cons, List.mem_singleton, List.not_mem_nil,
      or_false] at h
    rcases h with h | h | h | h | h | h <;> subst h <;>
      simp [Event.touches, Event.assigns]
  · apply forall_mem_flatMap_range
    intro i _ ev h
    simp only [net3ClientsEvents, List.mem_cons, List.mem_singleton, List.not_mem_nil,
      or_false] at h
    rcases h with h | h | h | h | h <;> subst h <;>
      simp [Event.touches, Event.assigns]

theorem wiringEvents_split (n z : Nat) (c : CampusNodes) :
    wiringEvents n z c = headEvents z c ++
      ((List.range n).flatMap (net2ClientsEvents n z c) ++ net3MeshEvents z c ++
        (List.range n).flatMap (net3ClientsEvents n z c)) := by
  simp only [wiringEvents, List.append_assoc]

/-- The port container of core switch 1 once a campus iteration is wired. -/
theorem campusWiring_ports_core1 (n z : Nat) :
    (campusWiring n z).ports ⟨z, 0, 1⟩ =
      [⟨z, 0, 1, ⟨.net0Switches, z, 1⟩⟩, ⟨z, 1, 0, ⟨.net0Switches, z, 1⟩⟩,
       ⟨z, 9, 0, ⟨.net0Switches, z, 1⟩⟩, ⟨z, 10, 0, ⟨.net0Switches, z, 1⟩⟩] := by
  rw [(campusWiring_installed n z).2.1]
  unfold Wiring.run
  rw [wiringEvents_split, List.foldl_append,
    foldl_ports_of_not_touches _ _ (fun ev h => (tail_events_apart n z _ ev h).1),
    head_ports_core1]
  rfl

/-- The devices of the server interface container once a campus iteration is wired. -/
theorem campusWiring_ifs_servers (n z : Nat) :
    (campusWiring n z).ifs ⟨.net1Interfaces, z⟩ =
      [⟨z, 3, 1, ⟨.net1Servers, z, 0⟩⟩, ⟨z, 4, 1, ⟨.net1Servers, z, 1⟩⟩,
       ⟨z, 5, 1, ⟨.net1Servers, z, 2⟩⟩, ⟨z, 6, 1, ⟨.net1Servers, z, 3⟩⟩] := by
  rw [(campusWiring_installed n z).2.2.2]
  unfold Wiring.run
  rw [wiringEvents_split, List.foldl_append,
    foldl_ifs_of_not_assigns _ _ (fun ev h => (tail_events_apart n z _ ev h).2),
    head_ifs_servers]
  rfl

theorem attached_portSets_nodup (z : Nat) (c : CampusNodes) :
    ((attached z c).map Prod.snd).Nodup := by
  have r3 : List.range 3 = [0, 1, 2] := by decide
  have r2 : List.range 2 = [0, 1] := by decide
  have r7 : List.range 7 = [0, 1, 2, 3, 4, 5, 6] := by decide
  simp [attached, r2, r3, r7, range4]

theorem attached_portSets_z (z : Nat) (c : CampusNodes) :
    ∀ x ∈ attached z c, x.2.z = z := by
  unfold attached
  repeat apply forall_mem_append_of
  · apply forall_mem_map_range; intro i _; rfl
  · apply forall_mem_map_range; intro i _; rfl
  · apply forall_mem_map_range; intro i _; rfl
  · apply forall_mem_map_range; intro i _; rfl
  · intro x hx
    simp only [List.mem_cons, List.mem_singleton, List.not_mem_nil, or_false] at hx
    rcases hx with h | h <;> subst h <;> rfl

theorem installed_entry (cfg : Config) (z : Nat) (hz : z < cfg.nCampuses)
    (hrun : (buildTopology cfg).aborted = false) (i : Nat) (x : Node × List Dev)
    (hx : ((buildTopology cfg).installed z).get? i = some x) :
    ∃ a, (attached z (createCampusNodes cfg.nClientsPer z)).get? i = some a ∧
      x = (a.1, (campusWiring cfg.nClientsPer z).ports a.2) ∧ a.2.z = z := by
  rw [(campus_view cfg z hz hrun).2.2.2, (campusWiring_installed _ z).1,
    List.get?_eq_getElem?, List.getElem?_map] at hx
  rw [List.get?_eq_getElem?]
  cases ha : (attached z (createCampusNodes cfg.nClientsPer z))[i]? with
  | none => rw [ha] at hx; cases hx
  | some a =>
    rw [ha] at hx
    refine ⟨a, rfl, ?_, attached_portSets_z z _ a (List.getElem?_mem ha)⟩
    simpa using hx.symm

theorem installed_closed_form (cfg : Config) (z : Nat) (hz : z < cfg.nCampuses)
    (hrun : (buildTopology cfg).aborted = false) :
    (buildTopology cfg).installed z =
      (attached z (createCampusNodes cfg.nClientsPer z)).map
        (fun x => (x.1, (buildTopology cfg).ports x.2)) := by
  rw [(campus_view cfg z hz hrun).2.2.2, (campusWiring_installed _ z).1]
  apply List.map_congr_left
  intro a ha
  rw [(campus_view cfg z hz hrun).2.1 a.2 (attached_portSets_z z _ a ha)]

theorem installed_core1 (cfg : Config) (z : Nat) (hz : z < cfg.nCampuses)
    (hrun : (buildTopology cfg).aborted = false) :
    ((buildTopology cfg).installed z).get? 1 = some (⟨.net0Switches, z, 1⟩,
      [⟨z, 0, 1, ⟨.net0Switches, z, 1⟩⟩, ⟨z, 1, 0, ⟨.net0Switches, z, 1⟩⟩,
       ⟨z, 9, 0, ⟨.net0Switches, z, 1⟩⟩, ⟨z, 10, 0, ⟨.net0Switches, z, 1⟩⟩]) := by
  have r3 : List.range 3 = [0, 1, 2] := by decide
  rw [(campus_view cfg z hz hrun).2.2.2, (campusWiring_installed _ z).1,
    List.get?_eq_getElem?, List.getElem?_map]
  have : (attached z (createCampusNodes cfg.nClientsPer z))[1]? =
      some (⟨.net0Switches, z, 1⟩, ⟨z, 0, 1⟩) := by
    simp [attached, r3, createCampusNodes, NodeContainer.Create, NodeContainer.Get]
  rw [this, Option.map_some', campusWiring_ports_core1]

theorem installed_disjoint (cfg : Config) (hrun : (buildTopology cfg).aborted = false)
    (z1 z2 i j : Nat) (x y : Node × List Dev) (h1 : z1 < cfg.nCampuses)
    (h2 : z2 < cfg.nCampuses)
    (hx : ((buildTopology cfg).installed z1).get? i = some x)
    (hy : ((buildTopology cfg).installed z2).get? j = some y)
    (hne : (z1, i) ≠ (z2, j)) : ∀ d ∈ x.2, d ∉ y.2 := by
  intro d hdx hdy
  obtain ⟨a, ha, rfl, haz⟩ := installed_entry cfg z1 h1 hrun i x hx
  obtain ⟨b, hb, rfl, hbz⟩ := installed_entry cfg z2 h2 hrun j y hy
  have e1 := ((campusWiring_portsInv cfg.nClientsPer z1).1 a.2 d hdx).1
  have e2 := ((campusWiring_portsInv cfg.nClientsPer z2).1 b.2 d hdy).1
  have hz : z1 = z2 := by rw [← haz, ← hbz, ← e1, ← e2]
  subst hz
  have hab : a.2 = b.2 := (campusWiring_portsInv cfg.nClientsPer z1).2.2 a.2 b.2 d hdx hdy
  have hlt : i < ((attached z1 (createCampusNodes cfg.nClientsPer z1)).map Prod.snd).length := by
    rw [List.length_map]
    rcases Nat.lt_or_ge i (attached z1 (createCampusNodes cfg.nClientsPer z1)).length with h | h
    · exact h
    · rw [List.get?_eq_none.2 h] at ha; cases ha
  have hij : i = j := by
    apply List.getElem?_inj hlt (attached_portSets_nodup z1 _)
    rw [List.get?_eq_getElem?] at ha hb
    rw [List.getElem?_map, List.getElem?_map, ha, hb, Option.map_some', Option.map_some', hab]
  exact hne (by rw [hij])

theorem scheduledFlows_targets (n numFlows : Nat) (c0 : Campus0) :
    (scheduledFlows n numFlows c0).map Prod.snd = flowTargets.take (16 * min numFlows 3) := by
  have r3 : List.range 3 = [0, 1, 2] := by decide
  by_cases h0 : 0 < numFlows <;> by_cases h1 : 1 < numFlows <;> by_cases h2 : 2 < numFlows
  · have hm : min numFlows 3 = 3 := by omega
    rw [hm]
    simp [scheduledFlows, wave1Flows, wave2Flows, wave3Flows, range4, r3, h0, h1, h2,
      flowTargets]
  · have hm : min numFlows 3 = 2 := by omega
    rw [hm]
    simp [scheduledFlows, wave1Flows, wave2Flows, wave3Flows, range4, r3, h0, h1, h2,
      flowTargets]
  · omega
  · have hm : min numFlows 3 = 1 := by omega
    rw [hm]
    simp [scheduledFlows, wave1Flows, wave2Flows, wave3Flows, range4, r3, h0, h1, h2,
      flowTargets]
  · omega
  · omega
  · omega
  · have hm : min numFlows 3 = 0 := by omega
    rw [hm]
    simp [scheduledFlows, wave1Flows, wave2Flows, wave3Flows, range4, r3, h0, h1, h2,
      flowTargets]

theorem flowTargets_get : ∀ w, w < 3 → ∀ i, i < 4 → ∀ d, d < 4 →
    flowTargets[16 * w + 4 * i + d]? = some (d, 45000 + 100 * w + i) := by
  decide

theorem flowTargets_nodup : flowTargets.Nodup := by
  decide

theorem flowTargets_ports (p : Nat) :
    p ∈ flowTargets.map Prod.snd ↔
      p ∈ [45000, 45001, 45002, 45003, 45100, 45101, 45102, 45103,
        45200, 45201, 45202, 45203] := by
  have : (flowTargets.map Prod.snd).dedup =
      [45000, 45001, 45002, 45003, 45100, 45101, 45102, 45103,
        45200, 45201, 45202, 45203] := by decide
  rw [← this, List.mem_dedup]

theorem targets_get (numFlows w i d : Nat) (hw : w < min numFlows 3) (hi : i < 4) (hd : d < 4) :
    (flowTargets.take (16 * min numFlows 3))[16 * w + 4 * i + d]? =
      some (d, 45000 + 100 * w + i) := by
  rw [List.getElem?_take_of_lt (by omega)]
  exact flowTargets_get w (by omega) i hi d hd

theorem getElem?_of_map {α β : Type} (f : α → β) (l : List α) (k : Nat) (y : β)
    (h : (l.map f)[k]? = some y) : ∃ a, l[k]? = some a ∧ f a = y := by
  rw [List.getElem?_map] at h
  cases ha : l[k]? with
  | none => rw [ha] at h; cases h
  | some a =>
    rw [ha] at h
    exact ⟨a, rfl, by simpa using h⟩

theorem server_ifaces (cfg : Config) (h1 : 1 ≤ cfg.nCampuses)
    (hrun : (buildTopology cfg).aborted = false) (d : Nat) (hd : d < 4) :
    ∃ x, ((buildTopology cfg).ifaces ⟨.net1Interfaces, 0⟩).get? d = some x ∧
      x.dev.node = ⟨.net1Servers, 0, d⟩ := by
  have h := (campus_view cfg 0 h1 hrun).2.2.1 ⟨.net1Interfaces, 0⟩ rfl
  rw [campusWiring_ifs_servers] at h
  have hk : (((buildTopology cfg).ifaces ⟨.net1Interfaces, 0⟩).map Iface.dev)[d]? =
      some ⟨0, d + 3, 1, ⟨.net1Servers, 0, d⟩⟩ := by
    rw [h]
    interval_cases d <;> rfl
  obtain ⟨x, hx, hxd⟩ := getElem?_of_map _ _ _ _ hk
  refine ⟨x, by rw [List.get?_eq_getElem?]; exact hx, ?_⟩
  rw [hxd]

theorem clientApps_targets (nrng : NormalRandomVariable) (n numFlows : Nat) (c0 : Campus0) :
    (createTrafficFlows nrng n numFlows c0).clientApps.map (fun a => (a.remote, a.port)) =
      (flowTargets.take (16 * min numFlows 3)).map
        (fun q => (GetAddress c0.net1Interfaces q.1, q.2)) := by
  have h := congrArg (List.map (fun y : Node × Option Nat × Nat => y.2))
    (clientApps_shape nrng n numFlows c0)
  rw [List.map_map, List.map_map] at h
  rw [← scheduledFlows_targets n numFlows c0, List.map_map]
  exact h

theorem sinkApps_targets (nrng : NormalRandomVariable) (n numFlows : Nat) (c0 : Campus0) :
    (createTrafficFlows nrng n numFlows c0).sinkApps =
      (flowTargets.take (16 * min numFlows 3)).map
        (fun q => (⟨c0.net1Servers.Get q.1, q.2⟩ : PacketSink)) := by
  rw [sinkApps_shape, ← scheduledFlows_targets n numFlows c0, List.map_map]
  rfl

/-- The port containers handed to attachment are ordered and disjoint: when setup
completes, every attachment of every campus hands over the port container as it is after
all links of the campus have been created; in each such container a port that precedes
another belongs to a link created earlier, every port is an end of the link whose creation
index it carries, no port occurs twice in a container or in two containers, and core
switch 1 is attached with the ports of ring link 0-1, ring link 1-2, the link to gateway 4
and the link to gateway 5, in this order. -/
theorem ports_in_link_order (cfg : Config) (hrun : (buildTopology cfg).aborted = false) :
    (∀ z, z < cfg.nCampuses →
      (buildTopology cfg).installed z =
        (attached z (createCampusNodes cfg.nClientsPer z)).map
          (fun x => (x.1, (buildTopology cfg).ports x.2)) ∧
      (∀ x ∈ (buildTopology cfg).installed z,
        x.2.Pairwise (fun d e => d.link < e.link) ∧ x.2.Nodup ∧
        ∀ d ∈ x.2, d.z = z ∧ DevOnLink ((buildTopology cfg).links z) d) ∧
      ((buildTopology cfg).installed z).get? 1 = some (⟨.net0Switches, z, 1⟩,
        [⟨z, 0, 1, ⟨.net0Switches, z, 1⟩⟩, ⟨z, 1, 0, ⟨.net0Switches, z, 1⟩⟩,
         ⟨z, 9, 0, ⟨.net0Switches, z, 1⟩⟩, ⟨z, 10, 0, ⟨.net0Switches, z, 1⟩⟩]) ∧
      ((buildTopology cfg).links z).get? 0 =
        some ⟨⟨.net0Switches, z, 0⟩, ⟨.net0Switches, z, 1⟩, .csma_1gb5ms⟩ ∧
      ((buildTopology cfg).links z).get? 1 =
        some ⟨⟨.net0Switches, z, 1⟩, ⟨.net0Switches, z, 2⟩, .csma_1gb5ms⟩ ∧
      ((buildTopology cfg).links z).get? 9 =
        some ⟨⟨.net0Switches, z, 1⟩, ⟨.net4Switch, z, 0⟩, .csma_1gb5ms⟩ ∧
      ((buildTopology cfg).links z).get? 10 =
        some ⟨⟨.net0Switches, z, 1⟩, ⟨.net5Switch, z, 0⟩, .csma_1gb5ms⟩) ∧
    (∀ z1 z2 i j x y, z1 < cfg.nCampuses → z2 < cfg.nCampuses →
      ((buildTopology cfg).installed z1).get? i = some x →
      ((buildTopology cfg).installed z2).get? j = some y →
      (z1, i) ≠ (z2, j) → ∀ d ∈ x.2, d ∉ y.2) := by
  refine ⟨fun z hz => ⟨installed_closed_form cfg z hz hrun, ?_, installed_core1 cfg z hz hrun,
    ?_⟩, fun z1 z2 i j x y h1 h2 hx hy hne =>
      installed_disjoint cfg hrun z1 z2 i j x y h1 h2 hx hy hne⟩
  · intro x hx
    obtain ⟨i, hi⟩ := List.get?_of_mem hx
    obtain ⟨a, -, rfl, haz⟩ := installed_entry cfg z hz hrun i x hi
    have hinv := campusWiring_portsInv cfg.nClientsPer z
    have hpw := hinv.2.1 a.2
    refine ⟨hpw, ?_, ?_⟩
    · exact hpw.imp (fun h e => by rw [e] at h; exact Nat.lt_irrefl _ h)
    · intro d hd
      have := hinv.1 a.2 d hd
      rw [haz] at this
      rw [(campus_view cfg z hz hrun).1]
      exact this
  · rw [buildTopology_links cfg z hz hrun, eventLinks_head]
    simp [createCampusNodes, NodeContainer.Create, NodeContainer.Get]

/-- Claim C1, evaluated on the code: for every `nCampuses` and `nClientsPer` the
node-creation loop gives every campus 19 switch nodes (3 + 2 + 7 + 5 + 1 + 1, the tier-3
container being filled by `Create (5)`) and `4 + 12 * nClientsPer` endpoint nodes. -/
theorem createNodes_counts (nCampuses nClientsPer : Nat) :
    (createNodes nCampuses nClientsPer).map
        (fun c => (c.switchNodes.length, c.endpointNodes.length)) =
      List.replicate nCampuses (19, 4 + 12 * nClientsPer) := by
  have h : ∀ i, ((createCampusNodes nClientsPer i).switchNodes.length,
      (createCampusNodes nClientsPer i).endpointNodes.length) = (19, 4 + 12 * nClientsPer) := by
    intro i
    have e : 4 + 7 * nClientsPer + 5 * nClientsPer = 4 + 12 * nClientsPer := by omega
    simp only [CampusNodes.switchNodes, CampusNodes.endpointNodes, createCampusNodes,
      NodeContainer.nodes, NodeContainer.Create, List.length_append, List.length_map,
      List.length_range, e]
  rw [createNodes, List.map_map]
  apply List.ext_getElem
  · simp
  · intro i h1 h2
    simp only [List.getElem_map, List.getElem_range, List.getElem_replicate, Function.comp]
    exact h i

/-- Claim C2, evaluated on the code for the default configuration: the link created under
"Connect the 2 switches together" (link 7 of campus 0) has its two devices on servers 0
and 1; these two devices are what is appended to the port containers of tier-1 switches 0
and 1; and no link of the campus joins tier-1 switch 0 and tier-1 switch 1. -/
theorem net1Cross_joins_servers :
    ((buildTopology Config.default).links 0).get? 7 =
      some ⟨⟨.net1Servers, 0, 0⟩, ⟨.net1Servers, 0, 1⟩, .csma_1gb5ms⟩ ∧
    (buildTopology Config.default).ports ⟨0, 1, 0⟩ =
      [⟨0, 3, 0, ⟨.net1Switches, 0, 0⟩⟩, ⟨0, 4, 0, ⟨.net1Switches, 0, 0⟩⟩,
       ⟨0, 7, 0, ⟨.net1Servers, 0, 0⟩⟩, ⟨0, 8, 1, ⟨.net1Switches, 0, 0⟩⟩] ∧
    (buildTopology Config.default).ports ⟨0, 1, 1⟩ =
      [⟨0, 5, 0, ⟨.net1Switches, 0, 1⟩⟩, ⟨0, 6, 0, ⟨.net1Switches, 0, 1⟩⟩,
       ⟨0, 7, 1, ⟨.net1Servers, 0, 1⟩⟩] ∧
    ((buildTopology Config.default).links 0).all (fun l =>
      !(decide (l.a = ⟨.net1Switches, 0, 0⟩ ∧ l.b = ⟨.net1Switches, 0, 1⟩) ||
        decide (l.a = ⟨.net1Switches, 0, 1⟩ ∧ l.b = ⟨.net1Switches, 0, 0⟩))) = true := by
  decide

/-- Claim C9, evaluated on the code for the default configuration: the tier-3 node of
index 4 is among the switch nodes created for campus 0, `InstallSwitch` is called for
exactly the eighteen other switch nodes and never for that node; the port lists passed
are the final contents of the eighteen port containers. -/
theorem fifth_net3_switch_not_installed :
    (⟨.net3Switches, 0, 4⟩ : Node) ∈ (createCampusNodes 8 0).switchNodes ∧
    ((buildTopology Config.default).installed 0).map Prod.fst =
      [⟨.net0Switches, 0, 0⟩, ⟨.net0Switches, 0, 1⟩, ⟨.net0Switches, 0, 2⟩,
       ⟨.net1Switches, 0, 0⟩, ⟨.net1Switches, 0, 1⟩,
       ⟨.net2Switches, 0, 0⟩, ⟨.net2Switches, 0, 1⟩, ⟨.net2Switches, 0, 2⟩,
       ⟨.net2Switches, 0, 3⟩, ⟨.net2Switches, 0, 4⟩, ⟨.net2Switches, 0, 5⟩,
       ⟨.net2Switches, 0, 6⟩,
       ⟨.net3Switches, 0, 0⟩, ⟨.net3Switches, 0, 1⟩, ⟨.net3Switches, 0, 2⟩,
       ⟨.net3Switches, 0, 3⟩, ⟨.net4Switch, 0, 0⟩, ⟨.net5Switch, 0, 0⟩] ∧
    (⟨.net3Switches, 0, 4⟩ : Node) ∉
      ((buildTopology Config.default).installed 0).map Prod.fst ∧
    ((buildTopology Config.default).installed 0).map Prod.snd =
      [(0, 0), (0, 1), (0, 2), (1, 0), (1, 1), (2, 0), (2, 1), (2, 2), (2, 3), (2, 4),
       (2, 5), (2, 6), (3, 0), (3, 1), (3, 2), (3, 3), (4, 0), (5, 0)].map
        (fun k => (buildTopology Config.default).ports ⟨0, k.1, k.2⟩) := by
  decide

/-- Claim C4, evaluated on the code for `app = 9` without a real controller: the name
lookup finds no entry, the error is logged, and still the controller application is
installed (with no module argument) and the simulator is run; every selector `0 .. 8`
selects a module. -/
theorem invalid_app_still_runs :
    cfgBadApp.realController = false ∧ (8 < cfgBadApp.app) ∧
    (main cfgBadApp nrngCount).banner = none ∧
    (main cfgBadApp nrngCount).sim.logError = ["Invalid controller application"] ∧
    (main cfgBadApp nrngCount).sim.apps =
      [⟨⟨.of13ControllerNodes, 0, 0⟩, "python2-dce", ["ryu-manager"]⟩] ∧
    (main cfgBadApp nrngCount).simulatorRun = true ∧
    (List.range 9).all (fun a => (appModule a).isSome) = true := by
  decide

/-- Claim C3 (amended): in a run whose setup completes, the helper of every campus has
channel type `DEDICATEDCSMA` when `realController` is true and `DEDICATEDP2P` when it is
false. -/
theorem channelType_of_campus (cfg : Config) (z : Nat) (hz : z < cfg.nCampuses)
    (hrun : (buildTopology cfg).aborted = false) :
    ((buildTopology cfg).of13Helpers.get? z).map OFSwitch13Helper.channelType =
      some (if cfg.realController then ChannelType.DEDICATEDCSMA
        else ChannelType.DEDICATEDP2P) := by
  have hlen : (buildTopology cfg).of13Helpers.length = cfg.nCampuses := by
    rcases buildTopology_helperCount cfg with h | h
    · rw [hrun] at h; cases h
    · exact h
  have hlt : z < (buildTopology cfg).of13Helpers.length := by rw [hlen]; exact hz
  rw [List.get?_eq_get hlt]
  have := buildTopology_channelType cfg _ (List.get_mem _ z hlt)
  simp only [Option.map_some', this, channelTypeFor]

/-- Witness for claim C3 (amended): the default configuration with a real controller. -/
theorem channelType_of_campus_witness :
    (0 < cfgReal.nCampuses ∧ (buildTopology cfgReal).aborted = false) ∧
    ((buildTopology cfgReal).of13Helpers.get? 0).map OFSwitch13Helper.channelType =
      some ChannelType.DEDICATEDCSMA :=
  ⟨by decide, channelType_of_campus cfgReal 0 (by decide) (by decide)⟩

/-- Claim C3 as stated fails: with a real controller the channel of campus 0 is not the
point-to-point one, and with the embedded controller it is not the shared-medium one. -/
theorem channelType_claim_fails :
    (cfgReal.realController = true ∧ 0 < cfgReal.nCampuses ∧
      (buildTopology cfgReal).aborted = false ∧
      ((buildTopology cfgReal).of13Helpers.get? 0).map OFSwitch13Helper.channelType ≠
        some ChannelType.DEDICATEDP2P) ∧
    (Config.default.realController = false ∧ 0 < Config.default.nCampuses ∧
      (buildTopology Config.default).aborted = false ∧
      ((buildTopology Config.default).of13Helpers.get? 0).map OFSwitch13Helper.channelType ≠
        some ChannelType.DEDICATEDCSMA) := by
  decide

/-- Claim C5 (amended): with `numFlows = 1`, sixteen start times are drawn and the run is
stopped 60 seconds after the last drawn one (the sixteenth draw), whatever the draws. -/
theorem stop_last_wave1_draw_plus_60 (nrng : NormalRandomVariable) (n : Nat) (c0 : Campus0) :
    (createTrafficFlows nrng n 1 c0).cout.length = 16 ∧
    (createTrafficFlows nrng n 1 c0).cout.getLast? = some (nrng 15 52.0771 12.1562) ∧
    (createTrafficFlows nrng n 1 c0).stop = some (nrng 15 52.0771 12.1562 + 60) := by
  simp [createTrafficFlows, wave1, wave2, wave3, probes, wave1Body, flow, Traffic.setStart,
    Traffic.init, range4]

/-- Claim C5 as stated fails: when the first draw is 100 and the other fifteen are 0,
the maximum of the sixteen draws is 100 but the run is not stopped at `100 + 60`. -/
theorem stop_not_max_plus_60 :
    (createTrafficFlows wave1Skewed 8 1 campus0Default).cout.length = 16 ∧
    maxStart (createTrafficFlows wave1Skewed 8 1 campus0Default).cout = some 100 ∧
    (createTrafficFlows wave1Skewed 8 1 campus0Default).stop ≠ some (100 + 60) := by
  simp [createTrafficFlows, wave1, wave2, wave3, probes, wave1Body, flow, Traffic.setStart,
    Traffic.init, range4, wave1Skewed, maxStart]

/-- Claim C6, evaluated on the code for `numFlows = 3` with the `k`-th draw equal to `k`:
the last wave-2 draw is 31 and the last wave-3 draw is 47; the probes start at `31 + 20`,
`31 + 22`, `31 + 30` and the run stops at `31 + 60`. -/
theorem wave3_baseline_is_wave2 :
    (createTrafficFlows nrngCount 8 3 campus0Default).cout.get? 31 = some 31 ∧
    (createTrafficFlows nrngCount 8 3 campus0Default).cout.getLast? = some 47 ∧
    (createTrafficFlows nrngCount 8 3 campus0Default).pings.map V4Ping.start =
      [31 + 20, 31 + 22, 31 + 30] ∧
    (createTrafficFlows nrngCount 8 3 campus0Default).stop = some (31 + 60) := by
  simp [createTrafficFlows, wave1, wave2, wave3, probes, wave1Body, wave2Body, wave3Body, flow,
    Traffic.setStart, Traffic.init, range4, nrngCount]

/-- Claim C7, evaluated on the code: for 50000000 bytes sent and none received the
printed percentage is 14, the exact quotient is 100. -/
theorem lossPercent_wraps :
    50000000 < 2 ^ 32 ∧ lossPercent 50000000 0 = 14 ∧ exactLossPercent 50000000 0 = 100 := by
  decide

/-- Claim C8: for 32-bit totals with `received ≤ sent` the printed loss percentage is at
most 100 (and, being a natural number, at least 0), and it is 0 when nothing was sent. -/
theorem lossPercent_le_100 (sent received : Nat) (hs : sent < 2 ^ 32)
    (h : received ≤ sent) :
    lossPercent sent received ≤ 100 ∧ lossPercent 0 received = 0 := by
  refine ⟨?_, by simp [lossPercent]⟩
  unfold lossPercent
  split
  · exact Nat.zero_le _
  · apply Nat.div_le_of_le_mul
    have h1 : u32 (sent + 2 ^ 32 - received) = sent - received := by
      unfold u32
      norm_num at hs ⊢
      omega
    rw [h1]
    have h2 : u32 (100 * (sent - received)) ≤ 100 * (sent - received) := Nat.mod_le _ _
    have h3 : 100 * (sent - received) ≤ sent * 100 := by omega
    exact le_trans h2 h3

/-- Witness for claim C8: 1000 bytes sent, 250 received. -/
theorem lossPercent_le_100_witness :
    (1000 < 2 ^ 32 ∧ 250 ≤ 1000) ∧
    (lossPercent 1000 250 ≤ 100 ∧ lossPercent 0 250 = 0) :=
  ⟨by decide, lossPercent_le_100 1000 250 (by decide) (by decide)⟩

/-- Claim C10: whatever the configuration, two different entries of the interface
containers (different container, or different position in the same container) never
carry the same address. -/
theorem addresses_pairwise_distinct (cfg : Config) (g1 g2 : IfSet) (i1 i2 : Nat)
    (x y : Iface)
    (hx : ((buildTopology cfg).ifaces g1).get? i1 = some x)
    (hy : ((buildTopology cfg).ifaces g2).get? i2 = some y)
    (hne : (g1, i1) ≠ (g2, i2)) : x.addr ≠ y.addr := by
  obtain ⟨-, h2, h3⟩ := buildTopology_addrInv cfg
  by_cases hg : g1 = g2
  · subst hg
    have hi : i1 ≠ i2 := fun e => hne (by rw [e])
    intro hxy
    have hlt1 : i1 < ((buildTopology cfg).ifaces g1).length := by
      rcases Nat.lt_or_ge i1 ((buildTopology cfg).ifaces g1).length with h | h
      · exact h
      · rw [List.get?_eq_none.2 h] at hx; cases hx
    have e1 : (((buildTopology cfg).ifaces g1).map Iface.addr)[i1]? = some x.addr := by
      rw [List.getElem?_map, ← List.get?_eq_getElem?, hx]; rfl
    have e2 : (((buildTopology cfg).ifaces g1).map Iface.addr)[i2]? = some y.addr := by
      rw [List.getElem?_map, ← List.get?_eq_getElem?, hy]; rfl
    have hlt : i1 < (((buildTopology cfg).ifaces g1).map Iface.addr).length := by
      rw [List.length_map]; exact hlt1
    exact hi (List.getElem?_inj hlt (h2 g1) (by rw [e1, e2, hxy]))
  · exact h3 g1 g2 hg x (List.get?_mem hx) y (List.get?_mem hy)

/-- Witness for claim C10: the first server interface and the last tier-3 client interface
of the default configuration. -/
theorem addresses_pairwise_distinct_witness :
    (((buildTopology Config.default).ifaces ⟨.net1Interfaces, 0⟩).get? 0 =
        some ⟨⟨0, 3, 1, ⟨.net1Servers, 0, 0⟩⟩, 3232235521⟩ ∧
      ((buildTopology Config.default).ifaces ⟨.net33bInterfaces, 0⟩).get? 7 =
        some ⟨⟨0, 122, 1, ⟨.net3Clients, 0, 39⟩⟩, 3232235620⟩ ∧
      ((⟨.net1Interfaces, 0⟩ : IfSet), 0) ≠ (⟨.net33bInterfaces, 0⟩, 7)) ∧
    (3232235521 : Nat) ≠ 3232235620 :=
  ⟨by decide, addresses_pairwise_distinct Config.default ⟨.net1Interfaces, 0⟩ ⟨.net33bInterfaces, 0⟩ 0 7
      ⟨⟨0, 3, 1, ⟨.net1Servers, 0, 0⟩⟩, 3232235521⟩
      ⟨⟨0, 122, 1, ⟨.net3Clients, 0, 39⟩⟩, 3232235620⟩ (by decide) (by decide) (by decide)⟩

/-- Claim C18, evaluated on the code for the default configuration: following the links
of campus 0, server 2 and tier-1 switch 1 cannot be reached from core switch 0, and
server 3 cannot be reached from tier-2 client 0. -/
theorem servers_unreachable :
    ¬ Reachable ((buildTopology Config.default).links 0)
        ⟨.net0Switches, 0, 0⟩ ⟨.net1Servers, 0, 2⟩ ∧
    ¬ Reachable ((buildTopology Config.default).links 0)
        ⟨.net0Switches, 0, 0⟩ ⟨.net1Switches, 0, 1⟩ ∧
    ¬ Reachable ((buildTopology Config.default).links 0)
        ⟨.net2Clients, 0, 0⟩ ⟨.net1Servers, 0, 3⟩ := by
  refine ⟨fun h => ?_, fun h => ?_, fun h => ?_⟩ <;>
    · have := reachable_closed _ (fun x => decide (x ∈ net1Island)) island_closed _ _ h
      revert this
      decide

/-- Claim C19, evaluated on the code for two campuses without a real controller: two
controller applications are launched, on controller nodes 0 and 1, and only the one on
controller node 0 receives `StopExternally`. -/
theorem only_first_controller_stopped :
    cfgTwoCampuses.realController = false ∧
    (main cfgTwoCampuses nrngCount).simulatorRun = true ∧
    (main cfgTwoCampuses nrngCount).sim.apps.map DceApp.node =
      [⟨.of13ControllerNodes, 0, 0⟩, ⟨.of13ControllerNodes, 0, 1⟩] ∧
    (main cfgTwoCampuses nrngCount).stopped.map DceApp.node =
      [⟨.of13ControllerNodes, 0, 0⟩] := by
  decide!

/-- Claim C13: when at least one campus exists and setup completes, the scheduler creates
`16 * min numFlows 3` flows and as many sinks; every flow is installed on a handle of the
campus-0 client pools and every sink on a server of campus 0; for `nClientsPer ≥ 4` every
flow's client is a created node of campus 0. -/
theorem flows_and_sinks_on_campus0 (cfg : Config) (nrng : NormalRandomVariable)
    (h1 : 1 ≤ cfg.nCampuses) (hrun : (buildTopology cfg).aborted = false) :
    ∃ t, (main cfg nrng).traffic = some t ∧
      t.clientApps.length = 16 * min cfg.numFlows 3 ∧
      t.sinkApps.length = 16 * min cfg.numFlows 3 ∧
      (∀ a ∈ t.clientApps, a.node.slot = 0 ∧
        (a.node.group = .net2Clients ∨ a.node.group = .net3Clients)) ∧
      (∀ k ∈ t.sinkApps, k.node ∈ (createCampusNodes cfg.nClientsPer 0).net1Servers.nodes) ∧
      (4 ≤ cfg.nClientsPer → ∀ a ∈ t.clientApps,
        a.node ∈ (createCampusNodes cfg.nClientsPer 0).net2Clients.nodes ∨
        a.node ∈ (createCampusNodes cfg.nClientsPer 0).net3Clients.nodes) := by
  refine ⟨_, main_traffic cfg nrng h1 hrun, ?_, ?_, ?_, ?_, ?_⟩
  · have := congrArg List.length (clientApps_nodes nrng cfg.nClientsPer cfg.numFlows (campus0 cfg))
    rw [List.length_map, List.length_map, scheduledFlows_length] at this
    exact this
  · rw [sinkApps_shape, List.length_map, scheduledFlows_length]
  · intro a ha
    have hm : a.node ∈ (scheduledFlows cfg.nClientsPer cfg.numFlows (campus0 cfg)).map Prod.fst := by
      rw [← clientApps_nodes nrng]
      exact List.mem_map_of_mem _ ha
    obtain ⟨f, hf, hfa⟩ := List.mem_map.1 hm
    rw [← hfa]
    rw [mem_scheduledFlows, mem_wave1Flows, mem_wave2Flows, mem_wave3Flows] at hf
    rcases hf with ⟨-, i, hi, h | h | h | h⟩ | ⟨-, i, hi, h | h | h | h⟩ |
        ⟨-, i, hi, h | h | h | h⟩ <;> subst h <;>
      simp [campus0, createCampusNodes, NodeContainer.Create, NodeContainer.Get]
  · intro k hk
    rw [sinkApps_shape] at hk
    obtain ⟨f, hf, hfk⟩ := List.mem_map.1 hk
    rw [← hfk, NodeContainer.mem_nodes_iff]
    rw [mem_scheduledFlows, mem_wave1Flows, mem_wave2Flows, mem_wave3Flows] at hf
    rcases hf with ⟨-, i, hi, h | h | h | h⟩ | ⟨-, i, hi, h | h | h | h⟩ |
        ⟨-, i, hi, h | h | h | h⟩ <;> subst h <;>
      simp [campus0, createCampusNodes, NodeContainer.Create, NodeContainer.Get,
        NodeContainer.Has, NodeContainer.GetN]
  · intro hn a ha
    have hm : a.node ∈ (scheduledFlows cfg.nClientsPer cfg.numFlows (campus0 cfg)).map Prod.fst := by
      rw [← clientApps_nodes nrng]
      exact List.mem_map_of_mem _ ha
    obtain ⟨f, hf, hfa⟩ := List.mem_map.1 hm
    rw [← hfa, NodeContainer.mem_nodes_iff, NodeContainer.mem_nodes_iff]
    exact scheduledFlows_has cfg.nClientsPer (campus0 cfg) hn rfl rfl cfg.numFlows f hf

/-- Witness for claim C13: the default configuration with three waves. -/
theorem flows_and_sinks_on_campus0_witness :
    (1 ≤ cfgThreeWaves.nCampuses ∧ (buildTopology cfgThreeWaves).aborted = false) ∧
    ∃ t, (main cfgThreeWaves nrngCount).traffic = some t ∧
      t.clientApps.length = 16 * min cfgThreeWaves.numFlows 3 ∧
      t.sinkApps.length = 16 * min cfgThreeWaves.numFlows 3 ∧
      (∀ a ∈ t.clientApps, a.node.slot = 0 ∧
        (a.node.group = .net2Clients ∨ a.node.group = .net3Clients)) ∧
      (∀ k ∈ t.sinkApps,
        k.node ∈ (createCampusNodes cfgThreeWaves.nClientsPer 0).net1Servers.nodes) ∧
      (4 ≤ cfgThreeWaves.nClientsPer → ∀ a ∈ t.clientApps,
        a.node ∈ (createCampusNodes cfgThreeWaves.nClientsPer 0).net2Clients.nodes ∨
        a.node ∈ (createCampusNodes cfgThreeWaves.nClientsPer 0).net3Clients.nodes) :=
  ⟨by decide, flows_and_sinks_on_campus0 cfgThreeWaves nrngCount (by decide) (by decide)⟩

/-- Claim C15: with `numFlows = 3` and `nClientsPer ≥ 4` the 48 flows are installed on 48
pairwise distinct client nodes. -/
theorem wave_sources_distinct (cfg : Config) (nrng : NormalRandomVariable)
    (h1 : 1 ≤ cfg.nCampuses) (hrun : (buildTopology cfg).aborted = false)
    (h3 : cfg.numFlows = 3) (hn : 4 ≤ cfg.nClientsPer) :
    ∃ t, (main cfg nrng).traffic = some t ∧ t.clientApps.length = 48 ∧
      (t.clientApps.map OnOffApp.node).Nodup := by
  refine ⟨_, main_traffic cfg nrng h1 hrun, ?_, ?_⟩
  · have := congrArg List.length (clientApps_nodes nrng cfg.nClientsPer cfg.numFlows (campus0 cfg))
    rw [List.length_map, List.length_map, scheduledFlows_length] at this
    rw [this, h3]
    decide
  · rw [clientApps_nodes, h3]
    exact sources_nodup cfg hn

/-- Witness for claim C15: the default configuration (`nClientsPer = 8`) with three waves. -/
theorem wave_sources_distinct_witness :
    (1 ≤ cfgThreeWaves.nCampuses ∧ (buildTopology cfgThreeWaves).aborted = false ∧
      cfgThreeWaves.numFlows = 3 ∧ 4 ≤ cfgThreeWaves.nClientsPer) ∧
    ∃ t, (main cfgThreeWaves nrngCount).traffic = some t ∧ t.clientApps.length = 48 ∧
      (t.clientApps.map OnOffApp.node).Nodup :=
  ⟨by decide, wave_sources_distinct cfgThreeWaves nrngCount (by decide) (by decide)
    (by decide) (by decide)⟩

/-- Claim C17: with `numFlows ≥ 3` the scheduler runs unchecked, and every node handle it
and the probes look up names a created node of campus 0 exactly when `nClientsPer ≥ 4`. -/
theorem lookups_in_range_iff (cfg : Config) (nrng : NormalRandomVariable)
    (h1 : 1 ≤ cfg.nCampuses) (hrun : (buildTopology cfg).aborted = false)
    (h3 : 3 ≤ cfg.numFlows) :
    ∃ t, (main cfg nrng).traffic = some t ∧ (main cfg nrng).simulatorRun = true ∧
      ((∀ x ∈ t.clientApps.map OnOffApp.node ++ t.pings.map V4Ping.node,
          x ∈ (createCampusNodes cfg.nClientsPer 0).net1Servers.nodes ∨
          x ∈ (createCampusNodes cfg.nClientsPer 0).net2Clients.nodes ∨
          x ∈ (createCampusNodes cfg.nClientsPer 0).net3Clients.nodes) ↔
        4 ≤ cfg.nClientsPer) := by
  refine ⟨_, main_traffic cfg nrng h1 hrun, main_simulatorRun cfg nrng h1 hrun, ?_⟩
  rw [clientApps_nodes, pings_nodes]
  simp only [NodeContainer.mem_nodes_iff]
  constructor
  · intro h
    have hmem : (createCampusNodes cfg.nClientsPer 0).net2Clients.Get (3 + 6 * cfg.nClientsPer) ∈
        (scheduledFlows cfg.nClientsPer cfg.numFlows (campus0 cfg)).map Prod.fst ++
          [(campus0 cfg).net1Servers.Get 0, (campus0 cfg).net2Clients.Get (6 * cfg.nClientsPer),
           (campus0 cfg).net3Clients.Get (4 * cfg.nClientsPer)] := by
      apply List.mem_append_left
      apply List.mem_map.2
      refine ⟨(_, 3, 45000 + 200 + 3), ?_, rfl⟩
      rw [mem_scheduledFlows, mem_wave3Flows]
      exact Or.inr (Or.inr ⟨by omega, 3, by omega, Or.inr (Or.inr (Or.inr rfl))⟩)
    rcases h _ hmem with hh | hh | hh
    · exact absurd hh.1 (by simp [createCampusNodes, NodeContainer.Create, NodeContainer.Get])
    · have := hh.2.2
      simp only [createCampusNodes, NodeContainer.Create, NodeContainer.Get,
        NodeContainer.GetN] at this
      omega
    · exact absurd hh.1 (by simp [createCampusNodes, NodeContainer.Create, NodeContainer.Get])
  · intro hn x hx
    rcases List.mem_append.1 hx with hx | hx
    · obtain ⟨f, hf, rfl⟩ := List.mem_map.1 hx
      exact Or.inr (scheduledFlows_has cfg.nClientsPer (campus0 cfg) hn rfl rfl cfg.numFlows f hf)
    · simp only [List.mem_cons, List.mem_singleton, List.not_mem_nil, or_false] at hx
      rcases hx with rfl | rfl | rfl
      · exact Or.inl ⟨rfl, rfl, by
          simp [campus0, createCampusNodes, NodeContainer.Create, NodeContainer.Get,
            NodeContainer.GetN]⟩
      · exact Or.inr (Or.inl ⟨rfl, rfl, by
          simp only [campus0, createCampusNodes, NodeContainer.Create, NodeContainer.Get,
            NodeContainer.GetN]
          omega⟩)
      · exact Or.inr (Or.inr ⟨rfl, rfl, by
          simp only [campus0, createCampusNodes, NodeContainer.Create, NodeContainer.Get,
            NodeContainer.GetN]
          omega⟩)

/-- Witness for claim C17: the default configuration (`nClientsPer = 8`) with three waves. -/
theorem lookups_in_range_iff_witness :
    (1 ≤ cfgThreeWaves.nCampuses ∧ (buildTopology cfgThreeWaves).aborted = false ∧
      3 ≤ cfgThreeWaves.numFlows) ∧
    ∃ t, (main cfgThreeWaves nrngCount).traffic = some t ∧
      (main cfgThreeWaves nrngCount).simulatorRun = true ∧
      ((∀ x ∈ t.clientApps.map OnOffApp.node ++ t.pings.map V4Ping.node,
          x ∈ (createCampusNodes cfgThreeWaves.nClientsPer 0).net1Servers.nodes ∨
          x ∈ (createCampusNodes cfgThreeWaves.nClientsPer 0).net2Clients.nodes ∨
          x ∈ (createCampusNodes cfgThreeWaves.nClientsPer 0).net3Clients.nodes) ↔
        4 ≤ cfgThreeWaves.nClientsPer) :=
  ⟨by decide, lookups_in_range_iff cfgThreeWaves nrngCount (by decide) (by decide)
    (by decide)⟩

/-- Claim C11: when setup completes, the links of a campus with both ends among its tier-2
switches are exactly 0-1, 0-2, 1-3, 2-3, 2-4, 3-5, 5-6; every tier-2 client of pool index
`j < 7 * nClientsPer` is an end of exactly one link, which joins it to switch 2, 3, 4, 5 for
`j` in `[0,n)`, `[n,2n)`, `[2n,3n)`, `[3n,4n)` and to switch 6 for `j` in `[4n,7n)`; and no
other link of the campus touches a tier-2 client, so switches 0 and 1 get none. -/
theorem tier2_wiring (cfg : Config) (z : Nat) (hz : z < cfg.nCampuses)
    (hrun : (buildTopology cfg).aborted = false) :
    ((buildTopology cfg).links z).filter (fun l =>
        decide (l.a ∈ (createCampusNodes cfg.nClientsPer z).net2Switches.nodes) &&
        decide (l.b ∈ (createCampusNodes cfg.nClientsPer z).net2Switches.nodes)) =
      [⟨⟨.net2Switches, z, 0⟩, ⟨.net2Switches, z, 1⟩, .csma_1gb5ms⟩,
       ⟨⟨.net2Switches, z, 0⟩, ⟨.net2Switches, z, 2⟩, .csma_1gb5ms⟩,
       ⟨⟨.net2Switches, z, 1⟩, ⟨.net2Switches, z, 3⟩, .csma_1gb5ms⟩,
       ⟨⟨.net2Switches, z, 2⟩, ⟨.net2Switches, z, 3⟩, .csma_1gb5ms⟩,
       ⟨⟨.net2Switches, z, 2⟩, ⟨.net2Switches, z, 4⟩, .csma_1gb5ms⟩,
       ⟨⟨.net2Switches, z, 3⟩, ⟨.net2Switches, z, 5⟩, .csma_1gb5ms⟩,
       ⟨⟨.net2Switches, z, 5⟩, ⟨.net2Switches, z, 6⟩, .csma_1gb5ms⟩] ∧
    (createCampusNodes cfg.nClientsPer z).net2Clients.GetN = 7 * cfg.nClientsPer ∧
    (∀ j, j < 7 * cfg.nClientsPer →
      ((buildTopology cfg).links z).filter (fun l =>
          decide (l.a = (createCampusNodes cfg.nClientsPer z).net2Clients.Get j ∨
            l.b = (createCampusNodes cfg.nClientsPer z).net2Clients.Get j)) =
        [⟨⟨.net2Switches, z, tier2SwitchOf cfg.nClientsPer j⟩, ⟨.net2Clients, z, j⟩,
          .csma_100mb1ms⟩]) ∧
    (∀ l ∈ (buildTopology cfg).links z,
      l.a.group = .net2Clients ∨ l.b.group = .net2Clients →
      ∃ j, j < 7 * cfg.nClientsPer ∧
        l = ⟨⟨.net2Switches, z, tier2SwitchOf cfg.nClientsPer j⟩, ⟨.net2Clients, z, j⟩,
          .csma_100mb1ms⟩) :=
  ⟨tier2_internal_links cfg z hz hrun, rfl,
    fun j hj => tier2_client_link cfg z hz hrun j hj,
    fun l hl hg => tier2_client_links_only cfg z hz hrun l hl hg⟩

/-- Witness for claim C11: campus 0 of the default configuration (`nClientsPer = 8`). -/
theorem tier2_wiring_witness :
    (0 < Config.default.nCampuses ∧ (buildTopology Config.default).aborted = false) ∧
    (((buildTopology Config.default).links 0).filter (fun l =>
        decide (l.a ∈ (createCampusNodes Config.default.nClientsPer 0).net2Switches.nodes) &&
        decide (l.b ∈ (createCampusNodes Config.default.nClientsPer 0).net2Switches.nodes)) =
      [⟨⟨.net2Switches, 0, 0⟩, ⟨.net2Switches, 0, 1⟩, .csma_1gb5ms⟩,
       ⟨⟨.net2Switches, 0, 0⟩, ⟨.net2Switches, 0, 2⟩, .csma_1gb5ms⟩,
       ⟨⟨.net2Switches, 0, 1⟩, ⟨.net2Switches, 0, 3⟩, .csma_1gb5ms⟩,
       ⟨⟨.net2Switches, 0, 2⟩, ⟨.net2Switches, 0, 3⟩, .csma_1gb5ms⟩,
       ⟨⟨.net2Switches, 0, 2⟩, ⟨.net2Switches, 0, 4⟩, .csma_1gb5ms⟩,
       ⟨⟨.net2Switches, 0, 3⟩, ⟨.net2Switches, 0, 5⟩, .csma_1gb5ms⟩,
       ⟨⟨.net2Switches, 0, 5⟩, ⟨.net2Switches, 0, 6⟩, .csma_1gb5ms⟩] ∧
    (createCampusNodes Config.default.nClientsPer 0).net2Clients.GetN =
      7 * Config.default.nClientsPer ∧
    (∀ j, j < 7 * Config.default.nClientsPer →
      ((buildTopology Config.default).links 0).filter (fun l =>
          decide (l.a = (createCampusNodes Config.default.nClientsPer 0).net2Clients.Get j ∨
            l.b = (createCampusNodes Config.default.nClientsPer 0).net2Clients.Get j)) =
        [⟨⟨.net2Switches, 0, tier2SwitchOf Config.default.nClientsPer j⟩,
          ⟨.net2Clients, 0, j⟩, .csma_100mb1ms⟩]) ∧
    (∀ l ∈ (buildTopology Config.default).links 0,
      l.a.group = .net2Clients ∨ l.b.group = .net2Clients →
      ∃ j, j < 7 * Config.default.nClientsPer ∧
        l = ⟨⟨.net2Switches, 0, tier2SwitchOf Config.default.nClientsPer j⟩,
          ⟨.net2Clients, 0, j⟩, .csma_100mb1ms⟩)) :=
  ⟨by decide, tier2_wiring Config.default 0 (by decide) (by decide)⟩

/-- Claim C12: when setup completes, the links of a campus with both ends among its tier-3
switch nodes are exactly 0-1, 1-2, 1-3, 2-3; every tier-3 client of pool index
`j < 5 * nClientsPer` is an end of exactly one link, which joins it to switch 0 for `j` in
`[0,2n)`, to switch 2 for `j` in `[2n,3n)` and to switch 3 for `j` in `[3n,5n)`; and no
other link of the campus touches a tier-3 client, so switch 1 gets none. -/
theorem tier3_wiring (cfg : Config) (z : Nat) (hz : z < cfg.nCampuses)
    (hrun : (buildTopology cfg).aborted = false) :
    ((buildTopology cfg).links z).filter (fun l =>
        decide (l.a ∈ (createCampusNodes cfg.nClientsPer z).net3Switches.nodes) &&
        decide (l.b ∈ (createCampusNodes cfg.nClientsPer z).net3Switches.nodes)) =
      [⟨⟨.net3Switches, z, 0⟩, ⟨.net3Switches, z, 1⟩, .csma_1gb5ms⟩,
       ⟨⟨.net3Switches, z, 1⟩, ⟨.net3Switches, z, 2⟩, .csma_1gb5ms⟩,
       ⟨⟨.net3Switches, z, 1⟩, ⟨.net3Switches, z, 3⟩, .csma_1gb5ms⟩,
       ⟨⟨.net3Switches, z, 2⟩, ⟨.net3Switches, z, 3⟩, .csma_1gb5ms⟩] ∧
    (createCampusNodes cfg.nClientsPer z).net3Clients.GetN = 5 * cfg.nClientsPer ∧
    (∀ j, j < 5 * cfg.nClientsPer →
      ((buildTopology cfg).links z).filter (fun l =>
          decide (l.a = (createCampusNodes cfg.nClientsPer z).net3Clients.Get j ∨
            l.b = (createCampusNodes cfg.nClientsPer z).net3Clients.Get j)) =
        [⟨⟨.net3Switches, z, tier3SwitchOf cfg.nClientsPer j⟩, ⟨.net3Clients, z, j⟩,
          .csma_100mb1ms⟩]) ∧
    (∀ l ∈ (buildTopology cfg).links z,
      l.a.group = .net3Clients ∨ l.b.group = .net3Clients →
      ∃ j, j < 5 * cfg.nClientsPer ∧
        l = ⟨⟨.net3Switches, z, tier3SwitchOf cfg.nClientsPer j⟩, ⟨.net3Clients, z, j⟩,
          .csma_100mb1ms⟩) :=
  ⟨tier3_internal_links cfg z hz hrun, rfl,
    fun j hj => tier3_client_link cfg z hz hrun j hj,
    fun l hl hg => tier3_client_links_only cfg z hz hrun l hl hg⟩

/-- Witness for claim C12: campus 0 of the default configuration (`nClientsPer = 8`). -/
theorem tier3_wiring_witness :
    (0 < Config.default.nCampuses ∧ (buildTopology Config.default).aborted = false) ∧
    (((buildTopology Config.default).links 0).filter (fun l =>
        decide (l.a ∈ (createCampusNodes Config.default.nClientsPer 0).net3Switches.nodes) &&
        decide (l.b ∈ (createCampusNodes Config.default.nClientsPer 0).net3Switches.nodes)) =
      [⟨⟨.net3Switches, 0, 0⟩, ⟨.net3Switches, 0, 1⟩, .csma_1gb5ms⟩,
       ⟨⟨.net3Switches, 0, 1⟩, ⟨.net3Switches, 0, 2⟩, .csma_1gb5ms⟩,
       ⟨⟨.net3Switches, 0, 1⟩, ⟨.net3Switches, 0, 3⟩, .csma_1gb5ms⟩,
       ⟨⟨.net3Switches, 0, 2⟩, ⟨.net3Switches, 0, 3⟩, .csma_1gb5ms⟩] ∧
    (createCampusNodes Config.default.nClientsPer 0).net3Clients.GetN =
      5 * Config.default.nClientsPer ∧
    (∀ j, j < 5 * Config.default.nClientsPer →
      ((buildTopology Config.default).links 0).filter (fun l =>
          decide (l.a = (createCampusNodes Config.default.nClientsPer 0).net3Clients.Get j ∨
            l.b = (createCampusNodes Config.default.nClientsPer 0).net3Clients.Get j)) =
        [⟨⟨.net3Switches, 0, tier3SwitchOf Config.default.nClientsPer j⟩,
          ⟨.net3Clients, 0, j⟩, .csma_100mb1ms⟩]) ∧
    (∀ l ∈ (buildTopology Config.default).links 0,
      l.a.group = .net3Clients ∨ l.b.group = .net3Clients →
      ∃ j, j < 5 * Config.default.nClientsPer ∧
        l = ⟨⟨.net3Switches, 0, tier3SwitchOf Config.default.nClientsPer j⟩,
          ⟨.net3Clients, 0, j⟩, .csma_100mb1ms⟩)) :=
  ⟨by decide, tier3_wiring Config.default 0 (by decide) (by decide)⟩

/-- Claim C14: when setup completes, the flow of wave `w`, repetition `i` and destination
`d` (entry `16 * w + 4 * i + d` of the client applications, for every enabled wave) is
addressed to the address recorded for the device of server `d` of campus 0, on port
`45000 + 100 * w + i`, and the sink created with it sits on that server and listens on
that port; no two sinks share node and port; with `numFlows = 3` the ports in use are
exactly 45000..45003, 45100..45103 and 45200..45203. -/
theorem flow_destinations (cfg : Config) (nrng : NormalRandomVariable)
    (h1 : 1 ≤ cfg.nCampuses) (hrun : (buildTopology cfg).aborted = false) :
    ∃ t, (main cfg nrng).traffic = some t ∧
      (∀ w i d, w < min cfg.numFlows 3 → i < 4 → d < 4 →
        ∃ a x, t.clientApps.get? (16 * w + 4 * i + d) = some a ∧
          ((buildTopology cfg).ifaces ⟨.net1Interfaces, 0⟩).get? d = some x ∧
          x.dev.node = ⟨.net1Servers, 0, d⟩ ∧
          a.remote = some x.addr ∧ a.port = 45000 + 100 * w + i ∧
          t.sinkApps.get? (16 * w + 4 * i + d) =
            some ⟨⟨.net1Servers, 0, d⟩, 45000 + 100 * w + i⟩) ∧
      t.sinkApps.Nodup ∧
      (cfg.numFlows = 3 → ∀ p,
        (p ∈ t.clientApps.map OnOffApp.port ↔
          p ∈ [45000, 45001, 45002, 45003, 45100, 45101, 45102, 45103,
            45200, 45201, 45202, 45203]) ∧
        (p ∈ t.sinkApps.map PacketSink.port ↔
          p ∈ [45000, 45001, 45002, 45003, 45100, 45101, 45102, 45103,
            45200, 45201, 45202, 45203])) := by
  refine ⟨_, main_traffic cfg nrng h1 hrun, ?_, ?_, ?_⟩
  · intro w i d hw hi hd
    obtain ⟨x, hx, hxn⟩ := server_ifaces cfg h1 hrun d hd
    have hc := clientApps_targets nrng cfg.nClientsPer cfg.numFlows (campus0 cfg)
    have hk := congrArg (fun l => l[16 * w + 4 * i + d]?) hc
    simp only at hk
    rw [List.getElem?_map _ (flowTargets.take _), targets_get _ w i d hw hi hd,
      Option.map_some'] at hk
    obtain ⟨a, ha, hab⟩ := getElem?_of_map _ _ _ _ hk
    have hr : a.remote = some x.addr := by
      have := congrArg Prod.fst hab
      simp only [GetAddress, campus0, hx, Option.map_some'] at this
      exact this
    have hp : a.port = 45000 + 100 * w + i := congrArg Prod.snd hab
    refine ⟨a, x, by rw [List.get?_eq_getElem?]; exact ha, hx, hxn, hr, hp, ?_⟩
    rw [sinkApps_targets, List.get?_eq_getElem?, List.getElem?_map,
      targets_get _ w i d hw hi hd]
    rfl
  · rw [sinkApps_targets]
    apply List.Nodup.map
    · intro q r h
      have e1 := congrArg (fun k : PacketSink => k.node.idx) h
      have e2 := congrArg PacketSink.port h
      exact Prod.ext e1 e2
    · exact flowTargets_nodup.sublist (List.take_sublist _ _)
  · intro h3 p
    have hfull : flowTargets.take (16 * min cfg.numFlows 3) = flowTargets := by
      rw [h3]; decide
    constructor
    · have := congrArg (List.map Prod.snd)
        (clientApps_targets nrng cfg.nClientsPer cfg.numFlows (campus0 cfg))
      rw [List.map_map, List.map_map, hfull] at this
      have e : (createTrafficFlows nrng cfg.nClientsPer cfg.numFlows (campus0 cfg)).clientApps.map
          OnOffApp.port = flowTargets.map Prod.snd := this
      rw [e]
      exact flowTargets_ports p
    · rw [sinkApps_targets, hfull, List.map_map]
      exact flowTargets_ports p

/-- Witness for claim C14: the default configuration with three waves. -/
theorem flow_destinations_witness :
    (1 ≤ cfgThreeWaves.nCampuses ∧ (buildTopology cfgThreeWaves).aborted = false) ∧
    ∃ t, (main cfgThreeWaves nrngCount).traffic = some t ∧
      (∀ w i d, w < min cfgThreeWaves.numFlows 3 → i < 4 → d < 4 →
        ∃ a x, t.clientApps.get? (16 * w + 4 * i + d) = some a ∧
          ((buildTopology cfgThreeWaves).ifaces ⟨.net1Interfaces, 0⟩).get? d = some x ∧
          x.dev.node = ⟨.net1Servers, 0, d⟩ ∧
          a.remote = some x.addr ∧ a.port = 45000 + 100 * w + i ∧
          t.sinkApps.get? (16 * w + 4 * i + d) =
            some ⟨⟨.net1Servers, 0, d⟩, 45000 + 100 * w + i⟩) ∧
      t.sinkApps.Nodup ∧
      (cfgThreeWaves.numFlows = 3 → ∀ p,
        (p ∈ t.clientApps.map OnOffApp.port ↔
          p ∈ [45000, 45001, 45002, 45003, 45100, 45101, 45102, 45103,
            45200, 45201, 45202, 45203]) ∧
        (p ∈ t.sinkApps.map PacketSink.port ↔
          p ∈ [45000, 45001, 45002, 45003, 45100, 45101, 45102, 45103,
            45200, 45201, 45202, 45203])) :=
  ⟨by decide, flow_destinations cfgThreeWaves nrngCount (by decide) (by decide)⟩

end DceCampus
